import Mathlib

/-!
# Hand-tracked drawing: loops, pinches, markers and lines

A shallow embedding of A-Frame components of
`learnings/vite-hand-tracking-webxr-main/js/components`:

* `hand-xr-draw.js`: `getLineIntersection` and `checkSelfIntersection`
  (the loop detector run on a recorded stroke), and the stroke recorder
  `handleDrawing`, `startStroke`, `addPointToStroke`, `endStroke`;
* `hand-xr-pinch-detector.js`: `tick` (the pinch detector);
* `mediapipe-portal-hand.js`: the loop event of its `endStroke`;
* `path-animator-simple.js`: `tick` and `play`;
* `pinchable-xr.js` and `pinchable-ar.js`: grabbing, moving and releasing a
  marker;
* `pinchable-line.js` and `pinchable-line-ar.js`: grabbing and dragging a
  line;
* `path-sphere-spawner.js`: the handlers that attach markers to loops, and
  `distanceToLineSegment`.

JavaScript numbers are modelled by exact rationals, but for the loop
variable of `play`, which is modelled as the double it is: the number of
samples depends on the rounding of its additions.  A comparison of a
`THREE.Vector3.distanceTo` value with a bound is modelled by the equivalent
comparison of the squared distance with the squared bound, so every
definition stays computable; `distanceLt_iff_sqrt`, `distanceGt_iff_sqrt`,
`projection_tests` and `segmentDistance_lt_iff` relate the two forms.
Entities are named by numbers, events are returned as lists, and what a
handler reads from the scene is passed to it.
-/

namespace HandXr

/-! ## THREE.Vector3 -/

/-- The three.js vector of three coordinates. -/
structure Vector3 where
  x : ℚ
  y : ℚ
  z : ℚ
deriving DecidableEq, Repr

namespace Vector3

/-- The three.js `clone`: a fresh vector with the same coordinates. -/
def clone (v : Vector3) : Vector3 := ⟨v.x, v.y, v.z⟩

/-- The three.js `distanceToSquared`: `dx*dx + dy*dy + dz*dz`. -/
def distanceToSquared (a b : Vector3) : ℚ :=
  (a.x - b.x) * (a.x - b.x) + (a.y - b.y) * (a.y - b.y) + (a.z - b.z) * (a.z - b.z)

/-- The test `a.distanceTo(b) < r`, where `distanceTo` is the square root of
`distanceToSquared`: a non-negative root is below `r` exactly when `r` is
positive and the square is below `r * r`. -/
def distanceLt (a b : Vector3) (r : ℚ) : Prop :=
  0 < r ∧ distanceToSquared a b < r * r

/-- The test `a.distanceTo(b) > r`: a non-negative root exceeds `r` exactly
when `r` is negative or the square exceeds `r * r`. -/
def distanceGt (a b : Vector3) (r : ℚ) : Prop :=
  r < 0 ∨ r * r < distanceToSquared a b

instance (a b : Vector3) (r : ℚ) : Decidable (distanceLt a b r) := by
  unfold distanceLt; infer_instance

instance (a b : Vector3) (r : ℚ) : Decidable (distanceGt a b r) := by
  unfold distanceGt; infer_instance

/-- The three.js `lerpVectors(v1, v2, alpha)`: `v1 + (v2 - v1) * alpha`,
coordinate by coordinate. -/
def lerpVectors (v1 v2 : Vector3) (alpha : ℚ) : Vector3 :=
  ⟨v1.x + (v2.x - v1.x) * alpha, v1.y + (v2.y - v1.y) * alpha, v1.z + (v2.z - v1.z) * alpha⟩

/-- The midpoint of two vectors. -/
def midpoint (a b : Vector3) : Vector3 :=
  ⟨(a.x + b.x) / 2, (a.y + b.y) / 2, (a.z + b.z) / 2⟩

end Vector3

/-! ## hand-xr-draw.js: the loop detector -/

/-- The object `{ x: intersectX, z: intersectZ }` returned by
`getLineIntersection`. -/
structure Point2 where
  x : ℚ
  z : ℚ
deriving DecidableEq, Repr

/-- The object `{ point, index }` returned by `checkSelfIntersection`. -/
structure Intersection where
  point : Vector3
  index : ℕ
deriving DecidableEq, Repr

/-- The source's `getLineIntersection(x1, y1, x2, y2, x3, y3, x4, y4)`;
`none` is the source's `null`. -/
def getLineIntersection (x1 y1 x2 y2 x3 y3 x4 y4 : ℚ) : Option Point2 :=
  let dx1 := x2 - x1
  let dy1 := y2 - y1
  let dx2 := x4 - x3
  let dy2 := y4 - y3
  let denom := dx1 * dy2 - dy1 * dx2
  if |denom| < 1 / 10000 then none
  else
    let t := ((x3 - x1) * dy2 - (y3 - y1) * dx2) / denom
    let u := ((x3 - x1) * dy1 - (y3 - y1) * dx1) / denom
    if 0 ≤ t ∧ t ≤ 1 ∧ 0 ≤ u ∧ u ≤ 1 then
      some ⟨x1 + t * dx1, y1 + t * dy1⟩
    else none

/-- The element `strokePoints[i]`; every index the loops use is in range. -/
def pointAt (pts : List Vector3) (i : ℕ) : Vector3 := pts.getD i ⟨0, 0, 0⟩

/-- The average height `(p.y + q.y) / 2` of the segment from `strokePoints[i]`
to `strokePoints[i + 1]` (`avgY1`, `avgY2` in the source). -/
def avgY (pts : List Vector3) (i : ℕ) : ℚ := ((pointAt pts i).y + (pointAt pts (i + 1)).y) / 2

/-- The call of `getLineIntersection` on the (x, z) projections of the
segments `i` and `j` of the stroke. -/
def segmentIntersection (pts : List Vector3) (i j : ℕ) : Option Point2 :=
  getLineIntersection
    (pointAt pts i).x (pointAt pts i).z
    (pointAt pts (i + 1)).x (pointAt pts (i + 1)).z
    (pointAt pts j).x (pointAt pts j).z
    (pointAt pts (j + 1)).x (pointAt pts (j + 1)).z

/-- The body of the inner loop of `checkSelfIntersection` for the indices
`i` and `j`: `some r` when the body executes `return r`, `none` when it falls
through (or `continue`s) to the next iteration. -/
def pairCheck (pts : List Vector3) (i j : ℕ) : Option Intersection :=
  if |(i : ℤ) - (j : ℤ)| ≤ 1 then none
  else
    match segmentIntersection pts i j with
    | none => none
    | some intersection =>
      let avgY1 := avgY pts i
      let avgY2 := avgY pts j
      let yDiff := |avgY1 - avgY2|
      if yDiff < 3 / 10 then
        some ⟨⟨intersection.x, (avgY1 + avgY2) / 2, intersection.z⟩, min i j + 1⟩
      else none

/-- The inner loop `for (let j = 0; j < length - 1; j++)` for a fixed `i`,
stopping at the first `return`. -/
def innerLoop (pts : List Vector3) (i : ℕ) : Option Intersection :=
  (List.range (pts.length - 1)).findSome? (fun j => pairCheck pts i j)

/-- The nested loops of `checkSelfIntersection`, stopping at the first
`return`. -/
def segmentScan (pts : List Vector3) : Option Intersection :=
  (List.range (pts.length - 1)).findSome? (fun i => innerLoop pts i)

/-- The tail of `checkSelfIntersection`, reached when the loops return
nothing: the start/end proximity test. -/
def closureCheck (pts : List Vector3) : Option Intersection :=
  if 10 < pts.length then
    let startPoint := pointAt pts 0
    let endPoint := pointAt pts (pts.length - 1)
    if Vector3.distanceLt startPoint endPoint (15 / 100) then
      some ⟨startPoint.clone, 0⟩
    else none
  else none

/-- The source's `checkSelfIntersection`, as a function of `strokePoints`. -/
def checkSelfIntersection (pts : List Vector3) : Option Intersection :=
  if pts.length < 4 then none
  else
    match segmentScan pts with
    | some r => some r
    | none => closureCheck pts

/-- The polyline of the X-shape example. -/
def xShape : List Vector3 := [⟨0, 0, 0⟩, ⟨1, 0, 1⟩, ⟨0, 0, 1⟩, ⟨1, 0, 0⟩]

/-- The X-shape lifted so that its two crossing segments are one unit of
height apart. -/
def xShapeSplit : List Vector3 := [⟨0, 0, 0⟩, ⟨1, 0, 1⟩, ⟨0, 1, 1⟩, ⟨1, 1, 0⟩]

/-- Eleven points on a straight line, one hundredth apart. -/
def line11 : List Vector3 :=
  [⟨0, 0, 0⟩, ⟨1 / 100, 0, 0⟩, ⟨2 / 100, 0, 0⟩, ⟨3 / 100, 0, 0⟩, ⟨4 / 100, 0, 0⟩,
   ⟨5 / 100, 0, 0⟩, ⟨6 / 100, 0, 0⟩, ⟨7 / 100, 0, 0⟩, ⟨8 / 100, 0, 0⟩, ⟨9 / 100, 0, 0⟩,
   ⟨10 / 100, 0, 0⟩]

/-- The closed unit square in the horizontal plane, from the corner at the
origin and back to it, each edge cut in three: thirteen points. -/
def closedSquare13 : List Vector3 :=
  [⟨0, 0, 0⟩, ⟨1 / 3, 0, 0⟩, ⟨2 / 3, 0, 0⟩, ⟨1, 0, 0⟩,
   ⟨1, 0, 1 / 3⟩, ⟨1, 0, 2 / 3⟩, ⟨1, 0, 1⟩,
   ⟨2 / 3, 0, 1⟩, ⟨1 / 3, 0, 1⟩, ⟨0, 0, 1⟩,
   ⟨0, 0, 2 / 3⟩, ⟨0, 0, 1 / 3⟩, ⟨0, 0, 0⟩]

/-- A closed square of side 0.01 in the horizontal plane, from the corner at
the origin and back to it, the first edge cut in three and the others in
two: ten points. -/
def closedSquare10 : List Vector3 :=
  [⟨0, 0, 0⟩, ⟨1 / 300, 0, 0⟩, ⟨2 / 300, 0, 0⟩, ⟨1 / 100, 0, 0⟩,
   ⟨1 / 100, 0, 1 / 200⟩, ⟨1 / 100, 0, 1 / 100⟩,
   ⟨1 / 200, 0, 1 / 100⟩, ⟨0, 0, 1 / 100⟩,
   ⟨0, 0, 1 / 200⟩, ⟨0, 0, 0⟩]

/-- A segment pair qualifies, in the words of the loop detector's contract:
the 2D intersection of the (x, z) projections is non-null and the average
heights of the two segments differ by less than 0.3. -/
def Qualifies (pts : List Vector3) (i j : ℕ) : Prop :=
  segmentIntersection pts i j ≠ none ∧ |avgY pts i - avgY pts j| < 3 / 10

/-- The pair `(i, j)` is visited by the nested loops and not skipped: both
are segment indices of the stroke and they are neither equal nor adjacent. -/
def Visited (pts : List Vector3) (i j : ℕ) : Prop :=
  i + 1 < pts.length ∧ j + 1 < pts.length ∧ 1 < |(i : ℤ) - (j : ℤ)|

/-- The pair `(i', j')` comes before `(i, j)` in nested iteration order. -/
def Before (i' j' i j : ℕ) : Prop := i' < i ∨ (i' = i ∧ j' < j)

/-- The value the loop body returns for a qualifying pair with 2D
intersection `p`. -/
def crossingResult (pts : List Vector3) (i j : ℕ) (p : Point2) : Intersection :=
  ⟨⟨p.x, (avgY pts i + avgY pts j) / 2, p.z⟩, min i j + 1⟩

/-! ## hand-xr-pinch-detector.js: the pinch detector -/

/-- The schema property `hand`, one of `left` and `right`. -/
inductive Hand where
  | left
  | right
deriving DecidableEq, Repr

/-- The component's `data`: the schema properties. -/
structure PinchData where
  hand : Hand
  pinchThreshold : ℚ
  releaseThreshold : ℚ
deriving DecidableEq, Repr

/-- An event emitted on the scene, with its `hand` and `position` detail. -/
inductive PinchEvent where
  | pinchstarted (hand : Hand) (position : Vector3)
  | pinchended (hand : Hand) (position : Vector3)
  | pinchmoved (hand : Hand) (position : Vector3)
deriving DecidableEq, Repr

/-- What one `tick` reads from the scene.
* `hasControls`: `this.el.components['hand-tracking-controls']` is defined;
* `visible`: `handTracking.el.object3D.visible`;
* `children`: `handModel.children.length`;
* `thumbTip`, `indexTip`: the world position of the object that
  `getObjectByName` finds for `thumb-tip` and `index-finger-tip`, or `none`
  when it finds nothing. -/
structure HandFrame where
  hasControls : Bool
  visible : Bool
  children : ℕ
  thumbTip : Option Vector3
  indexTip : Option Vector3
deriving DecidableEq, Repr

/-- The component's fields; `handTracking` records whether the cached
reference `this.handTracking` is set. -/
structure PinchDetector where
  isPinching : Bool
  pinchPosition : Vector3
  thumbTipPosition : Vector3
  indexTipPosition : Vector3
  handTracking : Bool
deriving DecidableEq, Repr

namespace PinchDetector

/-- The source's `init`. -/
def init : PinchDetector :=
  { isPinching := false
    pinchPosition := ⟨0, 0, 0⟩
    thumbTipPosition := ⟨0, 0, 0⟩
    indexTipPosition := ⟨0, 0, 0⟩
    handTracking := false }

/-- The source's `tick`: the new fields and the events emitted, in order. -/
def tick (data : PinchData) (s : PinchDetector) (f : HandFrame) :
    PinchDetector × List PinchEvent :=
  if s.handTracking = false ∧ f.hasControls = false then (s, [])
  else
    let s := { s with handTracking := true }
    if f.visible = false then
      if s.isPinching = true then
        ({ s with isPinching := false }, [PinchEvent.pinchended data.hand s.pinchPosition.clone])
      else (s, [])
    else if f.children = 0 then (s, [])
    else
      match f.thumbTip, f.indexTip with
      | some thumbTip, some indexTip =>
        let s := { s with thumbTipPosition := thumbTip, indexTipPosition := indexTip }
        let s := { s with pinchPosition := Vector3.lerpVectors thumbTip indexTip (1 / 2) }
        if s.isPinching = false ∧ Vector3.distanceLt thumbTip indexTip data.pinchThreshold then
          ({ s with isPinching := true },
            [PinchEvent.pinchstarted data.hand s.pinchPosition.clone])
        else if s.isPinching = true ∧
            Vector3.distanceGt thumbTip indexTip data.releaseThreshold then
          ({ s with isPinching := false },
            [PinchEvent.pinchended data.hand s.pinchPosition.clone])
        else if s.isPinching = true then
          (s, [PinchEvent.pinchmoved data.hand s.pinchPosition.clone])
        else (s, [])
      | _, _ => (s, [])

/-- The detector run over a sequence of frames, one `tick` each: the final
fields and all events emitted, in order. -/
def run (data : PinchData) : PinchDetector → List HandFrame → PinchDetector × List PinchEvent
  | s, [] => (s, [])
  | s, f :: fs =>
    let r := tick data s f
    let rest := run data r.1 fs
    (rest.1, r.2 ++ rest.2)

end PinchDetector

/-- The frame shows a visible hand with both fingertips available, the thumb
tip at `thumb` and the index-finger tip at `index`. -/
def Tracked (f : HandFrame) (thumb index : Vector3) : Prop :=
  f.hasControls = true ∧ f.visible = true ∧ f.children ≠ 0 ∧
    f.thumbTip = some thumb ∧ f.indexTip = some index

/-- A visible-hand frame whose thumb-index distance is below `r`. -/
def FrameBelow (f : HandFrame) (r : ℚ) : Prop :=
  ∃ thumb index, Tracked f thumb index ∧ Vector3.distanceLt thumb index r

/-- A visible-hand frame whose thumb-index distance is at least `r`. -/
def FrameAtLeast (f : HandFrame) (r : ℚ) : Prop :=
  ∃ thumb index, Tracked f thumb index ∧ ¬ Vector3.distanceLt thumb index r

/-- A visible-hand frame whose thumb-index distance is above `r`. -/
def FrameAbove (f : HandFrame) (r : ℚ) : Prop :=
  ∃ thumb index, Tracked f thumb index ∧ Vector3.distanceGt thumb index r

/-- A visible-hand frame whose thumb-index distance is at most `r`. -/
def FrameAtMost (f : HandFrame) (r : ℚ) : Prop :=
  ∃ thumb index, Tracked f thumb index ∧ ¬ Vector3.distanceGt thumb index r

/-- The pinch-start and pinch-end events of an event sequence, in order. -/
def startEnd : List PinchEvent → List PinchEvent
  | [] => []
  | PinchEvent.pinchmoved _ _ :: es => startEnd es
  | e :: es => e :: startEnd es

/-- The pinch-start and pinch-end events of `es` strictly alternate, the
first of them being a pinch-start when `expectStart` is true and a pinch-end
otherwise. -/
def alternates : Bool → List PinchEvent → Bool
  | _, [] => true
  | expectStart, PinchEvent.pinchstarted _ _ :: es => expectStart && alternates false es
  | expectStart, PinchEvent.pinchended _ _ :: es => !expectStart && alternates true es
  | expectStart, PinchEvent.pinchmoved _ _ :: es => alternates expectStart es

/-- A visible-hand frame whose thumb-index distance lies in the band from
`lo` to `hi`, both ends included. -/
def FrameInBand (f : HandFrame) (lo hi : ℚ) : Prop :=
  ∃ thumb index, Tracked f thumb index ∧ ¬ Vector3.distanceLt thumb index lo ∧
    ¬ Vector3.distanceGt thumb index hi

/-- A visible-hand frame with the given fingertip positions. -/
def trackedFrame (thumb index : Vector3) : HandFrame :=
  { hasControls := true, visible := true, children := 25,
    thumbTip := some thumb, indexTip := some index }

/-- A visible-hand frame with the thumb tip at the origin and the index tip
at distance `d` from it along the x axis (`d` not negative). -/
def frameAt (d : ℚ) : HandFrame := trackedFrame ⟨0, 0, 0⟩ ⟨d, 0, 0⟩

/-- A frame in which the hand is not visible. -/
def hiddenFrame : HandFrame :=
  { hasControls := true, visible := false, children := 25,
    thumbTip := some ⟨0, 0, 0⟩, indexTip := some ⟨1 / 100, 0, 0⟩ }

/-- The detector after a pinch has started from the initial state on a frame
at distance 0.03: it pinches at `(0.015, 0, 0)`. -/
def pinchingDetector : PinchDetector :=
  { isPinching := true
    pinchPosition := ⟨3 / 200, 0, 0⟩
    thumbTipPosition := ⟨0, 0, 0⟩
    indexTipPosition := ⟨3 / 100, 0, 0⟩
    handTracking := true }

/-- The states the component can be in: those a sequence of ticks reaches
from `init`. -/
def Reachable (data : PinchData) (s : PinchDetector) : Prop :=
  ∃ frames, s = (PinchDetector.run data PinchDetector.init frames).1

/-- The default schema values: thresholds 0.04 and 0.06. -/
def defaultData : PinchData :=
  { hand := Hand.right, pinchThreshold := 4 / 100, releaseThreshold := 6 / 100 }

/-- A frame in which the hand is visible but its model has no joints. -/
def jointlessFrame : HandFrame :=
  { hasControls := true, visible := true, children := 0, thumbTip := none, indexTip := none }

/-- A frame in which the hand is visible and has joints, but no joint named
`thumb-tip` is found. -/
def thumblessFrame : HandFrame :=
  { hasControls := true, visible := true, children := 25,
    thumbTip := none, indexTip := some ⟨1 / 100, 0, 0⟩ }
/-! ## hand-xr-draw.js: the stroke recorder -/

/-- An event the drawing component emits.
* `drawingLoopCreated`: `drawing-loop-created` on the scene, with its `path`,
  `hand`, `intersection` and `lineEntity` detail; it is emitted inside
  `if (intersection)`, so its intersection is never null;
* `pathDataSet`: `path-data-set` on the stroke entity, with its `path`. -/
inductive DrawEvent where
  | drawingLoopCreated (path : List Vector3) (hand : Hand) (intersection : Intersection)
      (lineEntity : Option ℕ)
  | pathDataSet (entity : ℕ) (path : List Vector3)
deriving DecidableEq, Repr

/-- The fields of the drawing component that the stroke recorder uses.
Stroke entities are named by numbers: `container` lists the children of
`drawingContainer` and `nextEntity` is the name the next created entity
gets.  The mesh of a stroke is rendering only and is left out. -/
structure DrawState where
  isDrawing : Bool
  currentStroke : Option ℕ
  strokePoints : List Vector3
  previousPosition : Vector3
  detectedIntersection : Option Intersection
  container : List ℕ
  nextEntity : ℕ
deriving DecidableEq, Repr

namespace DrawState

/-- The drawing state set up by the source's `init`. -/
def init : DrawState :=
  { isDrawing := false
    currentStroke := none
    strokePoints := []
    previousPosition := ⟨0, 0, 0⟩
    detectedIntersection := none
    container := []
    nextEntity := 0 }

/-- The source's `startStroke`. -/
def startStroke (s : DrawState) : DrawState :=
  { s with
    strokePoints := []
    detectedIntersection := none
    currentStroke := some s.nextEntity
    container := s.container ++ [s.nextEntity]
    nextEntity := s.nextEntity + 1 }

/-- The source's `addPointToStroke`. -/
def addPointToStroke (s : DrawState) (position : Vector3) : DrawState :=
  let s := { s with strokePoints := s.strokePoints ++ [position.clone] }
  if 4 < s.strokePoints.length ∧ s.strokePoints.length % 10 = 0 then
    match checkSelfIntersection s.strokePoints with
    | some intersection => { s with detectedIntersection := some intersection }
    | none => s
  else s

/-- The value of `this.detectedIntersection || this.checkSelfIntersection()`
in `endStroke`. -/
def finalIntersection (s : DrawState) : Option Intersection :=
  match s.detectedIntersection with
  | some r => some r
  | none => checkSelfIntersection s.strokePoints

/-- The source's `endStroke`: the new state and the events emitted, in
order. -/
def endStroke (hand : Hand) (s : DrawState) : DrawState × List DrawEvent :=
  let r : List ℕ × List DrawEvent :=
    if s.strokePoints.length < 2 ∧ s.currentStroke.isSome then
      (s.container.filter (fun e => some e ≠ s.currentStroke), [])
    else if 3 ≤ s.strokePoints.length then
      let loopEvents :=
        match finalIntersection s with
        | some intersection =>
          [DrawEvent.drawingLoopCreated (s.strokePoints.map Vector3.clone) hand intersection
            s.currentStroke]
        | none => []
      let dataEvents :=
        match s.currentStroke with
        | some e =>
          if 0 < s.strokePoints.length then
            [DrawEvent.pathDataSet e (s.strokePoints.map Vector3.clone)]
          else []
        | none => []
      (s.container, loopEvents ++ dataEvents)
    else (s.container, [])
  ({ s with currentStroke := none, strokePoints := [], detectedIntersection := none,
            container := r.1 }, r.2)

/-- The source's `handleDrawing`: the new state and the events emitted. -/
def handleDrawing (hand : Hand) (s : DrawState) (position : Vector3) :
    DrawState × List DrawEvent :=
  if s.isDrawing = false then
    let r := if s.currentStroke.isSome then endStroke hand s else (s, [])
    ({ r.1 with previousPosition := position }, r.2)
  else
    let previous := s.previousPosition
    let s := if s.currentStroke.isNone then startStroke s else s
    if Vector3.distanceGt position previous (1 / 1000) ∧
        Vector3.distanceLt position previous (1 / 10) then
      ({ addPointToStroke s position with previousPosition := position }, [])
    else if Vector3.distanceGt position previous (1 / 10) then
      let r := endStroke hand s
      ({ startStroke r.1 with previousPosition := position }, r.2)
    else ({ s with previousPosition := position }, [])

/-- A sequence of position updates, one `handleDrawing` each: the final state
and all events emitted, in order. -/
def handleDrawingAll (hand : Hand) : DrawState → List Vector3 → DrawState × List DrawEvent
  | s, [] => (s, [])
  | s, p :: ps =>
    let r := handleDrawing hand s p
    let rest := handleDrawingAll hand r.1 ps
    (rest.1, r.2 ++ rest.2)

end DrawState

/-- The position `p` is more than the minimum step 0.001 and less than the
maximum jump 0.1 away from `q`. -/
def InBand (p q : Vector3) : Prop :=
  Vector3.distanceGt p q (1 / 1000) ∧ Vector3.distanceLt p q (1 / 10)

/-- Every two consecutive points of the polyline are in the band. -/
def StrokeChain : List Vector3 → Prop
  | [] => True
  | [_] => True
  | a :: b :: rest => InBand b a ∧ StrokeChain (b :: rest)

/-- No update of the sequence is ignored: each position is in the band of the
position update before it (the point is recorded) or more than 0.1 away from
it (the stroke is broken); `previous` is the position update before the
first. -/
def NoneIgnored : Vector3 → List Vector3 → Prop
  | _, [] => True
  | previous, p :: ps =>
    (InBand p previous ∨ Vector3.distanceGt p previous (1 / 10)) ∧ NoneIgnored p ps

/-- The drawing component after `init`, with drawing enabled. -/
def drawingEnabled : DrawState := { DrawState.init with isDrawing := true }

/-- Each position of the sequence is in the band of the one before it;
`previous` is the position before the first. -/
def ChainFrom : Vector3 → List Vector3 → Prop
  | _, [] => True
  | previous, p :: ps => InBand p previous ∧ ChainFrom p ps

/-- Each position of the sequence is at most the minimum step 0.001 away from
the one before it; `previous` is the position before the first. -/
def SlowFrom : Vector3 → List Vector3 → Prop
  | _, [] => True
  | previous, p :: ps => ¬ Vector3.distanceGt p previous (1 / 1000) ∧ SlowFrom p ps

/-- The positions `x + step`, `x + 2 step`, ..., `x + n step` on the x axis. -/
def lineFrom (x step : ℚ) : ℕ → List Vector3
  | 0 => []
  | n + 1 => ⟨x + step, 0, 0⟩ :: lineFrom (x + step) step n

/-- The drawing component after the first point `(0.01, 0, 0)` of a stroke
has been recorded from `drawingEnabled`. -/
def oneStroke : DrawState :=
  { isDrawing := true
    currentStroke := some 0
    strokePoints := [⟨1 / 100, 0, 0⟩]
    previousPosition := ⟨1 / 100, 0, 0⟩
    detectedIntersection := none
    container := [0]
    nextEntity := 1 }

/-- Three position updates: a first point, a nudge of 0.0005 forward, and a
move of 0.0012 back to 0.0007 before the first point. -/
def nudgeUpdates : List Vector3 :=
  [⟨1 / 100, 0, 0⟩, ⟨105 / 10000, 0, 0⟩, ⟨93 / 10000, 0, 0⟩]

/-- A first point, a hundred updates of 0.001 each along the x axis, and a
last update of 0.002. -/
def driftUpdates : List Vector3 :=
  ⟨1 / 100, 0, 0⟩ :: (lineFrom (1 / 100) (1 / 1000) 100 ++ [⟨112 / 1000, 0, 0⟩])

/-- The drawing component after three points 0.01 apart have been recorded
from `drawingEnabled`, on one line. -/
def threeStroke : DrawState :=
  { isDrawing := true
    currentStroke := some 0
    strokePoints := [⟨1 / 100, 0, 0⟩, ⟨2 / 100, 0, 0⟩, ⟨3 / 100, 0, 0⟩]
    previousPosition := ⟨3 / 100, 0, 0⟩
    detectedIntersection := none
    container := [0]
    nextEntity := 1 }

/-- The intersection stored during drawing, if any, is the result of the loop
detector on a prefix of the stroke whose length is a multiple of 10. -/
def StoredFromPrefix (s : DrawState) : Prop :=
  ∀ r, s.detectedIntersection = some r →
    ∃ k, 4 < k ∧ k % 10 = 0 ∧ k ≤ s.strokePoints.length ∧
      checkSelfIntersection (s.strokePoints.take k) = some r

/-- Twenty-one position updates on the x axis: twenty of them 0.007 apart,
from 0.007 to 0.14, and a last one at 0.23. -/
def awayUpdates : List Vector3 :=
  ⟨7 / 1000, 0, 0⟩ :: (lineFrom (7 / 1000) (7 / 1000) 19 ++ [⟨23 / 100, 0, 0⟩])

/-- The drawing component after the first point `(0.007, 0, 0)` of a stroke
has been recorded from `drawingEnabled`. -/
def awayStroke : DrawState :=
  { isDrawing := true
    currentStroke := some 0
    strokePoints := [⟨7 / 1000, 0, 0⟩]
    previousPosition := ⟨7 / 1000, 0, 0⟩
    detectedIntersection := none
    container := [0]
    nextEntity := 1 }

/-! ## mediapipe-portal-hand.js: the loop event of `endStroke` -/

namespace Portal

/-- The `drawing-loop-created` event of `mediapipe-portal-hand.js`, with its
`path`, `intersection` and `lineEntity` detail. -/
structure LoopEvent where
  path : List Vector3
  intersection : Intersection
  lineEntity : ℕ
deriving DecidableEq, Repr

/-- The source's `checkLoopIntersection`, as a function of `strokePoints`. -/
def checkLoopIntersection (pts : List Vector3) : Option Intersection :=
  if 10 < pts.length then
    let startPoint := pointAt pts 0
    let endPoint := pointAt pts (pts.length - 1)
    if Vector3.distanceLt startPoint endPoint (15 / 100) then
      some ⟨startPoint.clone, 0⟩
    else none
  else none

/-- The first block of the source's `endStroke`: the `drawing-loop-created`
events it emits, as a function of `strokePoints` and of the stroke entities
`currentStrokeEntities`. -/
def endStrokeLoopEvents (pts : List Vector3) (entities : List ℕ) : List LoopEvent :=
  if 3 < pts.length ∧ 0 < entities.length then
    let intersection := checkLoopIntersection pts
    match entities.getLast? with
    | some strokeEntity =>
      [{ path := pts.map Vector3.clone
         intersection :=
           match intersection with
           | some r => r
           | none => ⟨(pointAt pts 0).clone, 0⟩
         lineEntity := strokeEntity }]
    | none => []
  else []

end Portal

/-- Four points on a line, one unit apart. -/
def fourLine : List Vector3 := [⟨0, 0, 0⟩, ⟨1, 0, 0⟩, ⟨2, 0, 0⟩, ⟨3, 0, 0⟩]
/-! ## path-animator-simple.js: the path animator -/

/-- The JavaScript remainder `a % b` on numbers, for `b` other than zero:
`a - b * trunc(a / b)`, with the sign of `a`. -/
def jsRem (a b : ℚ) : ℚ :=
  a - b * ((if 0 ≤ a / b then ⌊a / b⌋ else ⌈a / b⌉ : ℤ) : ℚ)

/-- The three.js curve of the animator, of which the component uses
`getPointAt` only. -/
structure Curve where
  getPointAt : ℚ → Vector3

/-- The schema properties of the animator that `tick` and `play` read. -/
structure AnimatorData where
  speed : ℚ
  loop : Bool
deriving DecidableEq, Repr

/-- The fields of the animator, and `position`, the marker's
`el.object3D.position`. -/
structure PathAnimator where
  curve : Option Curve
  isPlaying : Bool
  currentDistance : ℚ
  totalLength : ℚ
  position : Vector3

/-- The running minimum of the sampling loop of `play`: `minDist` holds the
square of the source's `minDist`, `none` standing for `Infinity`;
`closestPoint` is `none` for the source's `null`. -/
structure Closest where
  minDist : Option ℚ
  closestT : ℚ
  closestPoint : Option Vector3
deriving DecidableEq, Repr

namespace PathAnimator

/-- The source's `tick(time, deltaTime)`. -/
def tick (data : AnimatorData) (s : PathAnimator) (deltaTime : ℚ) : PathAnimator :=
  match s.curve with
  | none => s
  | some curve =>
    if s.isPlaying = false then s
    else
      let s := { s with currentDistance := s.currentDistance + data.speed * (deltaTime / 1000) }
      let s :=
        if s.totalLength ≤ s.currentDistance then
          if data.loop = true then
            { s with currentDistance := jsRem s.currentDistance s.totalLength }
          else
            { s with currentDistance := s.totalLength, isPlaying := false }
        else s
      let t := s.currentDistance / s.totalLength
      let position := curve.getPointAt t
      { s with position := position }

/-- A sequence of ticks with the given delta times. -/
def tickAll (data : AnimatorData) (s : PathAnimator) (deltas : List ℚ) : PathAnimator :=
  deltas.foldl (tick data) s

/-- The body of the sampling loop of `play` at the parameter `t`; the test
`dist < minDist` compares the squares of the two distances. -/
def sampleStep (curve : Curve) (spherePos : Vector3) (acc : Closest) (t : ℚ) : Closest :=
  let point := curve.getPointAt t
  let dist := Vector3.distanceToSquared spherePos point
  match acc.minDist with
  | none => ⟨some dist, t, some point.clone⟩
  | some minDist => if dist < minDist then ⟨some dist, t, some point.clone⟩ else acc

/-- The number of low binary digits of `n` that do not fit into the 53
significant digits of a double: zero below `2 ^ 53`, and otherwise one more
than for the half of `n`.  The first argument bounds the recursion; `n`
itself is always enough. -/
def dropBits : ℕ → ℕ → ℕ
  | 0, _ => 0
  | fuel + 1, n => if n < 2 ^ 53 then 0 else dropBits fuel (n / 2) + 1

/-- The rounding of the result of a double addition: `n` counts units of
`2 ^ -62`, and the result is the nearest number with 53 significant binary
digits, the even one of two nearest. -/
def roundDouble (n : ℕ) : ℕ :=
  let sh := dropBits n n
  if sh = 0 then n
  else
    let q := n / 2 ^ sh
    let r := n % 2 ^ sh
    let half := 2 ^ (sh - 1)
    (if r < half then q else if half < r then q + 1 else if q % 2 = 0 then q else q + 1) * 2 ^ sh

/-- The double written `0.001` in the source, in units of `2 ^ -62`: its 53
significant digits are `0x10624DD2F1A9FC` and its exponent is `-62`. -/
def milli : ℕ := 4611686018427388

/-- The update `t += 0.001` of the loop variable of `play`, a double counted
in units of `2 ^ -62`: the exact sum, rounded. -/
def nextT (t : ℕ) : ℕ := roundDouble (t + milli)

/-- The number that the loop variable stands for. -/
def tValue (t : ℕ) : ℚ := (t : ℚ) / 2 ^ 62

/-- The loop `for (let t = ...; t <= 1; t += 0.001)` of `play`, entered with
the loop variable `t` in units of `2 ^ -62`, for at most `fuel` tests of
`t <= 1`; `none` when these do not reach the end of the loop. -/
def sampleLoop (curve : Curve) (spherePos : Vector3) : ℕ → ℕ → Closest → Option Closest
  | 0, _, _ => none
  | fuel + 1, t, acc =>
    if t ≤ 2 ^ 62 then
      sampleLoop curve spherePos fuel (nextT t) (sampleStep curve spherePos acc (tValue t))
    else some acc

/-- The end of the source's `play`, after the sampling loop has left the
running minimum `r`: the distance along the curve is set, the animator plays
and the marker is moved to the closest point. -/
def snapTo (s : PathAnimator) (r : Closest) : PathAnimator :=
  let s := { s with currentDistance := r.closestT * s.totalLength, isPlaying := true }
  match r.closestPoint with
  | some closestPoint => { s with position := closestPoint }
  | none => s

/-- The source's `play`, with at most `fuel` tests of `t <= 1` in its
sampling loop.  The loop runs at `t = 0`, so `closestPoint` is never null
when the marker is moved. -/
def play (fuel : ℕ) (s : PathAnimator) : Option PathAnimator :=
  match s.curve with
  | none => some s
  | some curve =>
    let spherePos := s.position.clone
    (sampleLoop curve spherePos fuel 0 ⟨none, 0, none⟩).map (snapTo s)

/-- The values of the loop variable at which the loop entered with `t` runs
its body, within `fuel` tests of `t <= 1`. -/
def ticksFrom : ℕ → ℕ → List ℕ
  | 0, _ => []
  | fuel + 1, t => if t ≤ 2 ^ 62 then t :: ticksFrom fuel (nextT t) else []

/-- Whether the loop entered with `t` ends within `fuel` tests of `t <= 1`. -/
def exitsWithin : ℕ → ℕ → Bool
  | 0, _ => false
  | fuel + 1, t => if t ≤ 2 ^ 62 then exitsWithin fuel (nextT t) else true

/-- Whether every entry of the list is below the next one. -/
def increasing : List ℕ → Bool
  | a :: b :: rest => decide (a < b) && increasing (b :: rest)
  | _ => true

/-- The parameters sampled by `play`, in order. -/
def sampleTimes : List ℚ := (ticksFrom 1001 0).map tValue

end PathAnimator

/-- A curve along the x axis: the parameter `t` is sent to `(t, 0, 0)`. -/
def axisCurve : Curve := ⟨fun t => ⟨t, 0, 0⟩⟩

/-- An animator playing at the start of `axisCurve`, of length 1. -/
def axisAnimator : PathAnimator :=
  { curve := some axisCurve, isPlaying := true, currentDistance := 0, totalLength := 1,
    position := ⟨0, 0, 0⟩ }

/-- The running minimum after the samples `ts`: the initial one when there
is none, and otherwise the first sample among them at which the squared
distance to `pos` is least. -/
def BestAmong (curve : Curve) (pos : Vector3) (ts : List ℚ) (acc : Closest) : Prop :=
  (ts = [] ∧ acc = ⟨none, 0, none⟩) ∨
  ∃ k : ℕ, k < ts.length ∧
    acc = ⟨some (Vector3.distanceToSquared pos (curve.getPointAt (ts.getD k 0))),
      ts.getD k 0, some (curve.getPointAt (ts.getD k 0))⟩ ∧
    (∀ j : ℕ, j < ts.length →
      Vector3.distanceToSquared pos (curve.getPointAt (ts.getD k 0)) ≤
        Vector3.distanceToSquared pos (curve.getPointAt (ts.getD j 0))) ∧
    (∀ j : ℕ, j < k →
      Vector3.distanceToSquared pos (curve.getPointAt (ts.getD k 0)) <
        Vector3.distanceToSquared pos (curve.getPointAt (ts.getD j 0)))

/-- An animator on `axisCurve` that is not playing, its marker placed beside
the end of the curve at `(1, 0.3, 0)`. -/
def endAnimator : PathAnimator :=
  { curve := some axisCurve, isPlaying := false, currentDistance := 0, totalLength := 1,
    position := ⟨1, 3 / 10, 0⟩ }

/-- The last parameter sampled by `play`, the double `0.9990000000000008`, in
units of `2 ^ -62`. -/
def lastTick : ℕ := 4607074332408964096

/-- The running minimum of the sampling loop on `axisCurve` for the marker of
`endAnimator`, when it stands at the loop variable `t`. -/
def entryAt (t : ℕ) : Closest :=
  ⟨some (Vector3.distanceToSquared ⟨1, 3 / 10, 0⟩ (axisCurve.getPointAt (PathAnimator.tValue t))),
    PathAnimator.tValue t, some (axisCurve.getPointAt (PathAnimator.tValue t))⟩

/-! ## The parameters of `getLineIntersection` -/

/-- The local `denom` of `getLineIntersection`: the cross product of the two
direction vectors. -/
def crossDenom (x1 y1 x2 y2 x3 y3 x4 y4 : ℚ) : ℚ :=
  (x2 - x1) * (y4 - y3) - (y2 - y1) * (x4 - x3)

/-- The local `t` of `getLineIntersection`: the parameter of the crossing on
the first segment. -/
def paramT (x1 y1 x2 y2 x3 y3 x4 y4 : ℚ) : ℚ :=
  ((x3 - x1) * (y4 - y3) - (y3 - y1) * (x4 - x3)) / crossDenom x1 y1 x2 y2 x3 y3 x4 y4

/-- The local `u` of `getLineIntersection`: the parameter of the crossing on
the second segment. -/
def paramU (x1 y1 x2 y2 x3 y3 x4 y4 : ℚ) : ℚ :=
  ((x3 - x1) * (y2 - y1) - (y3 - y1) * (x2 - x1)) / crossDenom x1 y1 x2 y2 x3 y3 x4 y4

/-- The square of the length of the (x, z) projection of the segment from
`strokePoints[i]` to `strokePoints[i + 1]`. -/
def projLengthSq (pts : List Vector3) (i : ℕ) : ℚ :=
  ((pointAt pts (i + 1)).x - (pointAt pts i).x) * ((pointAt pts (i + 1)).x - (pointAt pts i).x) +
    ((pointAt pts (i + 1)).z - (pointAt pts i).z) * ((pointAt pts (i + 1)).z - (pointAt pts i).z)

/-- The X-shape at one two-hundredth of its size: its segments 0 and 2 cross
at the same height, and every segment is shorter than 0.01. -/
def tinyXShape : List Vector3 :=
  [⟨0, 0, 0⟩, ⟨1 / 200, 0, 1 / 200⟩, ⟨0, 0, 1 / 200⟩, ⟨1 / 200, 0, 0⟩]

/-! ## pinchable-xr.js: grabbing a marker -/

/-- The three.js `add` / `addVectors`: the sum, coordinate by coordinate. -/
def Vector3.add (a b : Vector3) : Vector3 := ⟨a.x + b.x, a.y + b.y, a.z + b.z⟩

/-- The three.js `subVectors(a, b)`: `a - b`, coordinate by coordinate. -/
def Vector3.sub (a b : Vector3) : Vector3 := ⟨a.x - b.x, a.y - b.y, a.z - b.z⟩

/-- The three.js `multiplyScalar`. -/
def Vector3.multiplyScalar (a : Vector3) (k : ℚ) : Vector3 := ⟨a.x * k, a.y * k, a.z * k⟩

/-- The `path-animator-simple` component of an entity as the pinchable
components read it: `isPlaying`, and the `path` and `speed` of its
attribute.  The attribute and the component are taken to be present
together. -/
structure AnimatorView where
  isPlaying : Bool
  path : List Vector3
  speed : ℚ
deriving DecidableEq, Repr

/-- The `animationData` object stored at a grab. -/
structure AnimationData where
  path : List Vector3
  speed : ℚ
deriving DecidableEq, Repr

/-- The schema properties of `pinchable-xr` and `pinchable-ar`. -/
structure PinchableData where
  pinchDistance : ℚ
  grabDistance : ℚ
  movingGrabDistance : ℚ
deriving DecidableEq, Repr

/-- The detail of a `pinchstarted`, `pinchmoved` or `pinchended` event as the
listeners see it; `position` may be missing, and `grabbedEntity` is the field
a grabbing listener sets on the shared detail object. -/
structure PinchDetail where
  hand : Hand
  position : Option Vector3
  grabbedEntity : Option ℕ
deriving DecidableEq, Repr

/-- The detail of a `sphere-released` event. -/
structure SphereReleased where
  sphere : ℕ
  position : Vector3
  animationData : Option AnimationData
  wasAnimating : Bool
deriving DecidableEq, Repr

/-- An entity carrying `pinchable-xr`: the entity `el` (named by a number),
its schema data, its `object3D.position`, its animator if it has one, and the
fields of the component. -/
structure XrTarget where
  el : ℕ
  data : PinchableData
  position : Vector3
  animator : Option AnimatorView
  grabbed : Bool
  grabbingHand : Option Hand
  grabOffset : Vector3
  wasAnimating : Bool
  animationData : Option AnimationData
deriving DecidableEq, Repr

namespace XrTarget

/-- The local `isMoving` of `onPinchStarted`. -/
def isMoving (t : XrTarget) : Bool :=
  match t.animator with
  | some a => a.isPlaying
  | none => false

/-- One step of the `forEach` of `onPinchStarted` that looks for the closest
entity: `acc` holds the square of `closestDistance` (`none` for `Infinity`)
and `closestEntity`. -/
def closestStep (pinchPosition : Vector3) (acc : Option ℚ × Option ℕ) (entity : XrTarget) :
    Option ℚ × Option ℕ :=
  let entityDistance := Vector3.distanceToSquared entity.position pinchPosition
  let entityGrabDist := entity.data.grabDistance
  if Vector3.distanceLt entity.position pinchPosition entityGrabDist then
    match acc.1 with
    | none => (some entityDistance, some entity.el)
    | some closestDistance =>
      if entityDistance < closestDistance then (some entityDistance, some entity.el) else acc
  else acc

/-- The `closestEntity` found by `onPinchStarted` among all entities with
`pinchable-xr`. -/
def closestEntity (scene : List XrTarget) (pinchPosition : Vector3) : Option ℕ :=
  (scene.foldl (closestStep pinchPosition) (none, none)).2

/-- The source's `onPinchStarted` of the entity `self`, in a scene whose
entities with `pinchable-xr` are `scene`: the entity and the event detail
afterwards. -/
def onPinchStarted (scene : List XrTarget) (evt : PinchDetail) (self : XrTarget) :
    XrTarget × PinchDetail :=
  if self.grabbed = true then (self, evt)
  else if evt.grabbedEntity.isSome then (self, evt)
  else
    match evt.position with
    | none => (self, evt)
    | some pinchPosition =>
      let grabDist :=
        if self.isMoving then self.data.movingGrabDistance else self.data.grabDistance
      if Vector3.distanceLt self.position pinchPosition grabDist then
        if closestEntity scene pinchPosition = some self.el then
          let self := { self with
            grabbed := true
            grabbingHand := some evt.hand
            grabOffset := Vector3.sub self.position pinchPosition }
          let evt := { evt with grabbedEntity := some self.el }
          match self.animator with
          | some a =>
            ({ self with
               wasAnimating := true
               animationData := some ⟨a.path, a.speed⟩
               animator := some { a with isPlaying := false } }, evt)
          | none => (self, evt)
        else (self, evt)
      else (self, evt)

/-- The source's `onPinchMoved`. -/
def onPinchMoved (self : XrTarget) (evt : PinchDetail) : XrTarget :=
  if self.grabbed = false then self
  else if some evt.hand ≠ self.grabbingHand then self
  else
    match evt.position with
    | none => self
    | some pinchPosition => { self with position := Vector3.add pinchPosition self.grabOffset }

/-- The source's `onPinchEnded`: the entity afterwards and the
`sphere-released` events emitted. -/
def onPinchEnded (self : XrTarget) (evt : PinchDetail) : XrTarget × List SphereReleased :=
  if self.grabbed = true ∧ some evt.hand = self.grabbingHand then
    ({ self with grabbed := false, grabbingHand := none, wasAnimating := false,
                 animationData := none },
      [{ sphere := self.el, position := self.position.clone,
         animationData := self.animationData, wasAnimating := self.wasAnimating }])
  else (self, [])

/-- The listeners of the entities still to be called, in order, for one
`pinchstarted` event: `done` are the entities whose listener has run. -/
def dispatchFrom (done : List XrTarget) : List XrTarget → PinchDetail →
    List XrTarget × PinchDetail
  | [], evt => (done, evt)
  | t :: rest, evt =>
    let r := onPinchStarted (done ++ t :: rest) evt t
    dispatchFrom (done ++ [r.1]) rest r.2

/-- One `pinchstarted` event delivered to the listeners of all entities with
`pinchable-xr`, in order. -/
def dispatchPinchStarted (scene : List XrTarget) (evt : PinchDetail) :
    List XrTarget × PinchDetail :=
  dispatchFrom [] scene evt

/-- A sequence of `pinchmoved` events delivered to one entity. -/
def moves (self : XrTarget) (evts : List PinchDetail) : XrTarget :=
  evts.foldl onPinchMoved self

end XrTarget

/-- The default schema of `pinchable-xr`: 0.08, 0.1 and 0.15. -/
def xrDefaults : PinchableData :=
  { pinchDistance := 8 / 100, grabDistance := 1 / 10, movingGrabDistance := 15 / 100 }

/-- An ungrabbed marker with the default schema at the given position,
without animator. -/
def restingTarget (el : ℕ) (position : Vector3) : XrTarget :=
  { el := el, data := xrDefaults, position := position, animator := none, grabbed := false,
    grabbingHand := none, grabOffset := ⟨0, 0, 0⟩, wasAnimating := false,
    animationData := none }

/-- An ungrabbed marker with the default schema at the given position, in the
middle of an animation. -/
def movingTarget (el : ℕ) (position : Vector3) : XrTarget :=
  { restingTarget el position with animator := some ⟨true, [], 1 / 5⟩ }

/-- An ungrabbed entity at rest with `pinchable-xr="grabDistance: 0.4"`, as
`weather-system.js` sets it on a sunflower. -/
def wideTarget (el : ℕ) (position : Vector3) : XrTarget :=
  { restingTarget el position with
    data := { pinchDistance := 8 / 100, grabDistance := 4 / 10, movingGrabDistance := 15 / 100 } }

/-- A `pinchstarted` detail of the right hand at the origin. -/
def pinchAtOrigin : PinchDetail :=
  { hand := Hand.right, position := some ⟨0, 0, 0⟩, grabbedEntity := none }

/-- The scene of two markers around a pinch at the origin: marker 1 is
moving and 0.12 away, marker 2 rests 0.15 away and has a grab distance of
0.4. -/
def twoMarkers : List XrTarget :=
  [movingTarget 1 ⟨12 / 100, 0, 0⟩, wideTarget 2 ⟨0, 15 / 100, 0⟩]
/-! ## pinchable-ar.js: grabbing a marker with a MediaPipe hand -/

/-- One entry of `mediapipeHand.handEntities` as `tick` reads it: `visible`
says that the entry and its group exist and the group is visible,
`landmarks` that it has at least 21 landmarks, `tips` holds the world
positions of the thumb tip and of the index tip when both landmarks exist,
and `spread` the distance between landmarks 1 and 17 when both exist. -/
structure ArHand where
  visible : Bool
  landmarks : Bool
  tips : Option (Vector3 × Vector3)
  spread : Option ℚ

/-- What a tick of `pinchable-ar` or `pinchable-line-ar` reads from the
scene: the hand entities (`none` when the `mediapipe-hand` component or its
`handEntities` are missing), the two modes of the drawing UI (both `false`
when there is no drawing UI), and the world position and direction of the
camera when there is one. -/
structure ArFrame where
  handEntities : Option (List ArHand)
  isDrawingEnabled : Bool
  sphereModeEnabled : Bool
  camera : Option (Vector3 × Vector3)

/-- An entity carrying `pinchable-ar`, with the fields of the component.
The field `initialGrabDistance` holds the square of the distance, which the
code only tests for being set and non-zero. -/
structure ArTarget where
  el : ℕ
  data : PinchableData
  position : Vector3
  animator : Option AnimatorView
  grabbed : Bool
  grabOffset : Vector3
  wasAnimating : Bool
  animationData : Option AnimationData
  grabbingHandIndex : Option ℕ
  lastPinchState : Bool
  isHovered : Bool
  initialGrabDistance : Option ℚ
  referenceSpread : Option ℚ
  depthOffset : ℚ
deriving DecidableEq, Repr

namespace ArTarget

/-- The local `isMoving` of `onPinchStarted` and of `tick`. -/
def isMoving (t : ArTarget) : Bool :=
  match t.animator with
  | some a => a.isPlaying
  | none => false

/-- One step of the `forEach` of `onPinchStarted` that looks for the closest
entity; the grab distance of an entity is its `movingGrabDistance` when it is
moving. -/
def closestStep (pinchPosition : Vector3) (acc : Option ℚ × Option ℕ) (entity : ArTarget) :
    Option ℚ × Option ℕ :=
  let entityDistance := Vector3.distanceToSquared entity.position pinchPosition
  let entityGrabDist :=
    if entity.isMoving then entity.data.movingGrabDistance else entity.data.grabDistance
  if Vector3.distanceLt entity.position pinchPosition entityGrabDist then
    match acc.1 with
    | none => (some entityDistance, some entity.el)
    | some closestDistance =>
      if entityDistance < closestDistance then (some entityDistance, some entity.el) else acc
  else acc

/-- The `closestEntity` found by `onPinchStarted` among all entities with
`pinchable-ar`. -/
def closestEntity (scene : List ArTarget) (pinchPosition : Vector3) : Option ℕ :=
  (scene.foldl (closestStep pinchPosition) (none, none)).2

/-- The source's `onPinchStarted(pinchPosition, handIndex)` of the entity
`self`, in a scene whose entities with `pinchable-ar` are `scene`. -/
def onPinchStarted (scene : List ArTarget) (camera : Option (Vector3 × Vector3))
    (pinchPosition : Vector3) (handIndex : ℕ) (self : ArTarget) : ArTarget :=
  if self.grabbed = true then self
  else
    let grabDist :=
      if self.isMoving then self.data.movingGrabDistance else self.data.grabDistance
    if Vector3.distanceLt self.position pinchPosition grabDist then
      if closestEntity scene pinchPosition = some self.el then
        let self := { self with
          grabbed := true
          grabbingHandIndex := some handIndex
          grabOffset := Vector3.sub self.position pinchPosition }
        let self :=
          match camera with
          | some c =>
            { self with
              initialGrabDistance := some (Vector3.distanceToSquared self.position c.1) }
          | none => self
        let self := { self with isHovered := false }
        match self.animator with
        | some a =>
          { self with
            wasAnimating := true
            animationData := some ⟨a.path, a.speed⟩
            animator := some { a with isPlaying := false } }
        | none => self
      else self
    else self

/-- The truth value of a number that may be unset: set and non-zero. -/
def truthy : Option ℚ → Bool
  | some v => decide (v ≠ 0)
  | none => false

/-- The source's `onPinchMoved(pinchPosition)`; `hands` are the hand
entities, when there are any. -/
def onPinchMoved (hands : Option (List ArHand)) (camera : Option (Vector3 × Vector3))
    (pinchPosition : Vector3) (self : ArTarget) : ArTarget :=
  if self.grabbed = false then self
  else
    let simple := { self with position := Vector3.add pinchPosition self.grabOffset }
    match hands with
    | none => simple
    | some hs =>
      match self.grabbingHandIndex.bind (fun i => hs.get? i) with
      | none => simple
      | some hand =>
        if hand.landmarks = false then simple
        else
          match hand.spread with
          | none => simple
          | some handSpread =>
            let self :=
              if truthy self.referenceSpread then self
              else { self with referenceSpread := some handSpread }
            let spreadDiff := handSpread - self.referenceSpread.getD 0
            let depthScale := spreadDiff * 8
            match camera with
            | some c =>
              if truthy self.initialGrabDistance then
                let basePos := Vector3.add pinchPosition self.grabOffset
                let depthAdjustment := Vector3.multiplyScalar c.2 depthScale
                { self with position := Vector3.add basePos depthAdjustment }
              else { self with position := Vector3.add pinchPosition self.grabOffset }
            | none => { self with position := Vector3.add pinchPosition self.grabOffset }

/-- The source's `release`: the entity afterwards and the `sphere-released`
event it emits. -/
def release (self : ArTarget) : ArTarget × List SphereReleased :=
  ({ self with
     grabbed := false
     grabbingHandIndex := none
     initialGrabDistance := none
     depthOffset := 0
     referenceSpread := none
     wasAnimating := false
     animationData := none },
    [{ sphere := self.el, position := self.position.clone,
       animationData := self.animationData, wasAnimating := self.wasAnimating }])

/-- The source's `onPinchEnded`. -/
def onPinchEnded (self : ArTarget) : ArTarget × List SphereReleased :=
  if self.grabbed = false then (self, []) else release self

/-- The hover check at the end of the loop body of `tick`. -/
def hoverCheck (pinchPosition : Vector3) (self : ArTarget) : ArTarget :=
  let hoverDist :=
    (if self.isMoving then self.data.movingGrabDistance else self.data.grabDistance) * (3 / 2)
  if Vector3.distanceLt self.position pinchPosition hoverDist ∧ self.isHovered = false then
    { self with isHovered := true }
  else if ¬ Vector3.distanceLt self.position pinchPosition hoverDist ∧ self.isHovered = true then
    { self with isHovered := false }
  else self

/-- The body of the loop of `tick` over the hand entities, for the hand
`hand` at `handIndex`; `before` and `after` are the other entities with
`pinchable-ar`, in document order around this one. -/
def handStep (frame : ArFrame) (before after : List ArTarget)
    (acc : ArTarget × List SphereReleased) (handIndex : ℕ) (hand : ArHand) :
    ArTarget × List SphereReleased :=
  let self := acc.1
  if hand.visible = false then acc
  else if hand.landmarks = false then acc
  else
    match hand.tips with
    | none => acc
    | some (thumbPos, indexPos) =>
      let isPinching : Bool :=
        decide (Vector3.distanceLt thumbPos indexPos self.data.pinchDistance)
      let pinchPosition := Vector3.multiplyScalar (Vector3.add thumbPos indexPos) (1 / 2)
      let r : ArTarget × List SphereReleased :=
        if isPinching = true ∧ self.lastPinchState = false then
          (onPinchStarted (before ++ self :: after) frame.camera pinchPosition handIndex self, [])
        else if isPinching = true ∧ self.grabbed = true ∧
            self.grabbingHandIndex = some handIndex then
          (onPinchMoved frame.handEntities frame.camera pinchPosition self, [])
        else if isPinching = false ∧ self.lastPinchState = true ∧ self.grabbed = true ∧
            self.grabbingHandIndex = some handIndex then
          onPinchEnded self
        else (self, [])
      let self := r.1
      let self :=
        if self.grabbingHandIndex = some handIndex ∨ self.grabbed = false then
          { self with lastPinchState := isPinching }
        else self
      let self :=
        if self.grabbed = false ∧ isPinching = false then hoverCheck pinchPosition self
        else self
      (self, acc.2 ++ r.2)

/-- The loop of `tick` over the hand entities from index `handIndex` on. -/
def handLoop (frame : ArFrame) (before after : List ArTarget) :
    ℕ → List ArHand → ArTarget × List SphereReleased → ArTarget × List SphereReleased
  | _, [], acc => acc
  | handIndex, hand :: rest, acc =>
    handLoop frame before after (handIndex + 1) rest
      (handStep frame before after acc handIndex hand)

/-- The source's `tick`: the entity afterwards and the `sphere-released`
events emitted. -/
def tick (frame : ArFrame) (before after : List ArTarget) (self : ArTarget) :
    ArTarget × List SphereReleased :=
  match frame.handEntities with
  | none => (self, [])
  | some hands =>
    if frame.sphereModeEnabled = true then
      if self.grabbed = true then release self else (self, [])
    else
      let r := handLoop frame before after 0 hands (self, [])
      if r.1.isHovered = true ∧ r.1.grabbed = false then
        if hands.any (fun hand => hand.visible) then r
        else ({ r.1 with isHovered := false }, r.2)
      else r

end ArTarget

/-- An ungrabbed `pinchable-ar` marker with the given schema and position,
without animator. -/
def restingAr (el : ℕ) (data : PinchableData) (position : Vector3) : ArTarget :=
  { el := el, data := data, position := position, animator := none, grabbed := false,
    grabOffset := ⟨0, 0, 0⟩, wasAnimating := false, animationData := none,
    grabbingHandIndex := none, lastPinchState := false, isHovered := false,
    initialGrabDistance := none, referenceSpread := none, depthOffset := 0 }

/-- The default schema of `pinchable-ar`: 0.05, 0.12 and 0.18. -/
def arDefaults : PinchableData :=
  { pinchDistance := 5 / 100, grabDistance := 12 / 100, movingGrabDistance := 18 / 100 }

/-- A `pinchable-ar` marker held by hand 0, which was pinching at the last
tick. -/
def heldAr : ArTarget :=
  { restingAr 1 arDefaults ⟨0, 0, 0⟩ with
    grabbed := true, grabbingHandIndex := some 0, lastPinchState := true }

/-- A hand entity that is not visible. -/
def hiddenHand : ArHand := { visible := false, landmarks := true, tips := none, spread := none }

/-- A frame with the two hand entities, none of them visible, no mode
enabled and no camera. -/
def hiddenHandsFrame : ArFrame :=
  { handEntities := some [hiddenHand, hiddenHand], isDrawingEnabled := false,
    sphereModeEnabled := false, camera := none }

/-- The scene `twoMarkers` with `pinchable-ar` in place of `pinchable-xr`. -/
def twoMarkersAr : List ArTarget :=
  [{ restingAr 1 xrDefaults ⟨12 / 100, 0, 0⟩ with animator := some ⟨true, [], 1 / 5⟩ },
    restingAr 2
      { pinchDistance := 8 / 100, grabDistance := 4 / 10, movingGrabDistance := 15 / 100 }
      ⟨0, 15 / 100, 0⟩]
/-! ## The distance from a point to a segment of a path -/

/-- The three.js `dot`. -/
def Vector3.dot (a b : Vector3) : ℚ := a.x * b.x + a.y * b.y + a.z * b.z

/-- The result of `distanceToLineSegment`: the closest point of the segment
and the square of its distance to the given point. -/
structure SegmentDistance where
  distanceSq : ℚ
  point : Vector3
deriving DecidableEq, Repr

/-- The source's `distanceToLineSegment(point, lineStart, lineEnd)`, with the
distance carried as its square.  The source normalises `line` and compares
the `projection` of `toPoint` on it with `0` and with `lineLength`; with
`dot` the product of `toPoint` and the line before normalising and
`lengthSq` the square of `lineLength`, the `projection` is `dot / lineLength`
(`0` for a segment of length zero, whose line stays the zero vector), so the
two tests are `dot ≤ 0` and `lengthSq ≤ dot`, and the projected point is
`lineStart + line * (dot / lengthSq)`; `projection_tests` states this over
the reals. -/
def distanceToLineSegment (point lineStart lineEnd : Vector3) : SegmentDistance :=
  let line := Vector3.sub lineEnd lineStart
  let lengthSq := Vector3.dot line line
  let toPoint := Vector3.sub point lineStart
  let dot := Vector3.dot toPoint line
  let closestPoint :=
    if dot ≤ 0 then lineStart.clone
    else if lengthSq ≤ dot then lineEnd.clone
    else Vector3.add lineStart (Vector3.multiplyScalar line (dot / lengthSq))
  { distanceSq := Vector3.distanceToSquared point closestPoint, point := closestPoint }

/-- The square of the distance from `point` to segment `i` of `path`, moved
by `worldPos`: the value `distance` of the loops over the segments. -/
def segmentDistanceSq (point worldPos : Vector3) (path : List Vector3) (i : ℕ) : ℚ :=
  (distanceToLineSegment point (Vector3.add (pointAt path i).clone worldPos)
    (Vector3.add (pointAt path (i + 1)).clone worldPos)).distanceSq

/-- One step of the loop that keeps `minDistance`, carried as the square of
the distance, with `none` for `Infinity`. -/
def minStep (point worldPos : Vector3) (path : List Vector3) (acc : Option ℚ) (i : ℕ) :
    Option ℚ :=
  match acc with
  | none => some (segmentDistanceSq point worldPos path i)
  | some m =>
    if segmentDistanceSq point worldPos path i < m then
      some (segmentDistanceSq point worldPos path i)
    else acc

/-- The `minDistance` of the loop `for (let i = 0; i < path.length - 1; i++)`,
as the square of the distance, `none` for `Infinity`. -/
def minDistance (point worldPos : Vector3) (path : List Vector3) : Option ℚ :=
  (List.range (path.length - 1)).foldl (minStep point worldPos path) none

/-- The test `minDistance < r` on a distance carried as its square. -/
def withinDistance (m : Option ℚ) (r : ℚ) : Bool :=
  match m with
  | none => false
  | some v => decide (0 < r ∧ v < r * r)

/-- The flag `nearPath` of the loops over the segments: some segment is at a
distance below 0.15. -/
def nearPath (point worldPos : Vector3) (path : List Vector3) : Bool :=
  (List.range (path.length - 1)).any
    (fun i => decide (segmentDistanceSq point worldPos path i < (15 / 100) * (15 / 100)))
/-! ## pinchable-line.js: dragging a line -/

/-- The detail of a `path-moved` event. -/
structure PathMoved where
  path : Option (List Vector3)
  movement : Vector3
deriving DecidableEq, Repr

/-- What `onPinchStarted` of a line reads from the scene: the result of
`isInteractionAllowed()`, whether the entity has a mesh, the map from the
position of the entity to its world position, and the markers that carry
`pinchable-xr`. -/
structure LineEnv where
  interactionAllowed : Bool
  mesh : Bool
  toWorld : Vector3 → Vector3
  spheres : List XrTarget

/-- An entity carrying `pinchable-line`, with its `object3D.position` and the
fields of the component. -/
structure LineTarget where
  grabDistance : ℚ
  position : Vector3
  grabbed : Bool
  grabbingHand : Option Hand
  grabOffset : Vector3
  originalPosition : Vector3
  pathData : Option (List Vector3)
deriving DecidableEq, Repr

namespace LineTarget

/-- The flag `sphereNearby` of `onPinchStarted`: some marker is within its
grab distance of the pinch, the larger one when it is moving. -/
def sphereNearby (spheres : List XrTarget) (pinchPosition : Vector3) : Bool :=
  spheres.any (fun sphere =>
    decide (Vector3.distanceLt sphere.position pinchPosition
      (if sphere.isMoving then sphere.data.movingGrabDistance else sphere.data.grabDistance)))

/-- The source's `onPinchStarted`. -/
def onPinchStarted (env : LineEnv) (evt : PinchDetail) (self : LineTarget) : LineTarget :=
  if self.grabbed = true then self
  else if env.interactionAllowed = false then self
  else
    match evt.position with
    | none => self
    | some pinchPosition =>
      if env.mesh = false then self
      else
        let worldPos := env.toWorld self.position
        let minDistance :=
          match self.pathData with
          | some path => minDistance pinchPosition worldPos path
          | none => none
        if withinDistance minDistance self.grabDistance = true ∧ self.grabbed = false ∧
            sphereNearby env.spheres pinchPosition = false then
          { self with
            grabbed := true
            grabbingHand := some evt.hand
            grabOffset := Vector3.sub worldPos pinchPosition
            originalPosition := worldPos }
        else self

/-- The source's `onPinchMoved`: the entity afterwards and the `path-moved`
events emitted. -/
def onPinchMoved (self : LineTarget) (evt : PinchDetail) : LineTarget × List PathMoved :=
  if self.grabbed = false then (self, [])
  else if some evt.hand ≠ self.grabbingHand then (self, [])
  else
    match evt.position with
    | none => (self, [])
    | some pinchPosition =>
      let newPosition := Vector3.add pinchPosition self.grabOffset
      let movement := Vector3.sub newPosition self.originalPosition
      ({ self with
         position := Vector3.add self.position movement
         originalPosition := newPosition },
        [{ path := self.pathData, movement := movement }])

/-- A sequence of `pinchmoved` events delivered to a line: the line
afterwards and all `path-moved` events. -/
def moves : LineTarget → List PinchDetail → LineTarget × List PathMoved
  | self, [] => (self, [])
  | self, e :: es =>
    let r := onPinchMoved self e
    let r2 := moves r.1 es
    (r2.1, r.2 ++ r2.2)

end LineTarget

/-- The pinch-move events of hand `hand` at the given pinch points. -/
def movesOf (hand : Hand) (ps : List Vector3) : List PinchDetail :=
  ps.map (fun p => { hand := hand, position := some p, grabbedEntity := none })

/-- The sum of the movements of a list of `path-moved` events. -/
def totalMovement : List PathMoved → Vector3
  | [] => ⟨0, 0, 0⟩
  | e :: es => Vector3.add e.movement (totalMovement es)

/-- A line along the x axis from the origin, at position `(0, 1, 0)` below a
parent at `(10, 0, 0)`, not grabbed. -/
def axisLine : LineTarget :=
  { grabDistance := 12 / 100, position := ⟨0, 1, 0⟩, grabbed := false, grabbingHand := none,
    grabOffset := ⟨0, 0, 0⟩, originalPosition := ⟨0, 0, 0⟩,
    pathData := some [⟨0, 0, 0⟩, ⟨1, 0, 0⟩] }

/-- The scene of `axisLine`: interaction allowed, a mesh, the parent at
`(10, 0, 0)`, no markers. -/
def axisLineEnv : LineEnv :=
  { interactionAllowed := true, mesh := true, toWorld := fun p => Vector3.add p ⟨10, 0, 0⟩,
    spheres := [] }

/-! ## pinchable-line-ar.js: a line grabbed by a MediaPipe hand -/

/-- What a tick of `pinchable-line-ar` does that others can see: a
`path-moved` event, or a run of `release`, which restores the colour of the
line and refreshes the loops of the spawner. -/
inductive LineArEvent where
  | pathMoved (detail : PathMoved)
  | released
deriving DecidableEq, Repr

/-- An entity carrying `pinchable-line-ar`, with its `object3D.position` and
the fields of the component. -/
structure LineAr where
  pinchDistance : ℚ
  grabDistance : ℚ
  position : Vector3
  grabbed : Bool
  grabOffset : Vector3
  originalPosition : Vector3
  pathData : Option (List Vector3)
  grabbingHandIndex : Option ℕ
  lastPinchState : Bool
  isHovered : Bool
  isReady : Bool
deriving DecidableEq, Repr

namespace LineAr

/-- The source's `isInteractionAllowed`. -/
def isInteractionAllowed (frame : ArFrame) : Bool :=
  if frame.isDrawingEnabled = true then false
  else if frame.sphereModeEnabled = true then false
  else true

/-- The source's `release`. -/
def release (self : LineAr) : LineAr × List LineArEvent :=
  ({ self with grabbed := false, grabbingHandIndex := none }, [LineArEvent.released])

/-- The flag `sphereNearby` of `onPinchStarted`, over the markers that carry
`pinchable-ar`. -/
def sphereNearby (spheres : List ArTarget) (pinchPosition : Vector3) : Bool :=
  spheres.any (fun sphere =>
    decide (Vector3.distanceLt sphere.position pinchPosition
      (if sphere.isMoving then sphere.data.movingGrabDistance else sphere.data.grabDistance)))

/-- The `minDistance` of the pinch to the path of the line. -/
def pathDistance (toWorld : Vector3 → Vector3) (pinchPosition : Vector3) (self : LineAr) :
    Option ℚ :=
  match self.pathData with
  | some path => minDistance pinchPosition (toWorld self.position) path
  | none => none

/-- The source's `onPinchStarted(pinchPosition, handIndex)`. -/
def onPinchStarted (frame : ArFrame) (toWorld : Vector3 → Vector3) (spheres : List ArTarget)
    (pinchPosition : Vector3) (handIndex : ℕ) (self : LineAr) : LineAr :=
  if self.grabbed = true then self
  else if isInteractionAllowed frame = false then self
  else
    let worldPos := toWorld self.position
    if withinDistance (pathDistance toWorld pinchPosition self) self.grabDistance = true ∧
        self.grabbed = false ∧ sphereNearby spheres pinchPosition = false then
      { self with
        grabbed := true
        grabbingHandIndex := some handIndex
        grabOffset := Vector3.sub worldPos pinchPosition
        originalPosition := worldPos
        isHovered := false }
    else self

/-- The source's `onPinchMoved(pinchPosition)`. -/
def onPinchMoved (pinchPosition : Vector3) (self : LineAr) : LineAr × List LineArEvent :=
  if self.grabbed = false then (self, [])
  else
    let newPosition := Vector3.add pinchPosition self.grabOffset
    let movement := Vector3.sub newPosition self.originalPosition
    ({ self with
       position := Vector3.add self.position movement
       originalPosition := newPosition },
      [LineArEvent.pathMoved { path := self.pathData, movement := movement }])

/-- The source's `onPinchEnded`. -/
def onPinchEnded (self : LineAr) : LineAr × List LineArEvent :=
  if self.grabbed = false then (self, []) else release self

/-- The hover check at the end of the loop body of `tick`. -/
def hoverCheck (toWorld : Vector3 → Vector3) (pinchPosition : Vector3) (self : LineAr) :
    LineAr :=
  let hoverDist := self.grabDistance * (3 / 2)
  let near := withinDistance (pathDistance toWorld pinchPosition self) hoverDist
  if near = true ∧ self.isHovered = false then { self with isHovered := true }
  else if near = false ∧ self.isHovered = true then { self with isHovered := false }
  else self

/-- The body of the loop of `tick` over the hand entities. -/
def handStep (frame : ArFrame) (toWorld : Vector3 → Vector3) (spheres : List ArTarget)
    (acc : LineAr × List LineArEvent) (handIndex : ℕ) (hand : ArHand) :
    LineAr × List LineArEvent :=
  let self := acc.1
  if hand.visible = false then acc
  else if hand.landmarks = false then acc
  else
    match hand.tips with
    | none => acc
    | some (thumbPos, indexPos) =>
      let isPinching : Bool := decide (Vector3.distanceLt thumbPos indexPos self.pinchDistance)
      let pinchPosition := Vector3.multiplyScalar (Vector3.add thumbPos indexPos) (1 / 2)
      let r : LineAr × List LineArEvent :=
        if isPinching = true ∧ self.lastPinchState = false then
          (onPinchStarted frame toWorld spheres pinchPosition handIndex self, [])
        else if isPinching = true ∧ self.grabbed = true ∧
            self.grabbingHandIndex = some handIndex then
          onPinchMoved pinchPosition self
        else if isPinching = false ∧ self.lastPinchState = true ∧ self.grabbed = true ∧
            self.grabbingHandIndex = some handIndex then
          onPinchEnded self
        else (self, [])
      let self := r.1
      let self :=
        if self.grabbingHandIndex = some handIndex ∨ self.grabbed = false then
          { self with lastPinchState := isPinching }
        else self
      let self :=
        if self.grabbed = false ∧ isPinching = false ∧ self.pathData.isSome = true then
          hoverCheck toWorld pinchPosition self
        else self
      (self, acc.2 ++ r.2)

/-- The loop of `tick` over the hand entities from index `handIndex` on. -/
def handLoop (frame : ArFrame) (toWorld : Vector3 → Vector3) (spheres : List ArTarget) :
    ℕ → List ArHand → LineAr × List LineArEvent → LineAr × List LineArEvent
  | _, [], acc => acc
  | handIndex, hand :: rest, acc =>
    handLoop frame toWorld spheres (handIndex + 1) rest
      (handStep frame toWorld spheres acc handIndex hand)

/-- Whether the hand entity at the index is missing or not visible. -/
def handGone (hands : List ArHand) (i : ℕ) : Bool :=
  match hands.get? i with
  | some hand => !hand.visible
  | none => true

/-- The part of `tick` after the checks: the loop over the hand entities,
and the removal of the hover state when no hand is visible. -/
def handsPass (frame : ArFrame) (toWorld : Vector3 → Vector3) (spheres : List ArTarget)
    (hands : List ArHand) (self : LineAr) : LineAr × List LineArEvent :=
  let r := handLoop frame toWorld spheres 0 hands (self, [])
  if r.1.isHovered = true ∧ r.1.grabbed = false then
    if hands.any (fun hand => hand.visible) then r
    else ({ r.1 with isHovered := false }, r.2)
  else r

/-- The test `!grabbedHand || !grabbedHand.group || !visible` on the hand
entity at `grabbingHandIndex`, when that index is set. -/
def grabbingHandGone (hands : List ArHand) (self : LineAr) : Bool :=
  match self.grabbingHandIndex with
  | some i => handGone hands i
  | none => false

/-- The source's `tick`. -/
def tick (frame : ArFrame) (toWorld : Vector3 → Vector3) (spheres : List ArTarget)
    (self : LineAr) : LineAr × List LineArEvent :=
  if self.isReady = false then (self, [])
  else
    match frame.handEntities with
    | none => if self.grabbed = true then release self else (self, [])
    | some hands =>
      if isInteractionAllowed frame = false then
        if self.grabbed = true then release self else (self, [])
      else if self.grabbed = true ∧ grabbingHandGone hands self = true then release self
      else handsPass frame toWorld spheres hands self

end LineAr

/-- A `pinchable-line-ar` line held by hand 0, which was pinching at the last
tick. -/
def heldLineAr : LineAr :=
  { pinchDistance := 5 / 100, grabDistance := 15 / 100, position := ⟨0, 0, 0⟩, grabbed := true,
    grabOffset := ⟨0, 0, 0⟩, originalPosition := ⟨0, 0, 0⟩,
    pathData := some [⟨0, 0, 0⟩, ⟨1, 0, 0⟩], grabbingHandIndex := some 0,
    lastPinchState := true, isHovered := false, isReady := true }

/-! ## path-sphere-spawner.js: attaching markers to loops -/

/-- The `loopData` object stored by `onLoopCreated`. -/
structure LoopData where
  path : List Vector3
  intersection : Option Intersection
  hasLoop : Bool
  lineEntity : Option ℕ
deriving DecidableEq, Repr

/-- The `animatorConfig` that `animateSphereOnPath` sets as the
`path-animator-simple` attribute of a marker. -/
structure AnimatorConfig where
  path : List Vector3
  speed : ℚ
  loop : Bool
  autoStart : Bool
  lineEntity : Option ℕ
deriving DecidableEq, Repr

/-- What the spawner does to a marker: `animate` is a call of
`animateSphereOnPath(sphere, loopData)`, which sets the attribute to
`config`, and `removeAnimator` a call of
`sphere.removeAttribute('path-animator-simple')`. -/
inductive SpawnerAction where
  | animate (sphere : ℕ) (loopData : LoopData) (config : AnimatorConfig)
  | removeAnimator (sphere : ℕ)
deriving DecidableEq, Repr

/-- What a handler of the spawner reads from the scene when it runs: the
entities with `wobbly-sphere`, whether an entity has the attribute
`path-animator-simple`, and the world position of an entity. -/
structure Scene where
  wobblySpheres : List ℕ
  hasAnimator : ℕ → Bool
  worldPosition : ℕ → Vector3

/-- The state of the spawner; `timers` are the calls of
`animateSphereOnPath` waiting in a `setTimeout`. -/
structure Spawner where
  animationSpeed : ℚ
  spheres : List ℕ
  loops : List LoopData
  lineEntities : List ℕ
  timers : List (ℕ × LoopData)

/-- An event handled by the spawner, with the scene at that moment: the
three events it listens to, and a timer that fires, named by its place among
the waiting ones. -/
inductive SpawnerInput where
  | loopCreated (scene : Scene) (path : List Vector3) (intersection : Option Intersection)
      (lineEntity : Option ℕ)
  | sphereCreated (scene : Scene) (sphere : ℕ) (position : Vector3)
  | sphereReleased (scene : Scene) (detail : SphereReleased)
  | timer (scene : Scene) (k : ℕ)

namespace Spawner

/-- The source's `init`. -/
def init (animationSpeed : ℚ) : Spawner :=
  { animationSpeed := animationSpeed, spheres := [], loops := [], lineEntities := [],
    timers := [] }

/-- The local `lineWorldPos` of the handlers. -/
def lineWorldPos (scene : Scene) (loopData : LoopData) : Vector3 :=
  match loopData.lineEntity with
  | some e => scene.worldPosition e
  | none => ⟨0, 0, 0⟩

/-- The array `spheres` after `if (!spheres.includes(sphere)) push(sphere)`. -/
def track (spheres : List ℕ) (sphere : ℕ) : List ℕ :=
  if sphere ∈ spheres then spheres else spheres ++ [sphere]

/-- The source's `animateSphereOnPath`. -/
def animateSphereOnPath (scene : Scene) (sp : Spawner) (sphere : ℕ) (loopData : LoopData) :
    Spawner × List SpawnerAction :=
  let worldPath := loopData.path.map (fun p => Vector3.add p.clone (lineWorldPos scene loopData))
  let animatorConfig : AnimatorConfig :=
    { path := worldPath, speed := sp.animationSpeed, loop := true, autoStart := true,
      lineEntity := loopData.lineEntity }
  ({ sp with spheres := track sp.spheres sphere },
    [SpawnerAction.animate sphere loopData animatorConfig])

/-- The body of the `forEach` of `onLoopCreated` over the markers. -/
def loopCreatedStep (scene : Scene) (loopData : LoopData)
    (acc : Spawner × List SpawnerAction) (sphere : ℕ) : Spawner × List SpawnerAction :=
  if scene.hasAnimator sphere = true then acc
  else if nearPath (scene.worldPosition sphere) (lineWorldPos scene loopData) loopData.path then
    let r := animateSphereOnPath scene acc.1 sphere loopData
    ({ r.1 with spheres := track r.1.spheres sphere }, acc.2 ++ r.2)
  else acc

/-- The source's `onLoopCreated`. -/
def onLoopCreated (scene : Scene) (path : List Vector3) (intersection : Option Intersection)
    (lineEntity : Option ℕ) (sp : Spawner) : Spawner × List SpawnerAction :=
  let loopData : LoopData :=
    { path := path, intersection := intersection, hasLoop := intersection.isSome,
      lineEntity := lineEntity }
  let sp := { sp with loops := sp.loops ++ [loopData] }
  let sp :=
    match lineEntity with
    | some e => { sp with lineEntities := sp.lineEntities ++ [e] }
    | none => sp
  if loopData.hasLoop = true then
    scene.wobblySpheres.foldl (loopCreatedStep scene loopData) (sp, [])
  else (sp, [])

/-- The source's `onSphereCreated`: the first loop that the position is near
and that has a loop gets a timer. -/
def onSphereCreated (scene : Scene) (sphere : ℕ) (position : Vector3) (sp : Spawner) :
    Spawner × List SpawnerAction :=
  if sp.loops.length = 0 then (sp, [])
  else
    match sp.loops.find?
        (fun loopData =>
          nearPath position.clone (lineWorldPos scene loopData) loopData.path &&
            loopData.hasLoop) with
    | some loopData => ({ sp with timers := sp.timers ++ [(sphere, loopData)] }, [])
    | none => (sp, [])

/-- The source's `onSphereReleased`. -/
def onSphereReleased (scene : Scene) (detail : SphereReleased) (sp : Spawner) :
    Spawner × List SpawnerAction :=
  match sp.loops.find?
      (fun loopData =>
        withinDistance
            (minDistance detail.position (lineWorldPos scene loopData) loopData.path)
            (15 / 100) &&
          loopData.hasLoop) with
  | some loopData =>
    if scene.hasAnimator detail.sphere = true then
      ({ sp with timers := sp.timers ++ [(detail.sphere, loopData)] },
        [SpawnerAction.removeAnimator detail.sphere])
    else animateSphereOnPath scene sp detail.sphere loopData
  | none =>
    ({ sp with spheres := sp.spheres.erase detail.sphere },
      if scene.hasAnimator detail.sphere = true then
        [SpawnerAction.removeAnimator detail.sphere]
      else [])

/-- The callback of a `setTimeout` of the spawner, when timer `k` fires. -/
def onTimer (scene : Scene) (k : ℕ) (sp : Spawner) : Spawner × List SpawnerAction :=
  match sp.timers.get? k with
  | some (sphere, loopData) =>
    animateSphereOnPath scene { sp with timers := sp.timers.eraseIdx k } sphere loopData
  | none => (sp, [])

/-- One event handled by the spawner. -/
def handle (sp : Spawner) : SpawnerInput → Spawner × List SpawnerAction
  | SpawnerInput.loopCreated scene path intersection lineEntity =>
    onLoopCreated scene path intersection lineEntity sp
  | SpawnerInput.sphereCreated scene sphere position => onSphereCreated scene sphere position sp
  | SpawnerInput.sphereReleased scene detail => onSphereReleased scene detail sp
  | SpawnerInput.timer scene k => onTimer scene k sp

/-- A sequence of events handled by the spawner: the final state and all
actions, in order. -/
def run : Spawner → List SpawnerInput → Spawner × List SpawnerAction
  | sp, [] => (sp, [])
  | sp, e :: es =>
    let r := handle sp e
    let r2 := run r.1 es
    (r2.1, r.2 ++ r2.2)

end Spawner

/-- A scene with one marker, entity 7, at the given position and without
animator; every other entity is at the origin. -/
def oneMarkerScene (position : Vector3) : Scene :=
  { wobblySpheres := [7], hasAnimator := fun _ => false,
    worldPosition := fun e => if e = 7 then position else ⟨0, 0, 0⟩ }

/-- A straight path of two points. -/
def straightPath : List Vector3 := [⟨0, 0, 0⟩, ⟨1, 0, 0⟩]

/-- A loop whose path is a straight path, as stored by `onLoopCreated` for an
event without intersection. -/
def straightLoop : LoopData :=
  { path := straightPath, intersection := none, hasLoop := false, lineEntity := none }

/-- The X-shape as a stored loop of line entity 3, with its crossing. -/
def crossLoop : LoopData :=
  { path := xShape, intersection := some ⟨⟨1 / 2, 0, 1 / 2⟩, 1⟩, hasLoop := true,
    lineEntity := some 3 }

/-- A spawner that knows the straight path and the X-shape, in this order. -/
def twoLoopSpawner : Spawner :=
  { Spawner.init (1 / 5) with loops := [straightLoop, crossLoop] }

/-- Marker 7 at the origin, held by the right hand. -/
def heldMarker : XrTarget :=
  { restingTarget 7 ⟨0, 0, 0⟩ with grabbed := true, grabbingHand := some Hand.right }

/-- The position is within the proximity threshold of the stored path, moved
to the world position of its line: some segment is at a distance below 0.15,
and the path has a loop. -/
def OnLoop (scene : Scene) (position : Vector3) (l : LoopData) : Prop :=
  l.hasLoop = true ∧
    ∃ i : ℕ, i + 1 < l.path.length ∧
      segmentDistanceSq position (Spawner.lineWorldPos scene l) l.path i
        < (15 / 100) * (15 / 100)

/-- What holds of the spawner between two events: every waiting timer is for
a stored loop with `hasLoop`, and `hasLoop` of a stored loop says that its
intersection is set. -/
def Spawner.Inv (sp : Spawner) : Prop :=
  (∀ e ∈ sp.timers, e.2 ∈ sp.loops ∧ e.2.hasLoop = true) ∧
    ∀ l ∈ sp.loops, l.hasLoop = l.intersection.isSome

/-- What holds of the result `r` of a handler run on the spawner `sp`: the
invariant holds again, the stored loops are still stored, and every
`animateSphereOnPath` that ran was for a stored loop with `hasLoop`. -/
def Spawner.Sound (sp : Spawner) (r : Spawner × List SpawnerAction) : Prop :=
  Spawner.Inv r.1 ∧ (∀ l ∈ sp.loops, l ∈ r.1.loops) ∧
    ∀ s l c, SpawnerAction.animate s l c ∈ r.2 → l ∈ r.1.loops ∧ l.hasLoop = true

/-! ## Distance tests and square roots -/

theorem Vector3.distanceToSquared_nonneg (a b : Vector3) : 0 ≤ Vector3.distanceToSquared a b := by
  unfold Vector3.distanceToSquared
  exact add_nonneg (add_nonneg (mul_self_nonneg _) (mul_self_nonneg _)) (mul_self_nonneg _)

/-- The test `distanceLt` is the comparison of the real square root of the
squared distance, the three.js `distanceTo`, with the bound. -/
theorem Vector3.distanceLt_iff_sqrt (a b : Vector3) (r : ℚ) :
    Vector3.distanceLt a b r ↔ Real.sqrt ((Vector3.distanceToSquared a b : ℚ) : ℝ) < (r : ℝ) := by
  unfold Vector3.distanceLt
  constructor
  · rintro ⟨hr, hlt⟩
    have hr' : (0 : ℝ) < (r : ℝ) := by exact_mod_cast hr
    rw [Real.sqrt_lt' hr']
    have : ((Vector3.distanceToSquared a b : ℚ) : ℝ) < (r : ℝ) * (r : ℝ) := by exact_mod_cast hlt
    nlinarith
  · intro h
    have hr' : (0 : ℝ) < (r : ℝ) := lt_of_le_of_lt (Real.sqrt_nonneg _) h
    rw [Real.sqrt_lt' hr'] at h
    refine ⟨by exact_mod_cast hr', ?_⟩
    have h2 : ((Vector3.distanceToSquared a b : ℚ) : ℝ) < (r : ℝ) * (r : ℝ) := by nlinarith
    exact_mod_cast h2

/-- The test `distanceGt` is the comparison of the real square root of the
squared distance, the three.js `distanceTo`, with the bound. -/
theorem Vector3.distanceGt_iff_sqrt (a b : Vector3) (r : ℚ) :
    Vector3.distanceGt a b r ↔ (r : ℝ) < Real.sqrt ((Vector3.distanceToSquared a b : ℚ) : ℝ) := by
  unfold Vector3.distanceGt
  rcases lt_or_le r 0 with hr | hr
  · have hr' : (r : ℝ) < 0 := by exact_mod_cast hr
    constructor
    · intro _
      exact lt_of_lt_of_le hr' (Real.sqrt_nonneg _)
    · intro _
      exact Or.inl hr
  · have hr' : (0 : ℝ) ≤ (r : ℝ) := by exact_mod_cast hr
    rw [Real.lt_sqrt hr']
    constructor
    · rintro (h | h)
      · exact absurd hr (not_le.mpr h)
      · have : (r : ℝ) * (r : ℝ) < ((Vector3.distanceToSquared a b : ℚ) : ℝ) := by
          exact_mod_cast h
        nlinarith
    · intro h
      right
      have h2 : (r : ℝ) * (r : ℝ) < ((Vector3.distanceToSquared a b : ℚ) : ℝ) := by nlinarith
      exact_mod_cast h2

/-! ## Lemmas on the loops -/

theorem findSome?_range_eq_none {β : Type} (f : ℕ → Option β) (n : ℕ) :
    (List.range n).findSome? f = none ↔ ∀ i, i < n → f i = none := by
  simp [List.findSome?_eq_none_iff]

theorem findSome?_range_eq_some {β : Type} (f : ℕ → Option β) (n : ℕ) (b : β) :
    (List.range n).findSome? f = some b ↔
      ∃ i, i < n ∧ f i = some b ∧ ∀ k, k < i → f k = none := by
  induction n generalizing b with
  | zero => simp
  | succ n ih =>
    rw [List.range_succ, List.findSome?_append]
    cases hpre : (List.range n).findSome? f with
    | some c =>
      obtain ⟨i, hi, hfi, hlt⟩ := (ih c).mp hpre
      simp only [Option.or_some]
      constructor
      · intro h
        exact ⟨i, by omega, by rw [hfi, ← h], hlt⟩
      · rintro ⟨k, _, hfk, hklt⟩
        rcases Nat.lt_trichotomy k i with h | h | h
        · rw [hlt k h] at hfk; cases hfk
        · subst h; rw [hfi] at hfk; exact hfk
        · rw [hklt i h] at hfi; cases hfi
    | none =>
      have hnone := (findSome?_range_eq_none f n).mp hpre
      simp only [Option.none_or, List.findSome?_cons, List.findSome?_nil]
      constructor
      · intro h
        refine ⟨n, by omega, ?_, hnone⟩
        cases hfn : f n with
        | none => rw [hfn] at h; cases h
        | some d => rw [hfn] at h; exact h
      · rintro ⟨k, hk, hfk, _⟩
        have hkn : k = n := by
          by_contra hne
          have := hnone k (by omega)
          rw [this] at hfk; cases hfk
        subst hkn
        rw [hfk]

theorem pairCheck_eq_some_iff (pts : List Vector3) (i j : ℕ) (r : Intersection) :
    pairCheck pts i j = some r ↔
      1 < |(i : ℤ) - (j : ℤ)| ∧ ∃ p, segmentIntersection pts i j = some p ∧
        |avgY pts i - avgY pts j| < 3 / 10 ∧ r = crossingResult pts i j p := by
  unfold pairCheck crossingResult
  by_cases hadj : |(i : ℤ) - (j : ℤ)| ≤ 1
  · simp only [hadj, if_true]
    constructor
    · intro h; cases h
    · rintro ⟨h, _⟩; omega
  · have hlt : 1 < |(i : ℤ) - (j : ℤ)| := by omega
    simp only [hadj, if_false, hlt, true_and]
    cases hseg : segmentIntersection pts i j with
    | none => simp
    | some p =>
      by_cases hy : |avgY pts i - avgY pts j| < 3 / 10
      · simp [hy, eq_comm]
      · simp [hy]

theorem pairCheck_eq_none_iff (pts : List Vector3) (i j : ℕ) :
    pairCheck pts i j = none ↔ (1 < |(i : ℤ) - (j : ℤ)| → ¬ Qualifies pts i j) := by
  unfold pairCheck Qualifies
  by_cases hadj : |(i : ℤ) - (j : ℤ)| ≤ 1
  · simp only [hadj, if_true, true_iff]
    intro h; omega
  · have hlt : 1 < |(i : ℤ) - (j : ℤ)| := by omega
    simp only [hadj, if_false, hlt, true_implies]
    cases hseg : segmentIntersection pts i j with
    | none => simp
    | some p =>
      by_cases hy : |avgY pts i - avgY pts j| < 3 / 10
      · simp [hy]
      · simp [hy]

theorem segmentScan_eq_none_iff (pts : List Vector3) :
    segmentScan pts = none ↔
      ∀ i j, i < pts.length - 1 → j < pts.length - 1 → pairCheck pts i j = none := by
  unfold segmentScan innerLoop
  rw [findSome?_range_eq_none]
  constructor
  · intro h i j hi hj
    exact (findSome?_range_eq_none _ _).mp (h i hi) j hj
  · intro h i hi
    exact (findSome?_range_eq_none _ _).mpr (fun j hj => h i j hi hj)

theorem segmentScan_eq_some_iff (pts : List Vector3) (r : Intersection) :
    segmentScan pts = some r ↔
      ∃ i j, i < pts.length - 1 ∧ j < pts.length - 1 ∧ pairCheck pts i j = some r ∧
        (∀ j', j' < j → pairCheck pts i j' = none) ∧
        (∀ i' j', i' < i → j' < pts.length - 1 → pairCheck pts i' j' = none) := by
  unfold segmentScan innerLoop
  rw [findSome?_range_eq_some]
  constructor
  · rintro ⟨i, hi, hin, hbefore⟩
    obtain ⟨j, hj, hp, hjs⟩ := (findSome?_range_eq_some _ _ _).mp hin
    refine ⟨i, j, hi, hj, hp, hjs, ?_⟩
    intro i' j' hi' hj'
    exact (findSome?_range_eq_none _ _).mp (hbefore i' hi') j' hj'
  · rintro ⟨i, j, hi, hj, hp, hjs, hbefore⟩
    refine ⟨i, hi, (findSome?_range_eq_some _ _ _).mpr ⟨j, hj, hp, hjs⟩, ?_⟩
    intro k hk
    exact (findSome?_range_eq_none _ _).mpr (fun j' hj' => hbefore k j' hk hj')

theorem Visited.length_ge {pts : List Vector3} {i j : ℕ} (h : Visited pts i j) :
    4 ≤ pts.length := by
  obtain ⟨hi, hj, hij⟩ := h
  rcases abs_cases ((i : ℤ) - (j : ℤ)) with ⟨h1, _⟩ | ⟨h1, _⟩ <;> omega

theorem Vector3.clone_eq (v : Vector3) : v.clone = v := rfl

/-- When no visited pair qualifies the nested loops return nothing. -/
theorem segmentScan_eq_none_of_no_pair (pts : List Vector3)
    (hno : ∀ i j, Visited pts i j → ¬ Qualifies pts i j) : segmentScan pts = none := by
  rw [segmentScan_eq_none_iff]
  intro i j hi hj
  rw [pairCheck_eq_none_iff]
  intro hadj
  exact hno i j ⟨by omega, by omega, hadj⟩

/-- A result of the nested loops comes from the first visited pair that
qualifies, in nested iteration order. -/
theorem segmentScan_some_first (pts : List Vector3) (r : Intersection)
    (h : segmentScan pts = some r) :
    ∃ i j p, Visited pts i j ∧ segmentIntersection pts i j = some p ∧
      |avgY pts i - avgY pts j| < 3 / 10 ∧
      (∀ i' j', Visited pts i' j' → Before i' j' i j → ¬ Qualifies pts i' j') ∧
      r = crossingResult pts i j p := by
  obtain ⟨i, j, hi, hj, hp, hjs, hbefore⟩ := (segmentScan_eq_some_iff pts r).mp h
  obtain ⟨hadj, p, hseg, hy, hr⟩ := (pairCheck_eq_some_iff pts i j r).mp hp
  refine ⟨i, j, p, ⟨by omega, by omega, hadj⟩, hseg, hy, ?_, hr⟩
  rintro i' j' ⟨_, hj', hadj'⟩ hb
  rcases hb with hlt | ⟨rfl, hlt⟩
  · exact (pairCheck_eq_none_iff pts i' j').mp (hbefore i' j' hlt (by omega)) hadj'
  · exact (pairCheck_eq_none_iff pts i' j').mp (hjs j' hlt) hadj'

theorem pointAt_z_eq_zero (pts : List Vector3) (hz : ∀ p ∈ pts, p.z = 0) (i : ℕ) :
    (pointAt pts i).z = 0 := by
  unfold pointAt
  rw [List.getD_eq_getElem?_getD]
  cases h : pts[i]? with
  | none => rfl
  | some p => exact hz p (List.getElem?_mem h)

/-- On a stroke that stays on the line `z = 0` every pair of segments is
parallel. -/
theorem segmentIntersection_eq_none_of_flat (pts : List Vector3)
    (hz : ∀ p ∈ pts, p.z = 0) (i j : ℕ) : segmentIntersection pts i j = none := by
  unfold segmentIntersection getLineIntersection
  simp [pointAt_z_eq_zero pts hz]

theorem closureCheck_closed (pts : List Vector3) (hn : 10 < pts.length)
    (hclosed : pointAt pts (pts.length - 1) = pointAt pts 0) :
    closureCheck pts = some ⟨pointAt pts 0, 0⟩ := by
  unfold closureCheck
  have hd : Vector3.distanceLt (pointAt pts 0) (pointAt pts (pts.length - 1)) (15 / 100) := by
    rw [hclosed]
    unfold Vector3.distanceLt Vector3.distanceToSquared
    norm_num
  simp [hn, hd, Vector3.clone_eq]

/-! ## The loop detector: properties -/

/-- C1: when some visited segment pair qualifies (which needs at least 4
points), `checkSelfIntersection` returns the intersection of the first
qualifying pair in nested iteration order: the pair `(i, j)` is visited and
qualifies, no visited pair before it qualifies, and the result is the point
`(x, mean of the two average heights, z)` of that pair's 2D intersection,
with index `min i j + 1`. -/
theorem checkSelfIntersection_first_qualifying (pts : List Vector3)
    (hex : ∃ i j, Visited pts i j ∧ Qualifies pts i j) :
    4 ≤ pts.length ∧ ∃ i j p, Visited pts i j ∧ segmentIntersection pts i j = some p ∧
      |avgY pts i - avgY pts j| < 3 / 10 ∧
      (∀ i' j', Visited pts i' j' → Before i' j' i j → ¬ Qualifies pts i' j') ∧
      checkSelfIntersection pts =
        some ⟨⟨p.x, (avgY pts i + avgY pts j) / 2, p.z⟩, min i j + 1⟩ := by
  obtain ⟨i0, j0, hv0, hq0⟩ := hex
  have hlen : 4 ≤ pts.length := hv0.length_ge
  refine ⟨hlen, ?_⟩
  cases hscan : segmentScan pts with
  | none =>
    exfalso
    have := (segmentScan_eq_none_iff pts).mp hscan i0 j0 (by have := hv0.1; omega)
      (by have := hv0.2.1; omega)
    exact (pairCheck_eq_none_iff pts i0 j0).mp this hv0.2.2 hq0
  | some r =>
    obtain ⟨i, j, p, hv, hseg, hy, hfirst, hr⟩ := segmentScan_some_first pts r hscan
    refine ⟨i, j, p, hv, hseg, hy, hfirst, ?_⟩
    unfold checkSelfIntersection
    rw [if_neg (by omega), hscan, hr]
    rfl

/-- C1, at the X-shape: the pair `(0, 2)` qualifies. -/
theorem checkSelfIntersection_first_qualifying_witness :
    4 ≤ xShape.length ∧ ∃ i j p, Visited xShape i j ∧ segmentIntersection xShape i j = some p ∧
      |avgY xShape i - avgY xShape j| < 3 / 10 ∧
      (∀ i' j', Visited xShape i' j' → Before i' j' i j → ¬ Qualifies xShape i' j') ∧
      checkSelfIntersection xShape =
        some ⟨⟨p.x, (avgY xShape i + avgY xShape j) / 2, p.z⟩, min i j + 1⟩ :=
  checkSelfIntersection_first_qualifying xShape
    ⟨0, 2, by simp [Visited, xShape],
      by simp [Qualifies, segmentIntersection, getLineIntersection, pointAt, avgY, xShape]
         norm_num⟩

/-- C2: on the X-shape `(0,0,0), (1,0,1), (0,0,1), (1,0,0)` the detector
returns the crossing of the segments 0 and 2, the first visited pair: the
point `(0.5, 0, 0.5)` and the index `min 0 2 + 1 = 1`. -/
theorem checkSelfIntersection_xShape :
    segmentIntersection xShape 0 2 = some ⟨1 / 2, 1 / 2⟩ ∧
      (∀ i' j', Visited xShape i' j' → ¬ Before i' j' 0 2) ∧
      checkSelfIntersection xShape = some (crossingResult xShape 0 2 ⟨1 / 2, 1 / 2⟩) ∧
      checkSelfIntersection xShape = some ⟨⟨1 / 2, 0, 1 / 2⟩, 1⟩ := by
  refine ⟨?_, ?_, ?_, ?_⟩
  · norm_num [segmentIntersection, getLineIntersection, pointAt, xShape]
  · rintro i' j' ⟨hi, hj, hadj⟩ hb
    simp only [xShape, List.length_cons, List.length_nil] at hi hj
    rcases abs_cases ((i' : ℤ) - (j' : ℤ)) with ⟨h1, _⟩ | ⟨h1, _⟩ <;>
      rcases hb with h | ⟨h, h'⟩ <;> omega
  · simp [checkSelfIntersection, xShape, segmentScan, innerLoop, List.range_succ,
      List.findSome?, pairCheck, segmentIntersection, getLineIntersection, pointAt, avgY,
      crossingResult]
    norm_num [abs_lt]
  · simp [checkSelfIntersection, xShape, segmentScan, innerLoop, List.range_succ,
      List.findSome?, pairCheck, segmentIntersection, getLineIntersection, pointAt, avgY]
    norm_num [abs_lt]

/-- C3: when no visited segment pair qualifies, `checkSelfIntersection`
returns the first point (a copy of it) with index 0 if the polyline has more
than 10 points and the distance between its first and its last point is
below 0.15, and returns null otherwise. -/
theorem checkSelfIntersection_no_pair (pts : List Vector3)
    (hno : ∀ i j, Visited pts i j → ¬ Qualifies pts i j) :
    checkSelfIntersection pts =
      if 10 < pts.length ∧
          Vector3.distanceLt (pointAt pts 0) (pointAt pts (pts.length - 1)) (15 / 100)
      then some ⟨pointAt pts 0, 0⟩ else none := by
  have hscan := segmentScan_eq_none_of_no_pair pts hno
  unfold checkSelfIntersection closureCheck
  rw [hscan]
  by_cases h4 : pts.length < 4
  · have h10 : ¬ 10 < pts.length := by omega
    simp [h4, h10]
  · by_cases h10 : 10 < pts.length
    · by_cases hd : Vector3.distanceLt (pointAt pts 0) (pointAt pts (pts.length - 1)) (15 / 100)
      · simp [h4, h10, hd, Vector3.clone_eq]
      · simp [h4, h10, hd]
    · simp [h4, h10]

/-- C3, at eleven points on a line, 0.1 from the first to the last: the
result is the first point with index 0. -/
theorem checkSelfIntersection_no_pair_witness :
    checkSelfIntersection line11 = some ⟨⟨0, 0, 0⟩, 0⟩ := by
  have hflat : ∀ p ∈ line11, p.z = 0 := by
    intro p hp
    simp only [line11, List.mem_cons, List.mem_singleton, List.mem_nil_iff, or_false] at hp
    rcases hp with h | h | h | h | h | h | h | h | h | h | h <;> rw [h]
  have h := checkSelfIntersection_no_pair line11
    (fun i j _ hq => hq.1 (segmentIntersection_eq_none_of_flat line11 hflat i j))
  rw [h]
  norm_num [line11, pointAt, Vector3.distanceLt, Vector3.distanceToSquared]

/-- C5: on a polyline with fewer than 4 points, the empty one included,
`checkSelfIntersection` returns null. -/
theorem checkSelfIntersection_short (pts : List Vector3) (h : pts.length < 4) :
    checkSelfIntersection pts = none := by
  unfold checkSelfIntersection
  rw [if_pos h]

/-- C5, at the empty polyline and at a polyline of three points. -/
theorem checkSelfIntersection_short_witness :
    checkSelfIntersection [] = none ∧
      checkSelfIntersection [⟨0, 0, 0⟩, ⟨1, 0, 1⟩, ⟨0, 0, 1⟩] = none :=
  ⟨checkSelfIntersection_short [] (by decide),
    checkSelfIntersection_short [⟨0, 0, 0⟩, ⟨1, 0, 1⟩, ⟨0, 0, 1⟩] (by decide)⟩

/-- C6: a segment pair whose (x, z) projections intersect but whose average
heights differ by 0.3 or more makes the loop body return nothing; every
result of `checkSelfIntersection` is either the crossing of a visited pair
whose heights differ by less than 0.3 or the start/end result reached after
the loops returned nothing; and a polyline of at most 10 points all of whose
2D crossings have vertical separation at least 0.3 yields null. -/
theorem checkSelfIntersection_height_gate (pts : List Vector3) :
    (∀ i j, segmentIntersection pts i j ≠ none → 3 / 10 ≤ |avgY pts i - avgY pts j| →
      pairCheck pts i j = none) ∧
    (∀ r, checkSelfIntersection pts = some r →
      (∃ i j p, Visited pts i j ∧ segmentIntersection pts i j = some p ∧
        |avgY pts i - avgY pts j| < 3 / 10 ∧ pairCheck pts i j = some r ∧
        r = crossingResult pts i j p) ∨
      (segmentScan pts = none ∧ closureCheck pts = some r)) ∧
    (pts.length ≤ 10 →
      (∀ i j, Visited pts i j → segmentIntersection pts i j ≠ none →
        3 / 10 ≤ |avgY pts i - avgY pts j|) →
      checkSelfIntersection pts = none) := by
  refine ⟨?_, ?_, ?_⟩
  · intro i j _ hy
    rw [pairCheck_eq_none_iff]
    intro _ hq
    exact absurd hq.2 (not_lt.mpr hy)
  · intro r hr
    unfold checkSelfIntersection at hr
    by_cases h4 : pts.length < 4
    · rw [if_pos h4] at hr; cases hr
    · rw [if_neg h4] at hr
      cases hscan : segmentScan pts with
      | none =>
        rw [hscan] at hr
        exact Or.inr ⟨rfl, hr⟩
      | some r' =>
        rw [hscan] at hr
        have hrr : r' = r := by simpa using hr
        subst hrr
        obtain ⟨i, j, hi, hj, hp, _, _⟩ := (segmentScan_eq_some_iff pts r').mp hscan
        obtain ⟨hadj, p, hseg, hy, hr'⟩ := (pairCheck_eq_some_iff pts i j r').mp hp
        exact Or.inl ⟨i, j, p, ⟨by omega, by omega, hadj⟩, hseg, hy, hp, hr'⟩
  · intro h10 hsep
    have hno : ∀ i j, Visited pts i j → ¬ Qualifies pts i j := by
      intro i j hv hq
      exact absurd hq.2 (not_lt.mpr (hsep i j hv hq.1))
    rw [checkSelfIntersection_no_pair pts hno]
    have : ¬ 10 < pts.length := by omega
    simp [this]

/-- C6, at the X-shape with its crossing segments one unit of height apart:
the segments 0 and 2 cross in projection, and the result is null. -/
theorem checkSelfIntersection_height_gate_witness :
    segmentIntersection xShapeSplit 0 2 ≠ none ∧ pairCheck xShapeSplit 0 2 = none ∧
      checkSelfIntersection xShapeSplit = none := by
  have hseg : segmentIntersection xShapeSplit 0 2 ≠ none := by
    simp [segmentIntersection, getLineIntersection, pointAt, xShapeSplit]
    norm_num
  have hsep : ∀ i j, Visited xShapeSplit i j → segmentIntersection xShapeSplit i j ≠ none →
      3 / 10 ≤ |avgY xShapeSplit i - avgY xShapeSplit j| := by
    rintro i j ⟨hi, hj, hadj⟩ _
    simp only [xShapeSplit, List.length_cons, List.length_nil] at hi hj
    have hcases : (i = 0 ∧ j = 2) ∨ (i = 2 ∧ j = 0) := by
      rcases abs_cases ((i : ℤ) - (j : ℤ)) with ⟨h1, _⟩ | ⟨h1, _⟩ <;> omega
    rcases hcases with ⟨rfl, rfl⟩ | ⟨rfl, rfl⟩ <;>
      norm_num [avgY, pointAt, xShapeSplit, abs_of_nonneg, abs_of_nonpos]
  have h := checkSelfIntersection_height_gate xShapeSplit
  exact ⟨hseg, h.1 0 2 hseg (hsep 0 2 ⟨by simp [xShapeSplit], by simp [xShapeSplit], by norm_num⟩ hseg),
    h.2.2 (by simp [xShapeSplit]) hsep⟩

set_option maxHeartbeats 1600000 in
/-- On the ten-point closed square no segment pair makes the loops return:
every denominator is below the parallel threshold. -/
theorem segmentScan_closedSquare10 : segmentScan closedSquare10 = none := by
  rw [segmentScan_eq_none_iff]
  intro i j hi hj
  simp only [closedSquare10, List.length_cons, List.length_nil] at hi hj
  interval_cases i <;> interval_cases j <;>
    simp [pairCheck, segmentIntersection, getLineIntersection, pointAt, avgY,
      closedSquare10] <;> norm_num [abs_lt]

theorem pairCheck_closedSquare13 :
    pairCheck closedSquare13 0 11 = some ⟨⟨0, 0, 0⟩, 1⟩ := by
  simp [pairCheck, segmentIntersection, getLineIntersection, pointAt, avgY, closedSquare13]
  norm_num

set_option maxHeartbeats 800000 in
/-- On the thirteen-point closed square the loops return at the pair
`(0, 11)`: the first and the last segment. -/
theorem segmentScan_closedSquare13 :
    segmentScan closedSquare13 = some ⟨⟨0, 0, 0⟩, 1⟩ := by
  rw [segmentScan_eq_some_iff]
  refine ⟨0, 11, by simp [closedSquare13], by simp [closedSquare13],
    pairCheck_closedSquare13, ?_, ?_⟩
  · intro j' hj'
    interval_cases j' <;>
      simp [pairCheck, segmentIntersection, getLineIntersection, pointAt, avgY,
        closedSquare13] <;> norm_num
  · intro i' j' hi'
    omega

/-- C4, as stated, fails: on the closed unit square of thirteen points that
starts at a corner, the first and the last segment meet at the start point
and are not adjacent, so the loops return their crossing with index 1 and
the start/end test is never reached; and on a closed square of exactly ten
points with short edges the detector returns null. -/
theorem closedSquare_not_closure_path :
    segmentScan closedSquare13 = some ⟨⟨0, 0, 0⟩, 1⟩ ∧
      pairCheck closedSquare13 0 11 = some ⟨⟨0, 0, 0⟩, 1⟩ ∧
      checkSelfIntersection closedSquare13 = some ⟨⟨0, 0, 0⟩, 1⟩ ∧
      checkSelfIntersection closedSquare13 ≠ some ⟨pointAt closedSquare13 0, 0⟩ ∧
      closedSquare10.length = 10 ∧
      pointAt closedSquare10 9 = pointAt closedSquare10 0 ∧
      checkSelfIntersection closedSquare10 = none := by
  have hres : checkSelfIntersection closedSquare13 = some ⟨⟨0, 0, 0⟩, 1⟩ := by
    unfold checkSelfIntersection
    rw [segmentScan_closedSquare13]
    simp [closedSquare13]
  refine ⟨segmentScan_closedSquare13, pairCheck_closedSquare13, hres, ?_, rfl, ?_, ?_⟩
  · rw [hres]
    simp
  · simp [pointAt, closedSquare10]
  · unfold checkSelfIntersection closureCheck
    rw [segmentScan_closedSquare10]
    simp [closedSquare10]

/-- C4, amended: on every polyline of more than 10 points whose last point
equals its first point, a closed square of more than 10 points among them,
`checkSelfIntersection` returns a non-null result.  When no visited segment
pair qualifies it is the start/end result, the first point with index 0.
When some visited pair qualifies it is the crossing the loops return, with
an index of at least 1. -/
theorem checkSelfIntersection_closed (pts : List Vector3) (hn : 10 < pts.length)
    (hclosed : pointAt pts (pts.length - 1) = pointAt pts 0) :
    checkSelfIntersection pts ≠ none ∧
    ((∀ i j, Visited pts i j → ¬ Qualifies pts i j) →
      segmentScan pts = none ∧ checkSelfIntersection pts = some ⟨pointAt pts 0, 0⟩) ∧
    ((∃ i j, Visited pts i j ∧ Qualifies pts i j) →
      ∃ i j p, Visited pts i j ∧ segmentIntersection pts i j = some p ∧
        segmentScan pts = some (crossingResult pts i j p) ∧
        checkSelfIntersection pts = some (crossingResult pts i j p) ∧
        1 ≤ (crossingResult pts i j p).index) := by
  have hclosure := closureCheck_closed pts hn hclosed
  have h4 : ¬ pts.length < 4 := by omega
  refine ⟨?_, ?_, ?_⟩
  · unfold checkSelfIntersection
    rw [if_neg h4]
    cases segmentScan pts with
    | none => simp [hclosure]
    | some r => simp
  · intro hno
    have hscan := segmentScan_eq_none_of_no_pair pts hno
    refine ⟨hscan, ?_⟩
    unfold checkSelfIntersection
    rw [if_neg h4, hscan]
    exact hclosure
  · rintro ⟨i0, j0, hv0, hq0⟩
    cases hscan : segmentScan pts with
    | none =>
      exfalso
      have := (segmentScan_eq_none_iff pts).mp hscan i0 j0 (by have := hv0.1; omega)
        (by have := hv0.2.1; omega)
      exact (pairCheck_eq_none_iff pts i0 j0).mp this hv0.2.2 hq0
    | some r =>
      obtain ⟨i, j, p, hv, hseg, _, _, hr⟩ := segmentScan_some_first pts r hscan
      subst hr
      refine ⟨i, j, p, hv, hseg, rfl, ?_, ?_⟩
      · unfold checkSelfIntersection
        rw [if_neg h4, hscan]
      · simp [crossingResult]

/-- C4, amended, at the closed unit square of thirteen points. -/
theorem checkSelfIntersection_closed_witness :
    checkSelfIntersection closedSquare13 ≠ none ∧
    ((∀ i j, Visited closedSquare13 i j → ¬ Qualifies closedSquare13 i j) →
      segmentScan closedSquare13 = none ∧
        checkSelfIntersection closedSquare13 = some ⟨pointAt closedSquare13 0, 0⟩) ∧
    ((∃ i j, Visited closedSquare13 i j ∧ Qualifies closedSquare13 i j) →
      ∃ i j p, Visited closedSquare13 i j ∧ segmentIntersection closedSquare13 i j = some p ∧
        segmentScan closedSquare13 = some (crossingResult closedSquare13 i j p) ∧
        checkSelfIntersection closedSquare13 = some (crossingResult closedSquare13 i j p) ∧
        1 ≤ (crossingResult closedSquare13 i j p).index) :=
  checkSelfIntersection_closed closedSquare13 (by simp [closedSquare13])
    (by simp [pointAt, closedSquare13])

/-! ## The pinch detector: lemmas -/

theorem Vector3.lerpVectors_half (a b : Vector3) :
    Vector3.lerpVectors a b (1 / 2) = Vector3.midpoint a b := by
  unfold Vector3.lerpVectors Vector3.midpoint
  congr 1 <;> ring

/-- The fields after the fingertip positions of a visible-hand frame have
been read and the pinch position set to their midpoint. -/
theorem PinchDetector.tick_tracked (data : PinchData) (s : PinchDetector) (f : HandFrame)
    (thumb index : Vector3) (h : Tracked f thumb index) :
    PinchDetector.tick data s f =
      if s.isPinching = false ∧ Vector3.distanceLt thumb index data.pinchThreshold then
        ({ s with handTracking := true, thumbTipPosition := thumb, indexTipPosition := index,
                  pinchPosition := Vector3.midpoint thumb index, isPinching := true },
          [PinchEvent.pinchstarted data.hand (Vector3.midpoint thumb index)])
      else if s.isPinching = true ∧ Vector3.distanceGt thumb index data.releaseThreshold then
        ({ s with handTracking := true, thumbTipPosition := thumb, indexTipPosition := index,
                  pinchPosition := Vector3.midpoint thumb index, isPinching := false },
          [PinchEvent.pinchended data.hand (Vector3.midpoint thumb index)])
      else if s.isPinching = true then
        ({ s with handTracking := true, thumbTipPosition := thumb, indexTipPosition := index,
                  pinchPosition := Vector3.midpoint thumb index },
          [PinchEvent.pinchmoved data.hand (Vector3.midpoint thumb index)])
      else
        ({ s with handTracking := true, thumbTipPosition := thumb, indexTipPosition := index,
                  pinchPosition := Vector3.midpoint thumb index }, []) := by
  obtain ⟨hc, hv, hch, ht, hi⟩ := h
  unfold PinchDetector.tick
  simp only [hc, hv, ht, hi, hch, Vector3.lerpVectors_half, Vector3.clone_eq]
  simp

/-- What one `tick` can emit: nothing or one pinch-move with the pinching
flag unchanged, one pinch-start on leaving idle, or one pinch-end on leaving
the pinch. -/
theorem PinchDetector.tick_cases (data : PinchData) (s : PinchDetector) (f : HandFrame) :
    ((PinchDetector.tick data s f).2 = [] ∧
        (PinchDetector.tick data s f).1.isPinching = s.isPinching) ∨
    (∃ p, (PinchDetector.tick data s f).2 = [PinchEvent.pinchmoved data.hand p] ∧
        (PinchDetector.tick data s f).1.isPinching = s.isPinching) ∨
    (∃ p, s.isPinching = false ∧
        (PinchDetector.tick data s f).2 = [PinchEvent.pinchstarted data.hand p] ∧
        (PinchDetector.tick data s f).1.isPinching = true) ∨
    (∃ p, s.isPinching = true ∧
        (PinchDetector.tick data s f).2 = [PinchEvent.pinchended data.hand p] ∧
        (PinchDetector.tick data s f).1.isPinching = false) := by
  unfold PinchDetector.tick
  by_cases h1 : s.handTracking = false ∧ f.hasControls = false
  · simp [h1]
  · by_cases h2 : f.visible = false
    · cases hs : s.isPinching <;> simp [h1, h2, hs]
    · by_cases h3 : f.children = 0
      · simp [h1, h2, h3]
      · cases ht : f.thumbTip with
        | none => simp [h1, h2, h3]
        | some thumb =>
          cases hi : f.indexTip with
          | none => simp [h1, h2, h3]
          | some index =>
            cases hs : s.isPinching with
            | false =>
              by_cases hd : Vector3.distanceLt thumb index data.pinchThreshold
              · simp [h1, h2, h3, hd]
              · simp [h1, h2, h3, hd]
            | true =>
              by_cases hd : Vector3.distanceGt thumb index data.releaseThreshold
              · simp [h1, h2, h3, hd]
              · simp [h1, h2, h3, hd]

theorem PinchDetector.run_append (data : PinchData) (s : PinchDetector)
    (l₁ l₂ : List HandFrame) :
    PinchDetector.run data s (l₁ ++ l₂) =
      ((PinchDetector.run data (PinchDetector.run data s l₁).1 l₂).1,
        (PinchDetector.run data s l₁).2 ++
          (PinchDetector.run data (PinchDetector.run data s l₁).1 l₂).2) := by
  induction l₁ generalizing s with
  | nil => simp [PinchDetector.run]
  | cons f fs ih => simp [PinchDetector.run, ih, List.append_assoc]

theorem startEnd_append (a b : List PinchEvent) :
    startEnd (a ++ b) = startEnd a ++ startEnd b := by
  induction a with
  | nil => rfl
  | cons e es ih => cases e <;> simp [startEnd, ih]

/-- From any state the pinch-start and pinch-end events of a run alternate,
the first being a pinch-start exactly when the run starts idle. -/
theorem PinchDetector.run_alternates (data : PinchData) (s : PinchDetector)
    (frames : List HandFrame) :
    alternates (!s.isPinching) (PinchDetector.run data s frames).2 = true := by
  induction frames generalizing s with
  | nil => rfl
  | cons f fs ih =>
    have hrec := ih (PinchDetector.tick data s f).1
    simp only [PinchDetector.run]
    rcases PinchDetector.tick_cases data s f with ⟨he, hs⟩ | ⟨p, he, hs⟩ | ⟨p, hidle, he, hs⟩ |
        ⟨p, hpinch, he, hs⟩
    · rw [he, List.nil_append, ← hs]; exact hrec
    · rw [he, List.singleton_append]; simp only [alternates]; rw [← hs]; exact hrec
    · rw [he, List.singleton_append]; simp only [alternates]
      rw [hs] at hrec
      simpa [hidle] using hrec
    · rw [he, List.singleton_append]; simp only [alternates]
      rw [hs] at hrec
      simpa [hpinch] using hrec

/-- While idle, frames with distance at least the pinch threshold emit no
event and leave the detector idle. -/
theorem PinchDetector.run_idle (data : PinchData) (s : PinchDetector)
    (hidle : s.isPinching = false) (frames : List HandFrame)
    (h : ∀ f ∈ frames, FrameAtLeast f data.pinchThreshold) :
    (PinchDetector.run data s frames).2 = [] ∧
      (PinchDetector.run data s frames).1.isPinching = false := by
  induction frames generalizing s with
  | nil => exact ⟨rfl, hidle⟩
  | cons f fs ih =>
    obtain ⟨thumb, index, htr, hd⟩ := h f (List.mem_cons_self f fs)
    have ht := PinchDetector.tick_tracked data s f thumb index htr
    simp only [hidle, hd, and_false, if_false, Bool.false_eq_true, false_and] at ht
    have hrec := ih (PinchDetector.tick data s f).1 (by rw [ht])
      (fun g hg => h g (List.mem_cons_of_mem f hg))
    simp only [PinchDetector.run]
    rw [hrec.1, hrec.2, ht]
    exact ⟨rfl, rfl⟩

/-- While pinching, frames with distance at most the release threshold emit
only pinch-move events and leave the detector pinching. -/
theorem PinchDetector.run_pinching (data : PinchData) (s : PinchDetector)
    (hpinch : s.isPinching = true) (frames : List HandFrame)
    (h : ∀ f ∈ frames, FrameAtMost f data.releaseThreshold) :
    startEnd (PinchDetector.run data s frames).2 = [] ∧
      (PinchDetector.run data s frames).1.isPinching = true := by
  induction frames generalizing s with
  | nil => exact ⟨rfl, hpinch⟩
  | cons f fs ih =>
    obtain ⟨thumb, index, htr, hd⟩ := h f (List.mem_cons_self f fs)
    have ht := PinchDetector.tick_tracked data s f thumb index htr
    simp only [hpinch, hd, and_false, if_false, Bool.true_eq_false, false_and, if_true] at ht
    have hrec := ih (PinchDetector.tick data s f).1 (by rw [ht])
      (fun g hg => h g (List.mem_cons_of_mem f hg))
    simp only [PinchDetector.run]
    rw [startEnd_append, hrec.1, hrec.2, ht]
    exact ⟨rfl, rfl⟩

theorem tracked_frameAt (d : ℚ) : Tracked (frameAt d) ⟨0, 0, 0⟩ ⟨d, 0, 0⟩ :=
  ⟨rfl, rfl, by simp [frameAt, trackedFrame], rfl, rfl⟩

/-- A tick either caches the hand-tracking reference or changes nothing. -/
theorem PinchDetector.tick_handTracking (data : PinchData) (s : PinchDetector) (f : HandFrame) :
    (PinchDetector.tick data s f).1.handTracking = true ∨ PinchDetector.tick data s f = (s, []) := by
  unfold PinchDetector.tick
  by_cases h1 : s.handTracking = false ∧ f.hasControls = false
  · right
    simp [h1]
  · left
    by_cases h2 : f.visible = false
    · cases hs : s.isPinching <;> simp [h1, h2, hs]
    · by_cases h3 : f.children = 0
      · simp [h1, h2, h3]
      · cases ht : f.thumbTip with
        | none => simp [h1, h2, h3]
        | some thumb =>
          cases hi : f.indexTip with
          | none => simp [h1, h2, h3]
          | some index =>
            simp only [h1, h2, h3, if_false]
            split_ifs <;> rfl

/-- The pinching flag is only ever set once the hand-tracking reference is
cached. -/
theorem PinchDetector.run_handTracking_from (data : PinchData) (s : PinchDetector)
    (hinv : s.isPinching = true → s.handTracking = true) (frames : List HandFrame) :
    (PinchDetector.run data s frames).1.isPinching = true →
      (PinchDetector.run data s frames).1.handTracking = true := by
  induction frames generalizing s with
  | nil => exact hinv
  | cons f fs ih =>
    simp only [PinchDetector.run]
    apply ih
    intro hp
    rcases PinchDetector.tick_handTracking data s f with h | h
    · exact h
    · rw [h] at hp ⊢
      exact hinv hp

theorem PinchDetector.run_handTracking (data : PinchData) (frames : List HandFrame) :
    (PinchDetector.run data PinchDetector.init frames).1.isPinching = true →
      (PinchDetector.run data PinchDetector.init frames).1.handTracking = true :=
  PinchDetector.run_handTracking_from data PinchDetector.init (fun h => by cases h) frames

theorem pinchingDetector_reachable : Reachable defaultData pinchingDetector := by
  refine ⟨[frameAt (3 / 100)], ?_⟩
  simp only [PinchDetector.run]
  rw [PinchDetector.tick_tracked defaultData PinchDetector.init (frameAt (3 / 100)) _ _
    (tracked_frameAt _)]
  norm_num [Vector3.distanceLt, Vector3.distanceToSquared, defaultData, PinchDetector.init,
    pinchingDetector, Vector3.midpoint]

/-! ## The pinch detector: properties -/

/-- C7: started idle with `pinchThreshold < releaseThreshold`, for every
sequence of frames the pinch-start and pinch-end events alternate beginning
with a pinch-start; a visible-hand frame whose distance lies in the band from
`pinchThreshold` to `releaseThreshold` emits neither of them in any state;
and a sequence of visible-hand frames that stays at or above
`pinchThreshold`, goes below it, stays at or below `releaseThreshold`, goes
above it and then stays at or above `pinchThreshold` emits exactly one
pinch-start followed by exactly one pinch-end. -/
theorem pinch_hysteresis (data : PinchData) (s : PinchDetector)
    (hidle : s.isPinching = false) (_hband : data.pinchThreshold < data.releaseThreshold) :
    (∀ frames, alternates true (PinchDetector.run data s frames).2 = true) ∧
    (∀ s' f, FrameInBand f data.pinchThreshold data.releaseThreshold →
      startEnd (PinchDetector.tick data s' f).2 = [] ∧
        (PinchDetector.tick data s' f).1.isPinching = s'.isPinching) ∧
    (∀ pre f₁ mid f₂ post,
      (∀ f ∈ pre, FrameAtLeast f data.pinchThreshold) →
      FrameBelow f₁ data.pinchThreshold →
      (∀ f ∈ mid, FrameAtMost f data.releaseThreshold) →
      FrameAbove f₂ data.releaseThreshold →
      (∀ f ∈ post, FrameAtLeast f data.pinchThreshold) →
      ∃ p q, startEnd (PinchDetector.run data s (pre ++ f₁ :: mid ++ f₂ :: post)).2 =
        [PinchEvent.pinchstarted data.hand p, PinchEvent.pinchended data.hand q]) := by
  refine ⟨?_, ?_, ?_⟩
  · intro frames
    have h := PinchDetector.run_alternates data s frames
    rwa [hidle] at h
  · rintro s' f ⟨thumb, index, htr, hlo, hhi⟩
    rw [PinchDetector.tick_tracked data s' f thumb index htr]
    cases hs : s'.isPinching <;> simp [hlo, hhi, startEnd]
  · rintro pre f₁ mid f₂ post hpre ⟨t₁, i₁, htr₁, hd₁⟩ hmid ⟨t₂, i₂, htr₂, hd₂⟩ hpost
    obtain ⟨hpre_ev, hpre_st⟩ := PinchDetector.run_idle data s hidle pre hpre
    have h1 := PinchDetector.tick_tracked data (PinchDetector.run data s pre).1 f₁ t₁ i₁ htr₁
    simp only [hpre_st, hd₁, and_self, if_true] at h1
    have hs1 : (PinchDetector.tick data (PinchDetector.run data s pre).1 f₁).1.isPinching
        = true := by rw [h1]
    obtain ⟨hmid_ev, hmid_st⟩ := PinchDetector.run_pinching data _ hs1 mid hmid
    have h2 := PinchDetector.tick_tracked data
      (PinchDetector.run data (PinchDetector.tick data (PinchDetector.run data s pre).1 f₁).1
        mid).1 f₂ t₂ i₂ htr₂
    simp only [hmid_st, hd₂, and_self, if_true, Bool.true_eq_false, false_and, if_false] at h2
    have hs2 : (PinchDetector.tick data
      (PinchDetector.run data (PinchDetector.tick data (PinchDetector.run data s pre).1 f₁).1
        mid).1 f₂).1.isPinching = false := by rw [h2]
    obtain ⟨hpost_ev, _⟩ := PinchDetector.run_idle data _ hs2 post hpost
    refine ⟨Vector3.midpoint t₁ i₁, Vector3.midpoint t₂ i₂, ?_⟩
    have hsplit : pre ++ f₁ :: mid ++ f₂ :: post = pre ++ (f₁ :: (mid ++ f₂ :: post)) := by
      simp
    rw [hsplit, PinchDetector.run_append]
    simp only [PinchDetector.run]
    rw [PinchDetector.run_append]
    simp only [PinchDetector.run]
    rw [hpre_ev, hpost_ev]
    simp only [List.nil_append, List.append_nil, startEnd_append, hmid_ev]
    rw [h2, h1]
    rfl

/-- C7, with the default thresholds 0.04 and 0.06, on the distances 0.1,
0.03, 0.05, 0.07, 0.05: one pinch-start, then one pinch-end. -/
theorem pinch_hysteresis_witness :
    alternates true (PinchDetector.run defaultData PinchDetector.init
        [frameAt (1 / 10), frameAt (3 / 100), frameAt (5 / 100), frameAt (7 / 100),
          frameAt (5 / 100)]).2 = true ∧
      ∃ p q, startEnd (PinchDetector.run defaultData PinchDetector.init
        ([frameAt (1 / 10)] ++ frameAt (3 / 100) :: [frameAt (5 / 100)] ++
          frameAt (7 / 100) :: [frameAt (5 / 100)])).2 =
        [PinchEvent.pinchstarted Hand.right p, PinchEvent.pinchended Hand.right q] := by
  have h := pinch_hysteresis defaultData PinchDetector.init rfl
    (by norm_num [defaultData])
  refine ⟨h.1 _, h.2.2 [frameAt (1 / 10)] (frameAt (3 / 100)) [frameAt (5 / 100)]
    (frameAt (7 / 100)) [frameAt (5 / 100)] ?_ ?_ ?_ ?_ ?_⟩
  · intro f hf
    rw [List.mem_singleton] at hf
    subst hf
    exact ⟨_, _, tracked_frameAt _, by
      norm_num [Vector3.distanceLt, Vector3.distanceToSquared, defaultData]⟩
  · exact ⟨_, _, tracked_frameAt _, by
      norm_num [Vector3.distanceLt, Vector3.distanceToSquared, defaultData]⟩
  · intro f hf
    rw [List.mem_singleton] at hf
    subst hf
    exact ⟨_, _, tracked_frameAt _, by
      norm_num [Vector3.distanceGt, Vector3.distanceToSquared, defaultData]⟩
  · exact ⟨_, _, tracked_frameAt _, by
      norm_num [Vector3.distanceGt, Vector3.distanceToSquared, defaultData]⟩
  · intro f hf
    rw [List.mem_singleton] at hf
    subst hf
    exact ⟨_, _, tracked_frameAt _, by
      norm_num [Vector3.distanceLt, Vector3.distanceToSquared, defaultData]⟩

/-- C8: in a frame with a visible hand and both fingertips, an idle detector
whose thumb-index distance is below `pinchThreshold` becomes pinching and
emits exactly one event, a pinch-start at the midpoint of the two tips; with
a distance of at least `pinchThreshold` it emits nothing and stays idle. -/
theorem tick_idle (data : PinchData) (s : PinchDetector) (f : HandFrame)
    (thumb index : Vector3) (htr : Tracked f thumb index) (hidle : s.isPinching = false) :
    (Vector3.distanceLt thumb index data.pinchThreshold →
      (PinchDetector.tick data s f).1.isPinching = true ∧
      (PinchDetector.tick data s f).2 =
        [PinchEvent.pinchstarted data.hand (Vector3.midpoint thumb index)]) ∧
    (¬ Vector3.distanceLt thumb index data.pinchThreshold →
      (PinchDetector.tick data s f).2 = [] ∧
      (PinchDetector.tick data s f).1.isPinching = false) := by
  rw [PinchDetector.tick_tracked data s f thumb index htr]
  constructor
  · intro hd
    simp [hidle, hd]
  · intro hd
    simp [hidle, hd]

/-- C8, with the default thresholds: from the initial state a frame at
distance 0.03 starts a pinch at the midpoint `(0.015, 0, 0)`, and a frame at
distance 0.05 emits nothing. -/
theorem tick_idle_witness :
    ((PinchDetector.tick defaultData PinchDetector.init (frameAt (3 / 100))).1.isPinching = true ∧
      (PinchDetector.tick defaultData PinchDetector.init (frameAt (3 / 100))).2 =
        [PinchEvent.pinchstarted Hand.right ⟨3 / 200, 0, 0⟩]) ∧
    ((PinchDetector.tick defaultData PinchDetector.init (frameAt (5 / 100))).2 = [] ∧
      (PinchDetector.tick defaultData PinchDetector.init (frameAt (5 / 100))).1.isPinching
        = false) := by
  have hmid : Vector3.midpoint ⟨0, 0, 0⟩ ⟨3 / 100, 0, 0⟩ = ⟨3 / 200, 0, 0⟩ := by
    norm_num [Vector3.midpoint]
  have h1 := (tick_idle defaultData PinchDetector.init (frameAt (3 / 100)) _ _
    (tracked_frameAt _) rfl).1
    (by norm_num [Vector3.distanceLt, Vector3.distanceToSquared, defaultData])
  have h2 := (tick_idle defaultData PinchDetector.init (frameAt (5 / 100)) _ _
    (tracked_frameAt _) rfl).2
    (by norm_num [Vector3.distanceLt, Vector3.distanceToSquared, defaultData])
  rw [hmid] at h1
  exact ⟨h1, h2⟩

/-- C9: in a frame with a visible hand and both fingertips, a pinching
detector whose thumb-index distance is above `releaseThreshold` becomes idle
and emits exactly one event, a pinch-end; the position it carries is the
detector's stored pinch position, the last one known: the midpoint of the
tips in this frame.  No pinch-move is emitted. -/
theorem tick_release (data : PinchData) (s : PinchDetector) (f : HandFrame)
    (thumb index : Vector3) (htr : Tracked f thumb index) (hpinch : s.isPinching = true)
    (hd : Vector3.distanceGt thumb index data.releaseThreshold) :
    (PinchDetector.tick data s f).1.isPinching = false ∧
    (PinchDetector.tick data s f).2 =
      [PinchEvent.pinchended data.hand (PinchDetector.tick data s f).1.pinchPosition] ∧
    (PinchDetector.tick data s f).1.pinchPosition = Vector3.midpoint thumb index ∧
    (∀ h p, PinchEvent.pinchmoved h p ∉ (PinchDetector.tick data s f).2) := by
  rw [PinchDetector.tick_tracked data s f thumb index htr]
  simp [hpinch, hd]

/-- C9, with the default thresholds: a pinching detector shown a frame at
distance 0.07 ends the pinch at `(0.035, 0, 0)`. -/
theorem tick_release_witness :
    (PinchDetector.tick defaultData pinchingDetector (frameAt (7 / 100))).1.isPinching = false ∧
    (PinchDetector.tick defaultData pinchingDetector (frameAt (7 / 100))).2 =
      [PinchEvent.pinchended Hand.right ⟨7 / 200, 0, 0⟩] := by
  have hmid : Vector3.midpoint ⟨0, 0, 0⟩ ⟨7 / 100, 0, 0⟩ = ⟨7 / 200, 0, 0⟩ := by
    norm_num [Vector3.midpoint]
  have h := tick_release defaultData pinchingDetector (frameAt (7 / 100)) _ _
    (tracked_frameAt _) rfl
    (by norm_num [Vector3.distanceGt, Vector3.distanceToSquared, defaultData])
  obtain ⟨h1, h2, h3, _⟩ := h
  rw [h3, hmid] at h2
  exact ⟨h1, h2⟩

/-- C10: in a frame in which the hand is not visible, a detector that is
pinching (in any state the ticks reach from `init`) sets `isPinching` to
false and emits exactly one event, a pinch-end with the stored pinch
position, and changes no other field: the fingertips are not read.  An idle
detector emits nothing and stays idle, no field but the cached reference to
the hand-tracking component changing. -/
theorem tick_hidden (data : PinchData) (s : PinchDetector) (f : HandFrame)
    (hs : Reachable data s) (hv : f.visible = false) :
    (s.isPinching = true →
      PinchDetector.tick data s f =
        ({ s with isPinching := false },
          [PinchEvent.pinchended data.hand s.pinchPosition])) ∧
    (s.isPinching = false →
      (PinchDetector.tick data s f).2 = [] ∧
      (PinchDetector.tick data s f).1.isPinching = false ∧
      (PinchDetector.tick data s f).1 =
        { s with handTracking := (PinchDetector.tick data s f).1.handTracking }) := by
  obtain ⟨frames, rfl⟩ := hs
  have hinv := PinchDetector.run_handTracking data frames
  generalize (PinchDetector.run data PinchDetector.init frames).1 = s at hinv ⊢
  obtain ⟨pinching, position, thumb, index, cached⟩ := s
  simp only at hinv ⊢
  unfold PinchDetector.tick
  constructor
  · intro hp
    have hht := hinv hp
    subst hp hht
    simp [hv, Vector3.clone_eq]
  · intro hp
    subst hp
    by_cases h1 : cached = false ∧ f.hasControls = false
    · simp [h1]
    · simp [h1, hv]

/-- C10, at a detector pinching at `(0.015, 0, 0)` and at the initial
detector: the first emits one pinch-end at `(0.015, 0, 0)`, the second
nothing. -/
theorem tick_hidden_witness :
    PinchDetector.tick defaultData pinchingDetector hiddenFrame =
      ({ pinchingDetector with isPinching := false },
        [PinchEvent.pinchended Hand.right ⟨3 / 200, 0, 0⟩]) ∧
    (PinchDetector.tick defaultData PinchDetector.init hiddenFrame).2 = [] ∧
    (PinchDetector.tick defaultData PinchDetector.init hiddenFrame).1.isPinching = false :=
  ⟨(tick_hidden defaultData pinchingDetector hiddenFrame pinchingDetector_reachable rfl).1 rfl,
    ((tick_hidden defaultData PinchDetector.init hiddenFrame ⟨[], rfl⟩ rfl).2 rfl).1,
    ((tick_hidden defaultData PinchDetector.init hiddenFrame ⟨[], rfl⟩ rfl).2 rfl).2.1⟩

/-- C11: in a frame with a visible hand and both fingertips, a pinch-move is
emitted exactly when the detector was pinching at the start of the frame and
the thumb-index distance is at most `releaseThreshold`; it is then the only
event (so no pinch-start and no pinch-end), it carries the midpoint of the
tips of this frame, and `isPinching` stays true. -/
theorem tick_move (data : PinchData) (s : PinchDetector) (f : HandFrame)
    (thumb index : Vector3) (htr : Tracked f thumb index) :
    ((∃ h p, PinchEvent.pinchmoved h p ∈ (PinchDetector.tick data s f).2) ↔
      (s.isPinching = true ∧ ¬ Vector3.distanceGt thumb index data.releaseThreshold)) ∧
    (s.isPinching = true → ¬ Vector3.distanceGt thumb index data.releaseThreshold →
      (PinchDetector.tick data s f).2 =
        [PinchEvent.pinchmoved data.hand (Vector3.midpoint thumb index)] ∧
      (PinchDetector.tick data s f).1.isPinching = true ∧
      (PinchDetector.tick data s f).1.pinchPosition = Vector3.midpoint thumb index) := by
  rw [PinchDetector.tick_tracked data s f thumb index htr]
  cases hs : s.isPinching with
  | false =>
    by_cases hd : Vector3.distanceLt thumb index data.pinchThreshold <;> simp [hd]
  | true =>
    by_cases hd : Vector3.distanceGt thumb index data.releaseThreshold <;> simp [hd]

/-- C11, with the default thresholds: a pinching detector shown a frame at
distance 0.05 emits one pinch-move at `(0.025, 0, 0)` and keeps pinching. -/
theorem tick_move_witness :
    (PinchDetector.tick defaultData pinchingDetector (frameAt (5 / 100))).2 =
        [PinchEvent.pinchmoved Hand.right ⟨5 / 200, 0, 0⟩] ∧
      (PinchDetector.tick defaultData pinchingDetector (frameAt (5 / 100))).1.isPinching
        = true := by
  have hmid : Vector3.midpoint ⟨0, 0, 0⟩ ⟨5 / 100, 0, 0⟩ = ⟨5 / 200, 0, 0⟩ := by
    norm_num [Vector3.midpoint]
  have h := (tick_move defaultData pinchingDetector (frameAt (5 / 100)) _ _
    (tracked_frameAt _)).2 rfl
    (by norm_num [Vector3.distanceGt, Vector3.distanceToSquared, defaultData])
  rw [hmid] at h
  exact ⟨h.1, h.2.1⟩

/-- C12, as stated, fails: shown a frame in which the hand is visible but has
no joints, or in which the thumb tip is not found, a pinching detector emits
nothing and keeps pinching. -/
theorem tick_jointless_keeps_pinch :
    PinchDetector.tick defaultData pinchingDetector jointlessFrame = (pinchingDetector, []) ∧
      PinchDetector.tick defaultData pinchingDetector thumblessFrame = (pinchingDetector, []) ∧
      (PinchDetector.tick defaultData pinchingDetector jointlessFrame).1.isPinching = true ∧
      (∀ h p, PinchEvent.pinchended h p ∉
        (PinchDetector.tick defaultData pinchingDetector jointlessFrame).2) := by
  have h1 : PinchDetector.tick defaultData pinchingDetector jointlessFrame
      = (pinchingDetector, []) := by
    simp [PinchDetector.tick, pinchingDetector, jointlessFrame]
  have h2 : PinchDetector.tick defaultData pinchingDetector thumblessFrame
      = (pinchingDetector, []) := by
    simp [PinchDetector.tick, pinchingDetector, thumblessFrame]
  refine ⟨h1, h2, ?_, ?_⟩
  · rw [h1]; rfl
  · rw [h1]; simp

/-- C12, amended: in a frame in which the hand is visible but has no joints,
or in which the thumb tip or the index-finger tip is not found, `tick` emits
no event and keeps `isPinching` as it was, so a pinch in flight is not ended
in that frame; no field changes but the cached reference to the hand-tracking
component. -/
theorem tick_missing_pose (data : PinchData) (s : PinchDetector) (f : HandFrame)
    (hv : f.visible = true)
    (hmiss : f.children = 0 ∨ f.thumbTip = none ∨ f.indexTip = none) :
    (PinchDetector.tick data s f).2 = [] ∧
      (PinchDetector.tick data s f).1.isPinching = s.isPinching ∧
      (PinchDetector.tick data s f).1 =
        { s with handTracking := (PinchDetector.tick data s f).1.handTracking } := by
  obtain ⟨pinching, position, thumb, index, cached⟩ := s
  unfold PinchDetector.tick
  by_cases h1 : cached = false ∧ f.hasControls = false
  · simp [h1]
  · by_cases h3 : f.children = 0
    · simp [h1, hv, h3]
    · rcases hmiss with h | h | h
      · exact absurd h h3
      · simp [h1, hv, h3, h]
      · cases ht : f.thumbTip <;> simp [h1, hv, h3, h]

/-- C12, amended, at a pinching detector and a frame without joints. -/
theorem tick_missing_pose_witness :
    (PinchDetector.tick defaultData pinchingDetector jointlessFrame).2 = [] ∧
      (PinchDetector.tick defaultData pinchingDetector jointlessFrame).1.isPinching = true :=
  ⟨(tick_missing_pose defaultData pinchingDetector jointlessFrame rfl (Or.inl rfl)).1,
    (tick_missing_pose defaultData pinchingDetector jointlessFrame rfl (Or.inl rfl)).2.1⟩
/-! ## The stroke recorder: lemmas -/

theorem InBand.not_jump {p q : Vector3} (h : InBand p q) :
    ¬ Vector3.distanceGt p q (1 / 10) := by
  obtain ⟨_, _, hlt⟩ := h
  rintro (hneg | hgt)
  · norm_num at hneg
  · exact absurd hgt (not_lt.mpr hlt.le)

theorem not_inBand_of_jump {p q : Vector3} (h : Vector3.distanceGt p q (1 / 10)) :
    ¬ InBand p q := fun hb => hb.not_jump h

theorem not_jump_of_slow {p q : Vector3} (h : ¬ Vector3.distanceGt p q (1 / 1000)) :
    ¬ Vector3.distanceGt p q (1 / 10) := by
  unfold Vector3.distanceGt at h ⊢
  push_neg at h ⊢
  obtain ⟨_, h2⟩ := h
  constructor
  · norm_num
  · have : (1 / 1000 : ℚ) * (1 / 1000) ≤ 1 / 10 * (1 / 10) := by norm_num
    linarith

/-- With drawing enabled and a position in the band of the previous update,
the point is recorded (after a stroke has been started if there was none). -/
theorem DrawState.handleDrawing_record (hand : Hand) (s : DrawState) (p : Vector3)
    (hd : s.isDrawing = true) (hb : InBand p s.previousPosition) :
    DrawState.handleDrawing hand s p =
      ({ DrawState.addPointToStroke
            (if s.currentStroke.isNone then DrawState.startStroke s else s) p with
          previousPosition := p }, []) := by
  unfold DrawState.handleDrawing
  have hb' : Vector3.distanceGt p s.previousPosition (1 / 1000) ∧
      Vector3.distanceLt p s.previousPosition (1 / 10) := hb
  rw [if_neg (by rw [hd]; decide)]
  dsimp only
  rw [if_pos hb']

/-- With drawing enabled and a position more than 0.1 away from the previous
update, the stroke is ended and a new, empty one is started. -/
theorem DrawState.handleDrawing_jump (hand : Hand) (s : DrawState) (p : Vector3)
    (hd : s.isDrawing = true) (hj : Vector3.distanceGt p s.previousPosition (1 / 10)) :
    DrawState.handleDrawing hand s p =
      ({ DrawState.startStroke (DrawState.endStroke hand
            (if s.currentStroke.isNone then DrawState.startStroke s else s)).1 with
          previousPosition := p },
        (DrawState.endStroke hand
            (if s.currentStroke.isNone then DrawState.startStroke s else s)).2) := by
  unfold DrawState.handleDrawing
  have hb : ¬ (Vector3.distanceGt p s.previousPosition (1 / 1000) ∧
      Vector3.distanceLt p s.previousPosition (1 / 10)) := not_inBand_of_jump hj
  rw [if_neg (by rw [hd]; decide)]
  dsimp only
  rw [if_neg hb, if_pos hj]

/-- With drawing enabled and a position neither in the band of the previous
update nor more than 0.1 away from it, nothing is recorded. -/
theorem DrawState.handleDrawing_ignore (hand : Hand) (s : DrawState) (p : Vector3)
    (hd : s.isDrawing = true) (hb : ¬ InBand p s.previousPosition)
    (hj : ¬ Vector3.distanceGt p s.previousPosition (1 / 10)) :
    DrawState.handleDrawing hand s p =
      ({ (if s.currentStroke.isNone then DrawState.startStroke s else s) with
          previousPosition := p }, []) := by
  unfold DrawState.handleDrawing
  have hb' : ¬ (Vector3.distanceGt p s.previousPosition (1 / 1000) ∧
      Vector3.distanceLt p s.previousPosition (1 / 10)) := hb
  rw [if_neg (by rw [hd]; decide)]
  dsimp only
  rw [if_neg hb', if_neg hj]

theorem DrawState.addPointToStroke_strokePoints (s : DrawState) (p : Vector3) :
    (DrawState.addPointToStroke s p).strokePoints = s.strokePoints ++ [p] := by
  unfold DrawState.addPointToStroke
  simp only [Vector3.clone_eq]
  split_ifs
  · split <;> rfl
  · rfl

theorem DrawState.addPointToStroke_fields (s : DrawState) (p : Vector3) :
    (DrawState.addPointToStroke s p).isDrawing = s.isDrawing ∧
    (DrawState.addPointToStroke s p).currentStroke = s.currentStroke ∧
    (DrawState.addPointToStroke s p).previousPosition = s.previousPosition ∧
    (DrawState.addPointToStroke s p).container = s.container ∧
    (DrawState.addPointToStroke s p).nextEntity = s.nextEntity := by
  unfold DrawState.addPointToStroke
  simp only []
  split_ifs
  · split <;> exact ⟨rfl, rfl, rfl, rfl, rfl⟩
  · exact ⟨rfl, rfl, rfl, rfl, rfl⟩
theorem StrokeChain.append_singleton {l : List Vector3} {p : Vector3} (h : StrokeChain l)
    (hp : ∀ q, l.getLast? = some q → InBand p q) : StrokeChain (l ++ [p]) := by
  induction l with
  | nil => trivial
  | cons a rest ih =>
    cases rest with
    | nil =>
      exact ⟨hp a rfl, trivial⟩
    | cons b rest' =>
      obtain ⟨hab, hrest⟩ := h
      refine ⟨hab, ih hrest ?_⟩
      intro q hq
      apply hp q
      simpa [List.getLast?_cons_cons] using hq

theorem DrawState.endStroke_fields (hand : Hand) (s : DrawState) :
    (DrawState.endStroke hand s).1.isDrawing = s.isDrawing ∧
    (DrawState.endStroke hand s).1.currentStroke = none ∧
    (DrawState.endStroke hand s).1.strokePoints = [] ∧
    (DrawState.endStroke hand s).1.detectedIntersection = none ∧
    (DrawState.endStroke hand s).1.previousPosition = s.previousPosition ∧
    (DrawState.endStroke hand s).1.nextEntity = s.nextEntity :=
  ⟨rfl, rfl, rfl, rfl, rfl, rfl⟩

theorem DrawState.handleDrawingAll_append (hand : Hand) (s : DrawState)
    (l₁ l₂ : List Vector3) :
    DrawState.handleDrawingAll hand s (l₁ ++ l₂) =
      ((DrawState.handleDrawingAll hand (DrawState.handleDrawingAll hand s l₁).1 l₂).1,
        (DrawState.handleDrawingAll hand s l₁).2 ++
          (DrawState.handleDrawingAll hand (DrawState.handleDrawingAll hand s l₁).1 l₂).2) := by
  induction l₁ generalizing s with
  | nil => simp [DrawState.handleDrawingAll]
  | cons p ps ih => simp [DrawState.handleDrawingAll, ih, List.append_assoc]

/-- The state the recorder keeps between updates when no update is ignored:
drawing is enabled, the stroke is a chain, and its last point, if any, is the
previous position update. -/
theorem DrawState.handleDrawing_chain (hand : Hand) (s : DrawState) (p : Vector3)
    (hd : s.isDrawing = true) (hchain : StrokeChain s.strokePoints)
    (hlast : ∀ q, s.strokePoints.getLast? = some q → q = s.previousPosition)
    (hp : InBand p s.previousPosition ∨ Vector3.distanceGt p s.previousPosition (1 / 10)) :
    (DrawState.handleDrawing hand s p).1.isDrawing = true ∧
      StrokeChain (DrawState.handleDrawing hand s p).1.strokePoints ∧
      (∀ q, (DrawState.handleDrawing hand s p).1.strokePoints.getLast? = some q →
        q = (DrawState.handleDrawing hand s p).1.previousPosition) ∧
      (DrawState.handleDrawing hand s p).1.previousPosition = p := by
  rcases hp with hb | hj
  · rw [DrawState.handleDrawing_record hand s p hd hb]
    simp only [DrawState.addPointToStroke_strokePoints,
      (DrawState.addPointToStroke_fields _ p).1]
    refine ⟨?_, ?_, ?_, trivial⟩
    · cases s.currentStroke <;> simpa [DrawState.startStroke] using hd
    · cases hcur : s.currentStroke with
      | none => simp [DrawState.startStroke, StrokeChain]
      | some e =>
        simp only [Option.isNone_some, Bool.false_eq_true, if_false]
        apply hchain.append_singleton
        intro q hq
        rw [hlast q hq]
        exact hb
    · intro q hq
      simpa using hq.symm
  · rw [DrawState.handleDrawing_jump hand s p hd hj]
    refine ⟨?_, trivial, ?_, rfl⟩
    · cases s.currentStroke <;> simpa [DrawState.startStroke, DrawState.endStroke] using hd
    · intro q hq
      simp [DrawState.startStroke] at hq

theorem NoneIgnored.take {previous : Vector3} {positions : List Vector3}
    (h : NoneIgnored previous positions) (k : ℕ) : NoneIgnored previous (positions.take k) := by
  induction positions generalizing previous k with
  | nil => simpa using h
  | cons p ps ih =>
    cases k with
    | zero => trivial
    | succ k => exact ⟨h.1, ih h.2 k⟩

theorem DrawState.handleDrawingAll_chain (hand : Hand) (s : DrawState)
    (positions : List Vector3)
    (hd : s.isDrawing = true) (hchain : StrokeChain s.strokePoints)
    (hlast : ∀ q, s.strokePoints.getLast? = some q → q = s.previousPosition)
    (hno : NoneIgnored s.previousPosition positions) :
    StrokeChain (DrawState.handleDrawingAll hand s positions).1.strokePoints := by
  induction positions generalizing s with
  | nil => exact hchain
  | cons p ps ih =>
    obtain ⟨h1, h2, h3, h4⟩ := DrawState.handleDrawing_chain hand s p hd hchain hlast hno.1
    simp only [DrawState.handleDrawingAll]
    exact ih _ h1 h2 h3 (by rw [h4]; exact hno.2)
theorem slowFrom_lineFrom (x : ℚ) (n : ℕ) : SlowFrom ⟨x, 0, 0⟩ (lineFrom x (1 / 1000) n) := by
  induction n generalizing x with
  | zero => trivial
  | succ n ih =>
    refine ⟨?_, ih _⟩
    unfold Vector3.distanceGt Vector3.distanceToSquared
    norm_num

theorem chainFrom_lineFrom (x step : ℚ) (n : ℕ) (h1 : 1 / 1000 < step) (h2 : step < 1 / 10) :
    ChainFrom ⟨x, 0, 0⟩ (lineFrom x step n) := by
  induction n generalizing x with
  | zero => trivial
  | succ n ih =>
    refine ⟨⟨?_, ?_, ?_⟩, ih _⟩
    · right
      simp only [Vector3.distanceToSquared]
      nlinarith
    · norm_num
    · simp only [Vector3.distanceToSquared]
      nlinarith

theorem lineFrom_getLast? (x step : ℚ) (n : ℕ) :
    (lineFrom x step (n + 1)).getLast? = some ⟨x + (n + 1) * step, 0, 0⟩ := by
  induction n generalizing x with
  | zero => simp [lineFrom]
  | succ n ih =>
    have hstep : lineFrom (x + step) step (n + 1) =
        ⟨x + step + step, 0, 0⟩ :: lineFrom (x + step + step) step n := rfl
    rw [lineFrom, hstep, List.getLast?_cons_cons, ← hstep, ih (x + step)]
    congr 2
    push_cast
    ring

theorem lineFrom_flat (x step : ℚ) (n : ℕ) : ∀ p ∈ lineFrom x step n, p.z = 0 := by
  induction n generalizing x with
  | zero => intro p hp; cases hp
  | succ n ih =>
    intro p hp
    rcases List.mem_cons.mp hp with h | h
    · rw [h]
    · exact ih _ p h

theorem lineFrom_length (x step : ℚ) (n : ℕ) : (lineFrom x step n).length = n := by
  induction n generalizing x with
  | zero => rfl
  | succ n ih => simp [lineFrom, ih]

theorem getLast?_getD_cons (a : Vector3) (rest : List Vector3) (x y : Vector3) :
    (a :: rest).getLast?.getD x = (a :: rest).getLast?.getD y := by
  rw [List.getLast?_eq_getLast _ (List.cons_ne_nil _ _)]
  rfl

theorem DrawState.addPointToStroke_previous (s : DrawState) (p q : Vector3) :
    DrawState.addPointToStroke { s with previousPosition := q } p =
      { DrawState.addPointToStroke s p with previousPosition := q } := by
  unfold DrawState.addPointToStroke
  simp only []
  split_ifs
  · split <;> rfl
  · rfl

theorem DrawState.foldl_addPointToStroke_previous (s : DrawState) (ps : List Vector3)
    (q : Vector3) :
    List.foldl DrawState.addPointToStroke { s with previousPosition := q } ps =
      { List.foldl DrawState.addPointToStroke s ps with previousPosition := q } := by
  induction ps generalizing s with
  | nil => rfl
  | cons p ps ih =>
    simp only [List.foldl_cons]
    rw [DrawState.addPointToStroke_previous, ih]

theorem DrawState.foldl_addPointToStroke_fields (s : DrawState) (ps : List Vector3) :
    (List.foldl DrawState.addPointToStroke s ps).isDrawing = s.isDrawing ∧
    (List.foldl DrawState.addPointToStroke s ps).currentStroke = s.currentStroke ∧
    (List.foldl DrawState.addPointToStroke s ps).previousPosition = s.previousPosition ∧
    (List.foldl DrawState.addPointToStroke s ps).container = s.container ∧
    (List.foldl DrawState.addPointToStroke s ps).nextEntity = s.nextEntity ∧
    (List.foldl DrawState.addPointToStroke s ps).strokePoints = s.strokePoints ++ ps := by
  induction ps generalizing s with
  | nil => simp
  | cons p ps ih =>
    obtain ⟨h1, h2, h3, h4, h5⟩ := DrawState.addPointToStroke_fields s p
    obtain ⟨g1, g2, g3, g4, g5, g6⟩ := ih (DrawState.addPointToStroke s p)
    simp only [List.foldl_cons]
    refine ⟨g1.trans h1, g2.trans h2, g3.trans h3, g4.trans h4, g5.trans h5, ?_⟩
    rw [g6, DrawState.addPointToStroke_strokePoints]
    simp

/-- With drawing enabled and a stroke in progress, positions each in the
band of the one before are all recorded, one `addPointToStroke` each. -/
theorem DrawState.handleDrawingAll_recorded (hand : Hand) (s : DrawState)
    (ps : List Vector3) (hd : s.isDrawing = true) (hcur : s.currentStroke.isNone = false)
    (hc : ChainFrom s.previousPosition ps) :
    DrawState.handleDrawingAll hand s ps =
      ({ List.foldl DrawState.addPointToStroke s ps with
          previousPosition := ps.getLast?.getD s.previousPosition }, []) := by
  induction ps generalizing s with
  | nil => rfl
  | cons p ps ih =>
    obtain ⟨hb, hrest⟩ := hc
    simp only [DrawState.handleDrawingAll]
    rw [DrawState.handleDrawing_record hand s p hd hb]
    simp only [hcur, Bool.false_eq_true, if_false]
    have hf := DrawState.addPointToStroke_fields s p
    rw [ih _ (by simpa using hf.1.trans hd) (by simp [hf.2.1, hcur]) hrest]
    simp only [List.nil_append, List.foldl_cons, Prod.mk.injEq, and_true]
    rw [DrawState.foldl_addPointToStroke_previous]
    cases ps with
    | nil => rfl
    | cons a rest =>
      simp only [List.getLast?_cons_cons]
      rw [getLast?_getD_cons a rest p s.previousPosition]

/-- With drawing enabled and a stroke in progress, positions each at most
0.001 from the one before are all ignored: only `previousPosition` moves. -/
theorem DrawState.handleDrawingAll_slow (hand : Hand) (s : DrawState)
    (ps : List Vector3) (hd : s.isDrawing = true) (hcur : s.currentStroke.isNone = false)
    (hs : SlowFrom s.previousPosition ps) :
    DrawState.handleDrawingAll hand s ps =
      ({ s with previousPosition := ps.getLast?.getD s.previousPosition }, []) := by
  induction ps generalizing s with
  | nil => rfl
  | cons p ps ih =>
    obtain ⟨hslow, hrest⟩ := hs
    simp only [DrawState.handleDrawingAll]
    rw [DrawState.handleDrawing_ignore hand s p hd (fun hb => hslow hb.1)
      (not_jump_of_slow hslow)]
    simp only [hcur, Bool.false_eq_true, if_false]
    rw [ih { s with previousPosition := p } hd hcur hrest]
    cases ps with
    | nil => rfl
    | cons a rest =>
      simp only [List.getLast?_cons_cons]
      rw [getLast?_getD_cons a rest p s.previousPosition]
      rfl
theorem DrawState.handleDrawing_first (hand : Hand) :
    DrawState.handleDrawing hand drawingEnabled ⟨1 / 100, 0, 0⟩ = (oneStroke, []) := by
  rw [DrawState.handleDrawing_record hand drawingEnabled _ rfl
    (by norm_num [InBand, Vector3.distanceGt, Vector3.distanceLt, Vector3.distanceToSquared,
      drawingEnabled, DrawState.init])]
  rfl

theorem DrawState.handleDrawingAll_cons (hand : Hand) (s : DrawState) (p : Vector3)
    (ps : List Vector3) :
    DrawState.handleDrawingAll hand s (p :: ps) =
      ((DrawState.handleDrawingAll hand (DrawState.handleDrawing hand s p).1 ps).1,
        (DrawState.handleDrawing hand s p).2 ++
          (DrawState.handleDrawingAll hand (DrawState.handleDrawing hand s p).1 ps).2) := rfl

/-! ## The stroke recorder: properties -/

/-- C13, as stated, fails: a new point is compared with the previous position
update, not with the last recorded point.  After a first point, a nudge of
0.0005 that is ignored and a move of 0.0012 back, the stroke holds two
consecutive points 0.0007 apart; after a first point, a hundred ignored
updates of 0.001 each and an update of 0.002, it holds two consecutive points
0.102 apart. -/
theorem stroke_points_out_of_band :
    (DrawState.handleDrawingAll Hand.left drawingEnabled nudgeUpdates).1.strokePoints =
        [⟨1 / 100, 0, 0⟩, ⟨93 / 10000, 0, 0⟩] ∧
      ¬ Vector3.distanceGt ⟨93 / 10000, 0, 0⟩ ⟨1 / 100, 0, 0⟩ (1 / 1000) ∧
      (DrawState.handleDrawingAll Hand.left drawingEnabled driftUpdates).1.strokePoints =
        [⟨1 / 100, 0, 0⟩, ⟨112 / 1000, 0, 0⟩] ∧
      ¬ Vector3.distanceLt ⟨112 / 1000, 0, 0⟩ ⟨1 / 100, 0, 0⟩ (1 / 10) := by
  refine ⟨?_, ?_, ?_, ?_⟩
  · simp only [nudgeUpdates, DrawState.handleDrawingAll, DrawState.handleDrawing_first]
    rw [DrawState.handleDrawing_ignore Hand.left oneStroke _ rfl
      (by norm_num [InBand, Vector3.distanceGt, Vector3.distanceLt,
        Vector3.distanceToSquared, oneStroke])
      (by norm_num [Vector3.distanceGt, Vector3.distanceToSquared, oneStroke])]
    rw [DrawState.handleDrawing_record Hand.left _ _ rfl
      (by norm_num [InBand, Vector3.distanceGt, Vector3.distanceLt,
        Vector3.distanceToSquared, oneStroke])]
    rfl
  · norm_num [Vector3.distanceGt, Vector3.distanceToSquared]
  · rw [driftUpdates, DrawState.handleDrawingAll_cons, DrawState.handleDrawing_first,
      DrawState.handleDrawingAll_append,
      DrawState.handleDrawingAll_slow Hand.left oneStroke _ rfl rfl (slowFrom_lineFrom _ 100),
      lineFrom_getLast?, DrawState.handleDrawingAll_cons]
    simp only [DrawState.handleDrawingAll, Option.getD_some]
    rw [DrawState.handleDrawing_record Hand.left _ _ rfl
      (by norm_num [InBand, Vector3.distanceGt, Vector3.distanceLt,
        Vector3.distanceToSquared, oneStroke])]
    rfl
  · norm_num [Vector3.distanceLt, Vector3.distanceToSquared]

/-- C13, amended: each new point is accepted by comparing it with the
previous position update, which every update replaces, recorded or not: a
position is appended to the stroke exactly when it is more than 0.001 and
less than 0.1 from the previous update.  So for every sequence of updates
with drawing enabled in which no update is ignored, at every moment every two
consecutive points of the recorded stroke are more than 0.001 and less than
0.1 apart. -/
theorem stroke_chain (hand : Hand) (s : DrawState) (positions : List Vector3)
    (hd : s.isDrawing = true) (hchain : StrokeChain s.strokePoints)
    (hlast : ∀ q, s.strokePoints.getLast? = some q → q = s.previousPosition)
    (hno : NoneIgnored s.previousPosition positions) :
    (∀ k, StrokeChain
      (DrawState.handleDrawingAll hand s (positions.take k)).1.strokePoints) ∧
    (∀ (t : DrawState) (p : Vector3), t.isDrawing = true →
      (DrawState.handleDrawing hand t p).1.previousPosition = p ∧
      (InBand p t.previousPosition →
        (DrawState.handleDrawing hand t p).1.strokePoints =
          (if t.currentStroke.isNone then [] else t.strokePoints) ++ [p]) ∧
      (¬ InBand p t.previousPosition →
        (DrawState.handleDrawing hand t p).1.strokePoints =
            (if t.currentStroke.isNone then [] else t.strokePoints) ∨
          (DrawState.handleDrawing hand t p).1.strokePoints = [])) := by
  constructor
  · intro k
    exact DrawState.handleDrawingAll_chain hand s _ hd hchain hlast (hno.take k)
  · intro t p ht
    refine ⟨?_, ?_, ?_⟩
    · by_cases hb : InBand p t.previousPosition
      · rw [DrawState.handleDrawing_record hand t p ht hb]
      · by_cases hj : Vector3.distanceGt p t.previousPosition (1 / 10)
        · rw [DrawState.handleDrawing_jump hand t p ht hj]
        · rw [DrawState.handleDrawing_ignore hand t p ht hb hj]
    · intro hb
      rw [DrawState.handleDrawing_record hand t p ht hb]
      simp only [DrawState.addPointToStroke_strokePoints]
      cases t.currentStroke <;> simp [DrawState.startStroke]
    · intro hb
      by_cases hj : Vector3.distanceGt p t.previousPosition (1 / 10)
      · right
        rw [DrawState.handleDrawing_jump hand t p ht hj]
        rfl
      · left
        rw [DrawState.handleDrawing_ignore hand t p ht hb hj]
        cases t.currentStroke <;> simp [DrawState.startStroke]

/-- C13, amended, at three updates of 0.01 each from the enabled initial
state: the recorded stroke is a chain. -/
theorem stroke_chain_witness :
    StrokeChain (DrawState.handleDrawingAll Hand.left drawingEnabled
      ([⟨1 / 100, 0, 0⟩, ⟨2 / 100, 0, 0⟩, ⟨3 / 100, 0, 0⟩].take 3)).1.strokePoints :=
  (stroke_chain Hand.left drawingEnabled [⟨1 / 100, 0, 0⟩, ⟨2 / 100, 0, 0⟩, ⟨3 / 100, 0, 0⟩]
    rfl trivial (fun q hq => by simp [drawingEnabled, DrawState.init] at hq)
    (by norm_num [NoneIgnored, InBand, Vector3.distanceGt, Vector3.distanceLt,
      Vector3.distanceToSquared, drawingEnabled, DrawState.init])).1 3
/-- The state `threeStroke` is the one three updates lead to. -/
theorem threeStroke_reached (hand : Hand) :
    DrawState.handleDrawingAll hand drawingEnabled
      [⟨1 / 100, 0, 0⟩, ⟨2 / 100, 0, 0⟩, ⟨3 / 100, 0, 0⟩] = (threeStroke, []) := by
  rw [DrawState.handleDrawingAll_cons, DrawState.handleDrawing_first,
    DrawState.handleDrawingAll_recorded hand oneStroke _ rfl rfl
      (by norm_num [ChainFrom, InBand, Vector3.distanceGt, Vector3.distanceLt,
        Vector3.distanceToSquared, oneStroke])]
  rfl

/-- C14, as stated, fails: after a jump of 0.2 during a stroke of three
points the new stroke is empty, the jumped-to position is not its first
point, and the next update, 0.005 further, becomes the first recorded point;
and an update exactly 0.1 away neither ends the stroke nor records a
point. -/
theorem jump_not_recorded :
    (DrawState.handleDrawing Hand.left threeStroke ⟨23 / 100, 0, 0⟩).1.strokePoints = [] ∧
      (DrawState.handleDrawing Hand.left threeStroke ⟨23 / 100, 0, 0⟩).1.strokePoints.head?
        ≠ some ⟨23 / 100, 0, 0⟩ ∧
      (DrawState.handleDrawing Hand.left
        (DrawState.handleDrawing Hand.left threeStroke ⟨23 / 100, 0, 0⟩).1
        ⟨235 / 1000, 0, 0⟩).1.strokePoints = [⟨235 / 1000, 0, 0⟩] ∧
      DrawState.handleDrawing Hand.left threeStroke ⟨13 / 100, 0, 0⟩ =
        ({ threeStroke with previousPosition := ⟨13 / 100, 0, 0⟩ }, []) := by
  have hjump : DrawState.handleDrawing Hand.left threeStroke ⟨23 / 100, 0, 0⟩ =
      ({ DrawState.startStroke (DrawState.endStroke Hand.left threeStroke).1 with
          previousPosition := ⟨23 / 100, 0, 0⟩ },
        (DrawState.endStroke Hand.left threeStroke).2) :=
    DrawState.handleDrawing_jump Hand.left threeStroke _ rfl
      (by norm_num [Vector3.distanceGt, Vector3.distanceToSquared, threeStroke])
  refine ⟨?_, ?_, ?_, ?_⟩
  · rw [hjump]; rfl
  · rw [hjump]; simp [DrawState.startStroke]
  · rw [hjump, DrawState.handleDrawing_record Hand.left _ _ rfl
      (by norm_num [InBand, Vector3.distanceGt, Vector3.distanceLt,
        Vector3.distanceToSquared])]
    rfl
  · rw [DrawState.handleDrawing_ignore Hand.left threeStroke _ rfl
      (by norm_num [InBand, Vector3.distanceGt, Vector3.distanceLt,
        Vector3.distanceToSquared, threeStroke])
      (by norm_num [Vector3.distanceGt, Vector3.distanceToSquared, threeStroke])]
    rfl

/-- C14, amended: for every position update during an active stroke that is
more than 0.1 away from the previous position update, `handleDrawing` ends
the current stroke (`endStroke`, with its events) and at once starts a new,
empty stroke; the jumped-to position is not recorded but becomes the previous
position, so that a next update in the band of it is the new stroke's first
recorded point. -/
theorem jump_breaks_stroke (hand : Hand) (s : DrawState) (p : Vector3) (e : ℕ)
    (hd : s.isDrawing = true) (hcur : s.currentStroke = some e)
    (hj : Vector3.distanceGt p s.previousPosition (1 / 10)) :
    DrawState.handleDrawing hand s p =
        ({ DrawState.startStroke (DrawState.endStroke hand s).1 with previousPosition := p },
          (DrawState.endStroke hand s).2) ∧
      (DrawState.handleDrawing hand s p).1.strokePoints = [] ∧
      (DrawState.handleDrawing hand s p).1.currentStroke = some s.nextEntity ∧
      (DrawState.handleDrawing hand s p).1.previousPosition = p ∧
      (∀ q, InBand q p →
        (DrawState.handleDrawing hand (DrawState.handleDrawing hand s p).1 q).1.strokePoints
          = [q]) := by
  have hjump := DrawState.handleDrawing_jump hand s p hd hj
  simp only [hcur, Option.isNone_some, Bool.false_eq_true, if_false] at hjump
  refine ⟨hjump, ?_, ?_, ?_, ?_⟩
  · rw [hjump]; rfl
  · rw [hjump]; rfl
  · rw [hjump]
  · intro q hq
    rw [hjump, DrawState.handleDrawing_record hand _ q (by simpa [DrawState.startStroke,
      DrawState.endStroke] using hd) hq]
    simp [DrawState.addPointToStroke_strokePoints, DrawState.startStroke]

/-- C14, amended, at the stroke of three points and a jump of 0.2. -/
theorem jump_breaks_stroke_witness :
    (DrawState.handleDrawing Hand.left threeStroke ⟨23 / 100, 0, 0⟩).1.strokePoints = [] ∧
      (DrawState.handleDrawing Hand.left threeStroke ⟨23 / 100, 0, 0⟩).1.currentStroke
        = some 1 ∧
      (DrawState.handleDrawing Hand.left threeStroke ⟨23 / 100, 0, 0⟩).1.previousPosition
        = ⟨23 / 100, 0, 0⟩ := by
  have h := jump_breaks_stroke Hand.left threeStroke ⟨23 / 100, 0, 0⟩ 0 rfl rfl
    (by norm_num [Vector3.distanceGt, Vector3.distanceToSquared, threeStroke])
  exact ⟨h.2.1, h.2.2.1, h.2.2.2.1⟩
/-- The events `endStroke` emits for a stroke of at least three points: the
loop event, if the intersection is not null, then the path data on the stroke
entity, if there is one. -/
theorem DrawState.endStroke_long (hand : Hand) (s : DrawState)
    (h3 : 3 ≤ s.strokePoints.length) :
    (DrawState.endStroke hand s).2 =
      (match DrawState.finalIntersection s with
        | some r => [DrawEvent.drawingLoopCreated s.strokePoints hand r s.currentStroke]
        | none => []) ++
      (match s.currentStroke with
        | some e => [DrawEvent.pathDataSet e s.strokePoints]
        | none => []) := by
  have h2 : ¬ (s.strokePoints.length < 2 ∧ s.currentStroke.isSome = true) := by
    rintro ⟨h, _⟩; omega
  have h0 : 0 < s.strokePoints.length := by omega
  have hclone : s.strokePoints.map Vector3.clone = s.strokePoints := by
    have hid : Vector3.clone = id := funext Vector3.clone_eq
    rw [hid, List.map_id]
  unfold DrawState.endStroke
  simp only [h2, if_false, h3, if_true, h0, hclone]

/-- C15, as stated, fails: when the stroke of three points on a line is
ended, its intersection is null and no event carrying an intersection is
emitted; the only event is the path data on the stroke entity. -/
theorem endStroke_no_loop_event :
    DrawState.finalIntersection threeStroke = none ∧
      (DrawState.endStroke Hand.left threeStroke).2 =
        [DrawEvent.pathDataSet 0 [⟨1 / 100, 0, 0⟩, ⟨2 / 100, 0, 0⟩, ⟨3 / 100, 0, 0⟩]] ∧
      (∀ path h r l, DrawEvent.drawingLoopCreated path h r l ∉
        (DrawState.endStroke Hand.left threeStroke).2) := by
  have hfin : DrawState.finalIntersection threeStroke = none := by
    simp [DrawState.finalIntersection, threeStroke, checkSelfIntersection]
  have hev : (DrawState.endStroke Hand.left threeStroke).2 =
      [DrawEvent.pathDataSet 0 [⟨1 / 100, 0, 0⟩, ⟨2 / 100, 0, 0⟩, ⟨3 / 100, 0, 0⟩]] := by
    rw [DrawState.endStroke_long Hand.left threeStroke (by simp [threeStroke]), hfin]
    rfl
  refine ⟨hfin, hev, ?_⟩
  intro path h r l
  rw [hev]
  simp

/-- C15, amended: when `endStroke` finalizes a stroke of at least 3 points,
its intersection is the one stored during drawing or else the result of the
loop detector on the stroke's points; a `drawing-loop-created` event carrying
a copy of the points and that intersection is emitted only if the
intersection is not null, and in every case the path data (a copy of the
points, without intersection) is emitted on the stroke entity.  For a stroke
of fewer than 2 points no event is emitted and the stroke is discarded: its
entity is removed from the container and the recorder is reset. -/
theorem endStroke_events (hand : Hand) (s : DrawState) :
    (3 ≤ s.strokePoints.length →
      (∀ r, DrawState.finalIntersection s = some r →
        (DrawState.endStroke hand s).2 =
          DrawEvent.drawingLoopCreated s.strokePoints hand r s.currentStroke ::
            (match s.currentStroke with
              | some e => [DrawEvent.pathDataSet e s.strokePoints]
              | none => [])) ∧
      (DrawState.finalIntersection s = none →
        (DrawState.endStroke hand s).2 =
            (match s.currentStroke with
              | some e => [DrawEvent.pathDataSet e s.strokePoints]
              | none => []) ∧
          ∀ path h r l, DrawEvent.drawingLoopCreated path h r l ∉
            (DrawState.endStroke hand s).2)) ∧
    (s.strokePoints.length < 2 →
      (DrawState.endStroke hand s).2 = [] ∧
      (DrawState.endStroke hand s).1.strokePoints = [] ∧
      (DrawState.endStroke hand s).1.currentStroke = none ∧
      (∀ e, s.currentStroke = some e → e ∉ (DrawState.endStroke hand s).1.container)) := by
  constructor
  · intro h3
    have hev := DrawState.endStroke_long hand s h3
    constructor
    · intro r hr
      rw [hev, hr]
      rfl
    · intro hnone
      rw [hnone] at hev
      simp only [List.nil_append] at hev
      refine ⟨hev, ?_⟩
      intro path h r l
      rw [hev]
      cases s.currentStroke <;> simp
  · intro h2
    have h3 : ¬ 3 ≤ s.strokePoints.length := by omega
    refine ⟨?_, rfl, rfl, ?_⟩
    · unfold DrawState.endStroke
      by_cases hc : s.currentStroke.isSome = true
      · simp [h2, hc]
      · simp [hc, h3]
    · intro e he
      unfold DrawState.endStroke
      simp [h2, he]

/-- C15, amended, at the stroke of three points on a line and at the stroke
of one point. -/
theorem endStroke_events_witness :
    (DrawState.endStroke Hand.left threeStroke).2 =
        [DrawEvent.pathDataSet 0 [⟨1 / 100, 0, 0⟩, ⟨2 / 100, 0, 0⟩, ⟨3 / 100, 0, 0⟩]] ∧
      (DrawState.endStroke Hand.left oneStroke).2 = [] ∧
      0 ∉ (DrawState.endStroke Hand.left oneStroke).1.container :=
  ⟨((endStroke_events Hand.left threeStroke).1 (by simp [threeStroke])).2
      (by simp [DrawState.finalIntersection, threeStroke, checkSelfIntersection]) |>.1,
    ((endStroke_events Hand.left oneStroke).2 (by simp [oneStroke])).1,
    ((endStroke_events Hand.left oneStroke).2 (by simp [oneStroke])).2.2.2 0 rfl⟩
/-- When the nested loops return nothing the result of the detector is that
of the start/end test. -/
theorem checkSelfIntersection_of_flat (pts : List Vector3) (hz : ∀ p ∈ pts, p.z = 0) :
    checkSelfIntersection pts =
      if 10 < pts.length ∧
          Vector3.distanceLt (pointAt pts 0) (pointAt pts (pts.length - 1)) (15 / 100)
      then some ⟨pointAt pts 0, 0⟩ else none := by
  have hscan : segmentScan pts = none :=
    segmentScan_eq_none_of_no_pair pts
      (fun i j _ hq => hq.1 (segmentIntersection_eq_none_of_flat pts hz i j))
  unfold checkSelfIntersection closureCheck
  rw [hscan]
  by_cases h4 : pts.length < 4
  · have h10 : ¬ 10 < pts.length := by omega
    simp [h4, h10]
  · by_cases h10 : 10 < pts.length
    · by_cases hd : Vector3.distanceLt (pointAt pts 0) (pointAt pts (pts.length - 1)) (15 / 100)
      · simp [h4, h10, hd, Vector3.clone_eq]
      · simp [h4, h10, hd]
    · simp [h4, h10]

theorem lineFrom_succ_last (x step : ℚ) (n : ℕ) :
    lineFrom x step (n + 1) = lineFrom x step n ++ [⟨x + (n + 1) * step, 0, 0⟩] := by
  induction n generalizing x with
  | zero => simp [lineFrom]
  | succ n ih =>
    have hstep : lineFrom x step (n + 1 + 1) =
        ⟨x + step, 0, 0⟩ :: lineFrom (x + step) step (n + 1) := rfl
    rw [hstep, ih (x + step)]
    have hn : lineFrom x step (n + 1) = ⟨x + step, 0, 0⟩ :: lineFrom (x + step) step n := rfl
    rw [hn, List.cons_append]
    congr 3
    push_cast
    ring_nf

theorem pointAt_append_last (l : List Vector3) (p : Vector3) :
    pointAt (l ++ [p]) ((l ++ [p]).length - 1) = p := by
  unfold pointAt
  simp

theorem pointAt_cons_zero (a : Vector3) (l : List Vector3) : pointAt (a :: l) 0 = a := rfl

/-- When the stroke reaches a length that is a multiple of 10 and the
detector finds an intersection, `addPointToStroke` stores it. -/
theorem DrawState.addPointToStroke_detected (s : DrawState) (p : Vector3) (r : Intersection)
    (hlen : 4 < (s.strokePoints ++ [p]).length ∧ (s.strokePoints ++ [p]).length % 10 = 0)
    (hcheck : checkSelfIntersection (s.strokePoints ++ [p]) = some r) :
    (DrawState.addPointToStroke s p).detectedIntersection = some r := by
  unfold DrawState.addPointToStroke
  simp only [Vector3.clone_eq]
  rw [if_pos hlen, hcheck]

/-- At any other length `addPointToStroke` keeps what is stored. -/
theorem DrawState.addPointToStroke_kept (s : DrawState) (p : Vector3)
    (hlen : ¬ (4 < (s.strokePoints ++ [p]).length ∧ (s.strokePoints ++ [p]).length % 10 = 0)) :
    (DrawState.addPointToStroke s p).detectedIntersection = s.detectedIntersection := by
  unfold DrawState.addPointToStroke
  simp only [Vector3.clone_eq]
  rw [if_neg hlen]

theorem DrawState.addPointToStroke_stored (s : DrawState) (p : Vector3)
    (hs : StoredFromPrefix s) : StoredFromPrefix (DrawState.addPointToStroke s p) := by
  intro r hr
  rw [DrawState.addPointToStroke_strokePoints]
  by_cases hlen : 4 < (s.strokePoints ++ [p]).length ∧ (s.strokePoints ++ [p]).length % 10 = 0
  · cases hcheck : checkSelfIntersection (s.strokePoints ++ [p]) with
    | some r' =>
      rw [DrawState.addPointToStroke_detected s p r' hlen hcheck] at hr
      refine ⟨(s.strokePoints ++ [p]).length, hlen.1, hlen.2, le_refl _, ?_⟩
      rw [List.take_length, hcheck, hr]
    | none =>
      have hkeep : (DrawState.addPointToStroke s p).detectedIntersection
          = s.detectedIntersection := by
        unfold DrawState.addPointToStroke
        simp only [Vector3.clone_eq]
        rw [if_pos hlen, hcheck]
      rw [hkeep] at hr
      obtain ⟨k, h1, h2, h3, h4⟩ := hs r hr
      refine ⟨k, h1, h2, by simp; omega, ?_⟩
      rw [List.take_append_of_le_length h3]; exact h4
  · rw [DrawState.addPointToStroke_kept s p hlen] at hr
    obtain ⟨k, h1, h2, h3, h4⟩ := hs r hr
    refine ⟨k, h1, h2, by simp; omega, ?_⟩
    rw [List.take_append_of_le_length h3]; exact h4

theorem StoredFromPrefix.of_none {s : DrawState} (h : s.detectedIntersection = none) :
    StoredFromPrefix s := by
  intro r hr
  rw [h] at hr
  cases hr

theorem DrawState.handleDrawing_stored (hand : Hand) (s : DrawState) (p : Vector3)
    (hs : StoredFromPrefix s) : StoredFromPrefix (DrawState.handleDrawing hand s p).1 := by
  have hstart : StoredFromPrefix (if s.currentStroke.isNone then DrawState.startStroke s else s) := by
    cases s.currentStroke with
    | none => exact StoredFromPrefix.of_none rfl
    | some e => exact hs
  cases hd : s.isDrawing with
  | false =>
    unfold DrawState.handleDrawing
    simp only [hd, if_true]
    cases hc : s.currentStroke with
    | none => exact hs
    | some e => exact StoredFromPrefix.of_none rfl
  | true =>
    by_cases hb : InBand p s.previousPosition
    · rw [DrawState.handleDrawing_record hand s p hd hb]
      exact DrawState.addPointToStroke_stored _ p hstart
    · by_cases hj : Vector3.distanceGt p s.previousPosition (1 / 10)
      · rw [DrawState.handleDrawing_jump hand s p hd hj]
        exact StoredFromPrefix.of_none rfl
      · rw [DrawState.handleDrawing_ignore hand s p hd hb hj]
        exact hstart

theorem DrawState.handleDrawingAll_stored (hand : Hand) (s : DrawState)
    (positions : List Vector3) (hs : StoredFromPrefix s) :
    StoredFromPrefix (DrawState.handleDrawingAll hand s positions).1 := by
  induction positions generalizing s with
  | nil => exact hs
  | cons p ps ih => exact ih _ (DrawState.handleDrawing_stored hand s p hs)
theorem DrawState.handleDrawing_away (hand : Hand) :
    DrawState.handleDrawing hand drawingEnabled ⟨7 / 1000, 0, 0⟩ = (awayStroke, []) := by
  rw [DrawState.handleDrawing_record hand drawingEnabled _ rfl
    (by norm_num [InBand, Vector3.distanceGt, Vector3.distanceLt, Vector3.distanceToSquared,
      drawingEnabled, DrawState.init])]
  rfl

/-- With drawing enabled, a stroke in progress and a position in the band of
the previous update, the point is recorded. -/
theorem DrawState.handleDrawing_record_active (hand : Hand) (s : DrawState) (p : Vector3)
    (hd : s.isDrawing = true) (hcur : s.currentStroke.isNone = false)
    (hb : InBand p s.previousPosition) :
    DrawState.handleDrawing hand s p =
      ({ DrawState.addPointToStroke s p with previousPosition := p }, []) := by
  rw [DrawState.handleDrawing_record hand s p hd hb, hcur]
  rfl

theorem flat_cons_append {a p : Vector3} {l : List Vector3} (ha : a.z = 0) (hp : p.z = 0)
    (hl : ∀ q ∈ l, q.z = 0) : ∀ q ∈ a :: (l ++ [p]), q.z = 0 := by
  intro q hq
  simp only [List.mem_cons, List.mem_append, List.mem_singleton, List.mem_nil_iff,
    or_false] at hq
  rcases hq with h | h | h
  · rw [h]; exact ha
  · exact hl q h
  · rw [h]; exact hp

/-- The stroke after the twenty points 0.007 apart: at the twentieth point
the detector sees the first and the last point 0.133 apart and stores the
start/end result. -/
theorem away_fold_detected :
    (List.foldl DrawState.addPointToStroke awayStroke
      (lineFrom (7 / 1000) (7 / 1000) 19)).detectedIntersection =
      some ⟨⟨7 / 1000, 0, 0⟩, 0⟩ := by
  rw [lineFrom_succ_last (7 / 1000) (7 / 1000) 18, List.foldl_append]
  simp only [List.foldl_cons, List.foldl_nil]
  have g := (DrawState.foldl_addPointToStroke_fields awayStroke
    (lineFrom (7 / 1000) (7 / 1000) 18)).2.2.2.2.2
  have hpts : awayStroke.strokePoints ++ lineFrom (7 / 1000) (7 / 1000) 18 =
      ⟨7 / 1000, 0, 0⟩ :: lineFrom (7 / 1000) (7 / 1000) 18 := rfl
  apply DrawState.addPointToStroke_detected
  · rw [g, hpts]
    simp [lineFrom_length]
  · rw [g, hpts, List.cons_append, checkSelfIntersection_of_flat _
      (flat_cons_append rfl rfl (lineFrom_flat _ _ 18))]
    have hlast := pointAt_append_last (⟨7 / 1000, 0, 0⟩ :: lineFrom (7 / 1000) (7 / 1000) 18)
      ⟨7 / 1000 + (((18 : ℕ) : ℚ) + 1) * (7 / 1000), 0, 0⟩
    rw [List.cons_append] at hlast
    rw [hlast, pointAt_cons_zero]
    have hlen : ((⟨7 / 1000, 0, 0⟩ : Vector3) :: (lineFrom (7 / 1000) (7 / 1000) 18 ++
        [⟨7 / 1000 + (((18 : ℕ) : ℚ) + 1) * (7 / 1000), 0, 0⟩])).length = 20 := by
      simp [lineFrom_length]
    rw [hlen, if_pos]
    refine ⟨by norm_num, ?_⟩
    norm_num [Vector3.distanceLt, Vector3.distanceToSquared]

/-- The state the twenty-one updates of `awayUpdates` lead to: all of them
are recorded and the start/end result stored at the twentieth point is still
stored. -/
theorem away_state :
    (DrawState.handleDrawingAll Hand.left drawingEnabled awayUpdates).1.strokePoints
        = awayUpdates ∧
      (DrawState.handleDrawingAll Hand.left drawingEnabled awayUpdates).1.detectedIntersection
        = some ⟨⟨7 / 1000, 0, 0⟩, 0⟩ ∧
      (DrawState.handleDrawingAll Hand.left drawingEnabled awayUpdates).1.currentStroke
        = some 0 := by
  obtain ⟨f1, f2, _, _, _, f6⟩ := DrawState.foldl_addPointToStroke_fields awayStroke
    (lineFrom (7 / 1000) (7 / 1000) 19)
  have key : (DrawState.handleDrawingAll Hand.left drawingEnabled awayUpdates).1 =
      { DrawState.addPointToStroke
          (List.foldl DrawState.addPointToStroke awayStroke (lineFrom (7 / 1000) (7 / 1000) 19))
          ⟨23 / 100, 0, 0⟩ with previousPosition := ⟨23 / 100, 0, 0⟩ } := by
    rw [awayUpdates, DrawState.handleDrawingAll_cons, DrawState.handleDrawing_away,
      DrawState.handleDrawingAll_append,
      DrawState.handleDrawingAll_recorded Hand.left awayStroke _ rfl rfl
        (chainFrom_lineFrom _ _ 19 (by norm_num) (by norm_num)),
      lineFrom_getLast?, DrawState.handleDrawingAll_cons]
    simp only [DrawState.handleDrawingAll, Option.getD_some]
    rw [DrawState.handleDrawing_record_active Hand.left _ _ (by simpa using f1)
      (by dsimp only
          rw [f2]; rfl)
      (by norm_num [InBand, Vector3.distanceGt, Vector3.distanceLt,
        Vector3.distanceToSquared])]
    rw [DrawState.addPointToStroke_previous]
  rw [key]
  refine ⟨?_, ?_, ?_⟩
  · simp only [DrawState.addPointToStroke_strokePoints, f6]
    have h0 : awayStroke.strokePoints = [⟨7 / 1000, 0, 0⟩] := rfl
    rw [h0, awayUpdates, List.singleton_append, List.cons_append]
  · simp only []
    rw [DrawState.addPointToStroke_kept, away_fold_detected]
    rw [f6]
    simp [awayStroke, lineFrom_length]
  · simp only []
    rw [(DrawState.addPointToStroke_fields _ _).2.1, f2]
    rfl
/-- C16, as stated, fails.  In `hand-xr-draw.js`: after twenty updates 0.007
apart and a last one at 0.23 the detector returns null on the final stroke
(no crossing, first and last point 0.223 apart), yet `endStroke` emits the
loop event with the start/end result stored when the stroke had twenty
points.  In `mediapipe-portal-hand.js`: for four points one unit apart the
detector returns null and the event still carries an intersection. -/
theorem stale_intersection_emitted :
    (DrawState.handleDrawingAll Hand.left drawingEnabled awayUpdates).1.strokePoints
        = awayUpdates ∧
      checkSelfIntersection awayUpdates = none ∧
      DrawEvent.drawingLoopCreated awayUpdates Hand.left ⟨⟨7 / 1000, 0, 0⟩, 0⟩ (some 0) ∈
        (DrawState.endStroke Hand.left
          (DrawState.handleDrawingAll Hand.left drawingEnabled awayUpdates).1).2 ∧
      Portal.checkLoopIntersection fourLine = none ∧
      Portal.endStrokeLoopEvents fourLine [0] = [⟨fourLine, ⟨⟨0, 0, 0⟩, 0⟩, 0⟩] := by
  obtain ⟨hpts, hdet, hcur⟩ := away_state
  refine ⟨hpts, ?_, ?_, ?_, ?_⟩
  · rw [awayUpdates, checkSelfIntersection_of_flat _
      (flat_cons_append rfl rfl (lineFrom_flat _ _ 19))]
    have hlast := pointAt_append_last (⟨7 / 1000, 0, 0⟩ :: lineFrom (7 / 1000) (7 / 1000) 19)
      ⟨23 / 100, 0, 0⟩
    rw [List.cons_append] at hlast
    rw [hlast, pointAt_cons_zero, if_neg]
    rintro ⟨_, hd⟩
    norm_num [Vector3.distanceLt, Vector3.distanceToSquared] at hd
  · rw [DrawState.endStroke_long Hand.left _ (by rw [hpts]; simp [awayUpdates, lineFrom_length])]
    have hfin : DrawState.finalIntersection
        (DrawState.handleDrawingAll Hand.left drawingEnabled awayUpdates).1
        = some ⟨⟨7 / 1000, 0, 0⟩, 0⟩ := by
      unfold DrawState.finalIntersection
      rw [hdet]
    rw [hfin, hpts, hcur]
    simp
  · simp [Portal.checkLoopIntersection, fourLine]
  · simp [Portal.endStrokeLoopEvents, Portal.checkLoopIntersection, fourLine, pointAt,
      Vector3.clone]

/-- C16, amended: along every sequence of position updates, an intersection
stored during drawing is the result of the loop detector on a prefix of the
stroke whose length is a multiple of 10.  When the stroke is finalized with
at least 3 points, the loop event carries the stored intersection if there is
one, whatever the detector returns on the final points; if nothing is stored,
a loop event is emitted if and only if the detector returns a non-null
result on the final points, and it carries that result.  In
`mediapipe-portal-hand.js` the loop event of a stroke of more than 3 points
always carries an intersection: the result of its start/end test, or the
first point with index 0 when that result is null. -/
theorem endStroke_intersection (hand : Hand) (s : DrawState) (positions : List Vector3)
    (hs : StoredFromPrefix s) :
    StoredFromPrefix (DrawState.handleDrawingAll hand s positions).1 ∧
    (∀ t : DrawState, 3 ≤ t.strokePoints.length →
      (∀ r, t.detectedIntersection = some r →
        DrawEvent.drawingLoopCreated t.strokePoints hand r t.currentStroke ∈
          (DrawState.endStroke hand t).2) ∧
      (t.detectedIntersection = none →
        ∀ path h r l, DrawEvent.drawingLoopCreated path h r l ∈ (DrawState.endStroke hand t).2 ↔
          (path = t.strokePoints ∧ h = hand ∧ l = t.currentStroke ∧
            checkSelfIntersection t.strokePoints = some r))) ∧
    (∀ (pts : List Vector3) (entities : List ℕ) (e : ℕ), 3 < pts.length →
      Portal.endStrokeLoopEvents pts (entities ++ [e]) =
        [⟨pts, (Portal.checkLoopIntersection pts).getD ⟨pointAt pts 0, 0⟩, e⟩]) := by
  refine ⟨DrawState.handleDrawingAll_stored hand s positions hs, ?_, ?_⟩
  · intro t h3
    have hev := DrawState.endStroke_long hand t h3
    constructor
    · intro r hr
      have hfin : DrawState.finalIntersection t = some r := by
        unfold DrawState.finalIntersection
        rw [hr]
      rw [hev, hfin]
      simp
    · intro hnone path h r l
      have hfin : DrawState.finalIntersection t = checkSelfIntersection t.strokePoints := by
        unfold DrawState.finalIntersection
        rw [hnone]
      rw [hev, hfin]
      cases hcheck : checkSelfIntersection t.strokePoints with
      | none => cases t.currentStroke <;> simp
      | some r' =>
        cases t.currentStroke <;> simp <;> tauto
  · intro pts entities e h3
    have hclone : pts.map Vector3.clone = pts := by
      have hid : Vector3.clone = id := funext Vector3.clone_eq
      rw [hid, List.map_id]
    unfold Portal.endStrokeLoopEvents
    simp only [h3, List.length_append, List.length_singleton, Nat.lt_add_left_iff_pos,
      Nat.lt_one_iff, pos_of_gt, and_self, if_true, List.getLast?_append, hclone,
      Vector3.clone_eq]
    cases Portal.checkLoopIntersection pts <;> simp

/-- C16, amended, at the stroke of twenty-one points with nothing stored
before and at the four points on a line. -/
theorem endStroke_intersection_witness :
    StoredFromPrefix (DrawState.handleDrawingAll Hand.left drawingEnabled awayUpdates).1 ∧
      Portal.endStrokeLoopEvents fourLine ([] ++ [0]) =
        [⟨fourLine, (Portal.checkLoopIntersection fourLine).getD ⟨pointAt fourLine 0, 0⟩, 0⟩] :=
  ⟨(endStroke_intersection Hand.left drawingEnabled awayUpdates
      (StoredFromPrefix.of_none rfl)).1,
    (endStroke_intersection Hand.left drawingEnabled awayUpdates
      (StoredFromPrefix.of_none rfl)).2.2 fourLine [] 0 (by simp [fourLine])⟩
/-! ## The path animator: lemmas -/

/-- For a positive length and a distance at or beyond it, the remainder is
the distance minus a whole positive number of lengths and lies from 0 up to,
but not at, the length. -/
theorem jsRem_of_le {d L : ℚ} (hL : 0 < L) (hd : L ≤ d) :
    0 ≤ jsRem d L ∧ jsRem d L < L ∧ ∃ k : ℕ, 1 ≤ k ∧ d = jsRem d L + k * L := by
  have hq : (1 : ℚ) ≤ d / L := by rw [le_div_iff₀ hL]; linarith
  have hq0 : (0 : ℚ) ≤ d / L := by linarith
  have hfloor1 : (1 : ℤ) ≤ ⌊d / L⌋ := Int.le_floor.mpr (by exact_mod_cast hq)
  have hlo : ((⌊d / L⌋ : ℤ) : ℚ) ≤ d / L := Int.floor_le _
  have hhi : d / L < ((⌊d / L⌋ : ℤ) : ℚ) + 1 := Int.lt_floor_add_one _
  have hrem : jsRem d L = d - L * ((⌊d / L⌋ : ℤ) : ℚ) := by
    unfold jsRem
    rw [if_pos hq0]
  have hdL : d = L * (d / L) := by field_simp
  rw [hrem]
  refine ⟨?_, ?_, ⌊d / L⌋.toNat, ?_, ?_⟩
  · have : L * ((⌊d / L⌋ : ℤ) : ℚ) ≤ L * (d / L) := by
      exact mul_le_mul_of_nonneg_left hlo hL.le
    linarith
  · have : L * (d / L) < L * (((⌊d / L⌋ : ℤ) : ℚ) + 1) := by
      exact mul_lt_mul_of_pos_left hhi hL
    linarith
  · omega
  · have hcast : ((⌊d / L⌋.toNat : ℕ) : ℚ) = ((⌊d / L⌋ : ℤ) : ℚ) := by
      have : ((⌊d / L⌋.toNat : ℕ) : ℤ) = ⌊d / L⌋ := Int.toNat_of_nonneg (by omega)
      exact_mod_cast this
    rw [hcast]
    ring

/-- One tick of a playing animator that stays before the end of the curve. -/
theorem PathAnimator.tick_advance (data : AnimatorData) (s : PathAnimator) (deltaTime : ℚ)
    (curve : Curve) (hc : s.curve = some curve) (hp : s.isPlaying = true)
    (hlt : s.currentDistance + data.speed * (deltaTime / 1000) < s.totalLength) :
    PathAnimator.tick data s deltaTime =
      { s with
        currentDistance := s.currentDistance + data.speed * (deltaTime / 1000)
        position := curve.getPointAt
          ((s.currentDistance + data.speed * (deltaTime / 1000)) / s.totalLength) } := by
  unfold PathAnimator.tick
  rw [hc]
  simp only [hp, Bool.true_eq_false, if_false, not_le.mpr hlt]

/-- A sequence of ticks with delta times that are not negative, of a playing
animator that stays before the end of the curve: the distances add up. -/
theorem PathAnimator.tickAll_advance (data : AnimatorData) (s : PathAnimator)
    (curve : Curve) (deltas : List ℚ) (hc : s.curve = some curve) (hp : s.isPlaying = true)
    (hS : 0 ≤ data.speed) (hpos : ∀ dt ∈ deltas, 0 ≤ dt)
    (hT : s.currentDistance + data.speed * (deltas.sum / 1000) < s.totalLength) :
    (PathAnimator.tickAll data s deltas).currentDistance =
        s.currentDistance + data.speed * (deltas.sum / 1000) ∧
      (PathAnimator.tickAll data s deltas).isPlaying = true ∧
      (PathAnimator.tickAll data s deltas).totalLength = s.totalLength := by
  induction deltas generalizing s with
  | nil => simp [PathAnimator.tickAll, hp]
  | cons dt rest ih =>
    have hdt : 0 ≤ dt := hpos dt (List.mem_cons_self _ _)
    have hrest : ∀ d ∈ rest, 0 ≤ d := fun d hd => hpos d (List.mem_cons_of_mem _ hd)
    have hsum : 0 ≤ rest.sum := List.sum_nonneg hrest
    rw [List.sum_cons] at hT
    have hmul : 0 ≤ data.speed * (rest.sum / 1000) :=
      mul_nonneg hS (div_nonneg hsum (by norm_num))
    have hlt : s.currentDistance + data.speed * (dt / 1000) < s.totalLength := by
      have : data.speed * ((dt + rest.sum) / 1000) =
          data.speed * (dt / 1000) + data.speed * (rest.sum / 1000) := by ring
      linarith
    have htick := PathAnimator.tick_advance data s dt curve hc hp hlt
    have hnext := ih (PathAnimator.tick data s dt) (by rw [htick]; exact hc)
      (by rw [htick]; exact hp) hrest
      (by
        rw [htick]
        have : data.speed * ((dt + rest.sum) / 1000) =
            data.speed * (dt / 1000) + data.speed * (rest.sum / 1000) := by ring
        show s.currentDistance + data.speed * (dt / 1000) + data.speed * (rest.sum / 1000)
          < s.totalLength
        linarith)
    have hfold : PathAnimator.tickAll data s (dt :: rest) =
        PathAnimator.tickAll data (PathAnimator.tick data s dt) rest := rfl
    rw [hfold, hnext.1, hnext.2.1, hnext.2.2, htick, List.sum_cons]
    refine ⟨?_, rfl, rfl⟩
    show s.currentDistance + data.speed * (dt / 1000) + data.speed * (rest.sum / 1000) = _
    ring

theorem sum_take_le {l : List ℚ} (hpos : ∀ x ∈ l, 0 ≤ x) (k : ℕ) : (l.take k).sum ≤ l.sum := by
  have h := List.sum_take_add_sum_drop l k
  have hdrop : 0 ≤ (l.drop k).sum :=
    List.sum_nonneg (fun x hx => hpos x (List.mem_of_mem_drop hx))
  linarith

/-! ## The path animator: properties -/

/-- C17: `tick` while playing with a curve first adds `speed * deltaTime /
1000` to `currentDistance`; if the new distance is at or beyond `totalLength`
it is replaced by the remainder modulo `totalLength` when `loop` is true, and
by `totalLength` itself with `isPlaying` set to false when `loop` is false;
the marker is then placed at `getPointAt(currentDistance / totalLength)`.
When not playing or without a curve, `tick` changes nothing.  For a positive
`totalLength` the remainder is the distance minus a whole number of lengths
and lies in `[0, totalLength)`. -/
theorem animator_tick (data : AnimatorData) (s : PathAnimator) (deltaTime : ℚ) :
    ((s.isPlaying = false ∨ s.curve = none) → PathAnimator.tick data s deltaTime = s) ∧
    (∀ curve, s.curve = some curve → s.isPlaying = true →
      (s.currentDistance + data.speed * (deltaTime / 1000) < s.totalLength →
        PathAnimator.tick data s deltaTime =
          { s with
            currentDistance := s.currentDistance + data.speed * (deltaTime / 1000)
            position := curve.getPointAt
              ((s.currentDistance + data.speed * (deltaTime / 1000)) / s.totalLength) }) ∧
      (s.totalLength ≤ s.currentDistance + data.speed * (deltaTime / 1000) →
        data.loop = true →
        PathAnimator.tick data s deltaTime =
          { s with
            currentDistance :=
              jsRem (s.currentDistance + data.speed * (deltaTime / 1000)) s.totalLength
            position := curve.getPointAt
              (jsRem (s.currentDistance + data.speed * (deltaTime / 1000)) s.totalLength
                / s.totalLength) } ∧
        (0 < s.totalLength →
          0 ≤ (PathAnimator.tick data s deltaTime).currentDistance ∧
          (PathAnimator.tick data s deltaTime).currentDistance < s.totalLength ∧
          ∃ k : ℕ, 1 ≤ k ∧ s.currentDistance + data.speed * (deltaTime / 1000) =
            (PathAnimator.tick data s deltaTime).currentDistance + k * s.totalLength)) ∧
      (s.totalLength ≤ s.currentDistance + data.speed * (deltaTime / 1000) →
        data.loop = false →
        PathAnimator.tick data s deltaTime =
          { s with
            currentDistance := s.totalLength
            isPlaying := false
            position := curve.getPointAt (s.totalLength / s.totalLength) })) := by
  constructor
  · rintro (h | h)
    · unfold PathAnimator.tick
      cases s.curve <;> simp [h]
    · unfold PathAnimator.tick
      rw [h]
  · intro curve hc hp
    refine ⟨?_, ?_, ?_⟩
    · intro hlt
      unfold PathAnimator.tick
      rw [hc]
      simp only [hp, Bool.true_eq_false, if_false, not_le.mpr hlt]
    · intro hle hloop
      have htick : PathAnimator.tick data s deltaTime =
          { s with
            currentDistance :=
              jsRem (s.currentDistance + data.speed * (deltaTime / 1000)) s.totalLength
            position := curve.getPointAt
              (jsRem (s.currentDistance + data.speed * (deltaTime / 1000)) s.totalLength
                / s.totalLength) } := by
        unfold PathAnimator.tick
        rw [hc]
        simp only [hp, Bool.true_eq_false, if_false, hle, if_true, hloop]
      refine ⟨htick, ?_⟩
      intro hL
      rw [htick]
      exact jsRem_of_le hL hle
    · intro hle hloop
      unfold PathAnimator.tick
      rw [hc]
      simp only [hp, Bool.true_eq_false, if_false, hle, if_true, hloop, Bool.false_eq_true]

/-- C17, on the curve along the x axis, of length 1, with speed 0.2 and a
tick of 6000 ms from the start: with `loop` the distance 1.2 wraps to 0.2,
without it the animator stops at the end. -/
theorem animator_tick_witness :
    ((PathAnimator.tick ⟨1 / 5, true⟩ axisAnimator 6000).currentDistance = 1 / 5 ∧
      (PathAnimator.tick ⟨1 / 5, true⟩ axisAnimator 6000).position = ⟨1 / 5, 0, 0⟩ ∧
      (PathAnimator.tick ⟨1 / 5, true⟩ axisAnimator 6000).isPlaying = true) ∧
    ((PathAnimator.tick ⟨1 / 5, false⟩ axisAnimator 6000).currentDistance = 1 ∧
      (PathAnimator.tick ⟨1 / 5, false⟩ axisAnimator 6000).position = ⟨1, 0, 0⟩ ∧
      (PathAnimator.tick ⟨1 / 5, false⟩ axisAnimator 6000).isPlaying = false) := by
  have hle : axisAnimator.totalLength ≤
      axisAnimator.currentDistance + (1 / 5 : ℚ) * (6000 / 1000) := by
    norm_num [axisAnimator]
  have hfloor : ⌊(6 / 5 : ℚ)⌋ = 1 := by
    rw [Int.floor_eq_iff]
    norm_num
  have hrem : jsRem (axisAnimator.currentDistance + (1 / 5 : ℚ) * (6000 / 1000))
      axisAnimator.totalLength = 1 / 5 := by
    have harg : axisAnimator.currentDistance + (1 / 5 : ℚ) * (6000 / 1000) = 6 / 5 := by
      norm_num [axisAnimator]
    have hlen : axisAnimator.totalLength = 1 := rfl
    rw [harg, hlen]
    unfold jsRem
    rw [div_one, if_pos (by norm_num), hfloor]
    norm_num
  have h1 := ((animator_tick ⟨1 / 5, true⟩ axisAnimator 6000).2 axisCurve rfl rfl).2.1 hle rfl
  have h2 := ((animator_tick ⟨1 / 5, false⟩ axisAnimator 6000).2 axisCurve rfl rfl).2.2 hle rfl
  refine ⟨?_, ?_⟩
  · rw [h1.1]
    simp only [hrem]
    refine ⟨trivial, ?_, rfl⟩
    norm_num [axisCurve, axisAnimator]
  · rw [h2]
    refine ⟨rfl, ?_, rfl⟩
    norm_num [axisCurve, axisAnimator]

/-- C18: for a playing animator with a curve, at distance 0, with a speed
`S` that is not negative and delta times that are not negative (in ms) whose
sum `T` (in seconds) satisfies `S * T < L`, after every prefix of the ticks
the distance is exactly `S` times the time elapsed, it is below `L` (no wrap
and no clamp has happened) and the animator is still playing; this holds
whether `loop` is set or not. -/
theorem animator_before_end (data : AnimatorData) (s : PathAnimator) (curve : Curve)
    (deltas : List ℚ) (hc : s.curve = some curve) (hp : s.isPlaying = true)
    (h0 : s.currentDistance = 0) (hS : 0 ≤ data.speed) (hpos : ∀ dt ∈ deltas, 0 ≤ dt)
    (hT : data.speed * (deltas.sum / 1000) < s.totalLength) :
    ∀ k, (PathAnimator.tickAll data s (deltas.take k)).currentDistance =
          data.speed * ((deltas.take k).sum / 1000) ∧
        (PathAnimator.tickAll data s (deltas.take k)).currentDistance < s.totalLength ∧
        (PathAnimator.tickAll data s (deltas.take k)).isPlaying = true := by
  intro k
  have hle : data.speed * ((deltas.take k).sum / 1000) ≤ data.speed * (deltas.sum / 1000) := by
    apply mul_le_mul_of_nonneg_left _ hS
    exact div_le_div_of_nonneg_right (sum_take_le hpos k) (by norm_num)
  have h := PathAnimator.tickAll_advance data s curve (deltas.take k) hc hp hS
    (fun dt hdt => hpos dt (List.mem_of_mem_take hdt)) (by rw [h0]; linarith)
  rw [h0, zero_add] at h
  refine ⟨h.1, ?_, h.2.1⟩
  rw [h.1]
  linarith

/-- C18, on the curve of length 1 with speed 0.2 and ticks of 1000, 2000 and
1500 ms: after 4.5 s the distance is 0.9 and the animator is playing. -/
theorem animator_before_end_witness :
    (PathAnimator.tickAll ⟨1 / 5, false⟩ axisAnimator [1000, 2000, 1500]).currentDistance
        = 9 / 10 ∧
      (PathAnimator.tickAll ⟨1 / 5, false⟩ axisAnimator [1000, 2000, 1500]).isPlaying = true := by
  have h := animator_before_end ⟨1 / 5, false⟩ axisAnimator axisCurve [1000, 2000, 1500]
    rfl rfl rfl (by norm_num)
    (by
      intro dt hdt
      simp only [List.mem_cons, List.mem_singleton, List.mem_nil_iff, or_false] at hdt
      rcases hdt with h | h | h <;> rw [h] <;> norm_num)
    (by norm_num [axisAnimator]) 3
  simp only [List.take] at h
  refine ⟨?_, h.2.2⟩
  rw [h.1]
  norm_num
/-! ## The sampling loop of `play`: lemmas -/

theorem PathAnimator.milli_nearest :
    2 ^ 52 ≤ PathAnimator.milli ∧ PathAnimator.milli < 2 ^ 53 ∧
      |PathAnimator.tValue PathAnimator.milli - 1 / 1000| ≤ 1 / 2 ^ 63 := by
  refine ⟨by decide, by decide, ?_⟩
  rw [abs_le]
  constructor <;> norm_num [PathAnimator.tValue, PathAnimator.milli]

theorem PathAnimator.dropBits_spec (fuel : ℕ) :
    ∀ n : ℕ, n ≤ fuel →
      n / 2 ^ PathAnimator.dropBits fuel n < 2 ^ 53 ∧
        (PathAnimator.dropBits fuel n ≠ 0 → 2 ^ 52 ≤ n / 2 ^ PathAnimator.dropBits fuel n) := by
  induction fuel with
  | zero =>
    intro n hn
    have : n = 0 := by omega
    subst this
    simp [PathAnimator.dropBits]
  | succ fuel ih =>
    intro n hn
    unfold PathAnimator.dropBits
    by_cases h : n < 2 ^ 53
    · rw [if_pos h]
      simpa using h
    · rw [if_neg h]
      have h53 : (2 : ℕ) ^ 53 = 2 * 2 ^ 52 := by norm_num
      have hhalf : n / 2 ≤ fuel := by omega
      obtain ⟨i1, i2⟩ := ih (n / 2) hhalf
      have hdiv : n / 2 ^ (PathAnimator.dropBits fuel (n / 2) + 1) =
          n / 2 / 2 ^ PathAnimator.dropBits fuel (n / 2) := by
        rw [pow_succ', Nat.div_div_eq_div_mul]
      rw [hdiv]
      refine ⟨i1, fun _ => ?_⟩
      by_cases hd : PathAnimator.dropBits fuel (n / 2) = 0
      · rw [hd]
        simp only [pow_zero, Nat.div_one]
        omega
      · exact i2 hd

/-- The rounding keeps a number of at most 53 significant digits, and
otherwise returns a multiple of the unit in the last of 53 significant
digits, at most half of that unit away. -/
theorem PathAnimator.roundDouble_near (n : ℕ) :
    (n < 2 ^ 53 → PathAnimator.roundDouble n = n) ∧
      2 ^ PathAnimator.dropBits n n ∣ PathAnimator.roundDouble n ∧
      n / 2 ^ PathAnimator.dropBits n n < 2 ^ 53 ∧
      2 * PathAnimator.roundDouble n ≤ 2 * n + 2 ^ PathAnimator.dropBits n n ∧
      2 * n ≤ 2 * PathAnimator.roundDouble n + 2 ^ PathAnimator.dropBits n n := by
  have hspec := (PathAnimator.dropBits_spec n n le_rfl).1
  refine ⟨?_, ?_, hspec, ?_⟩
  · intro h
    have h0 : PathAnimator.dropBits n n = 0 := by
      cases n with
      | zero => rfl
      | succ k =>
        unfold PathAnimator.dropBits
        rw [if_pos h]
    simp [PathAnimator.roundDouble, h0]
  · unfold PathAnimator.roundDouble
    dsimp only
    split_ifs with h0
    · rw [h0]
      simp
    all_goals exact Dvd.intro_left _ rfl
  · unfold PathAnimator.roundDouble
    dsimp only
    by_cases h0 : PathAnimator.dropBits n n = 0
    · rw [if_pos h0, h0]
      simp
    · rw [if_neg h0]
      generalize PathAnimator.dropBits n n = sh at h0
      obtain ⟨d, rfl⟩ : ∃ d, sh = d + 1 := ⟨sh - 1, by omega⟩
      have hP : (2 : ℕ) ^ (d + 1) = 2 * 2 ^ d := by rw [pow_succ']
      have hdm := Nat.div_add_mod n (2 ^ (d + 1))
      have hr := Nat.mod_lt n (show 0 < 2 ^ (d + 1) by positivity)
      simp only [Nat.add_sub_cancel]
      generalize n / 2 ^ (d + 1) = q at hdm ⊢
      generalize n % 2 ^ (d + 1) = r at hdm hr ⊢
      rw [hP] at hdm hr ⊢
      generalize (2 : ℕ) ^ d = H at hdm hr ⊢
      have e1 : (q + 1) * (2 * H) = 2 * H * q + 2 * H := by ring
      have e2 : q * (2 * H) = 2 * H * q := by ring
      split_ifs <;> (first | rw [e1] | rw [e2]) <;> constructor <;> omega

theorem PathAnimator.sampleLoop_eq (curve : Curve) (pos : Vector3) (fuel : ℕ) :
    ∀ (t : ℕ) (acc : Closest), PathAnimator.exitsWithin fuel t = true →
      PathAnimator.sampleLoop curve pos fuel t acc =
        some (((PathAnimator.ticksFrom fuel t).map PathAnimator.tValue).foldl
          (PathAnimator.sampleStep curve pos) acc) := by
  induction fuel with
  | zero =>
    intro t acc h
    simp [PathAnimator.exitsWithin] at h
  | succ fuel ih =>
    intro t acc h
    unfold PathAnimator.exitsWithin at h
    unfold PathAnimator.sampleLoop PathAnimator.ticksFrom
    by_cases ht : t ≤ 2 ^ 62
    · rw [if_pos ht] at h
      rw [if_pos ht, if_pos ht, ih _ _ h]
      rfl
    · rw [if_neg ht, if_neg ht]
      rfl

theorem PathAnimator.exitsWithin_more (fuel : ℕ) :
    ∀ (t k : ℕ), PathAnimator.exitsWithin fuel t = true →
      PathAnimator.exitsWithin (fuel + k) t = true ∧
        PathAnimator.ticksFrom (fuel + k) t = PathAnimator.ticksFrom fuel t := by
  induction fuel with
  | zero =>
    intro t k h
    simp [PathAnimator.exitsWithin] at h
  | succ fuel ih =>
    intro t k h
    have hk : fuel + 1 + k = (fuel + k) + 1 := by omega
    rw [hk]
    unfold PathAnimator.exitsWithin at h ⊢
    unfold PathAnimator.ticksFrom
    by_cases ht : t ≤ 2 ^ 62
    · rw [if_pos ht] at h
      rw [if_pos ht, if_pos ht, if_pos ht]
      obtain ⟨i1, i2⟩ := ih (PathAnimator.nextT t) k h
      exact ⟨i1, by rw [i2]⟩
    · rw [if_neg ht, if_neg ht, if_neg ht]
      exact ⟨rfl, rfl⟩

set_option maxRecDepth 100000 in
theorem PathAnimator.exits_1001 : PathAnimator.exitsWithin 1001 0 = true := by decide

set_option maxRecDepth 100000 in
theorem PathAnimator.ticks_length : (PathAnimator.ticksFrom 1001 0).length = 1000 := by decide

set_option maxRecDepth 100000 in
theorem PathAnimator.ticks_increasing :
    PathAnimator.increasing (PathAnimator.ticksFrom 1001 0) = true := by decide

set_option maxRecDepth 100000 in
theorem PathAnimator.ticks_below_one :
    (PathAnimator.ticksFrom 1001 0).all (fun t => decide (t < 2 ^ 62)) = true := by decide

set_option maxRecDepth 100000 in
theorem PathAnimator.ticks_last :
    (PathAnimator.ticksFrom 1001 0).getLast? = some lastTick := by decide

theorem PathAnimator.sampleStep_best (curve : Curve) (pos : Vector3) (ts : List ℚ) (t : ℚ)
    (acc : Closest) (h : BestAmong curve pos ts acc) :
    BestAmong curve pos (ts ++ [t]) (PathAnimator.sampleStep curve pos acc t) := by
  have hlast : (ts ++ [t]).getD ts.length 0 = t := by
    simp [List.getD_eq_getElem?_getD]
  have hpre : ∀ j : ℕ, j < ts.length → (ts ++ [t]).getD j 0 = ts.getD j 0 := by
    intro j hj
    simp [List.getD_eq_getElem?_getD, List.getElem?_append_left hj]
  have hlen : (ts ++ [t]).length = ts.length + 1 := by simp
  rcases h with ⟨hi, hacc⟩ | ⟨k, hk, hacc, hmin, hfirst⟩
  · subst hi hacc
    right
    refine ⟨0, by simp, ?_, ?_, ?_⟩
    · simp [PathAnimator.sampleStep, Vector3.clone_eq]
    · intro j hj
      have : j = 0 := by simpa using hj
      subst this
      exact le_refl _
    · intro j hj
      omega
  · subst hacc
    right
    by_cases hlt : Vector3.distanceToSquared pos (curve.getPointAt t) <
        Vector3.distanceToSquared pos (curve.getPointAt (ts.getD k 0))
    · refine ⟨ts.length, by omega, ?_, ?_, ?_⟩
      · rw [hlast]
        simp only [PathAnimator.sampleStep, if_pos hlt, Vector3.clone_eq]
      · intro j hj
        rw [hlast]
        rcases Nat.lt_succ_iff_lt_or_eq.mp (hlen ▸ hj) with h | h
        · rw [hpre j h]
          exact le_trans hlt.le (hmin j h)
        · subst h
          rw [hlast]
      · intro j hj
        rw [hlast, hpre j hj]
        exact lt_of_lt_of_le hlt (hmin j hj)
    · refine ⟨k, by omega, ?_, ?_, ?_⟩
      · rw [hpre k hk]
        simp only [PathAnimator.sampleStep, if_neg hlt]
      · intro j hj
        rw [hpre k hk]
        rcases Nat.lt_succ_iff_lt_or_eq.mp (hlen ▸ hj) with h | h
        · rw [hpre j h]
          exact hmin j h
        · subst h
          rw [hlast]
          exact not_lt.mp hlt
      · intro j hj
        rw [hpre k hk, hpre j (lt_trans hj hk)]
        exact hfirst j hj

theorem PathAnimator.foldl_best (curve : Curve) (pos : Vector3) (ts : List ℚ) :
    ∀ (pre : List ℚ) (acc : Closest), BestAmong curve pos pre acc →
      BestAmong curve pos (pre ++ ts) (ts.foldl (PathAnimator.sampleStep curve pos) acc) := by
  induction ts with
  | nil =>
    intro pre acc h
    simpa using h
  | cons t rest ih =>
    intro pre acc h
    have := ih (pre ++ [t]) _ (PathAnimator.sampleStep_best curve pos pre t acc h)
    simpa using this

theorem PathAnimator.sampleTimes_length : PathAnimator.sampleTimes.length = 1000 := by
  simp [PathAnimator.sampleTimes, PathAnimator.ticks_length]

/-- What `play` does: with at least 1001 tests of `t <= 1` the sampling loop
ends, after the 1000 parameters of `sampleTimes`; `play` selects the first of
them at which the distance between the marker and `getPointAt(t)` is least,
snaps the marker to that point, sets `currentDistance` to that `t` times
`totalLength` and `isPlaying` to true.  Without a curve `play` changes
nothing. -/
theorem PathAnimator.play_first_minimum (fuel : ℕ) (s : PathAnimator) (hf : 1001 ≤ fuel) :
    (s.curve = none → PathAnimator.play fuel s = some s) ∧
    (∀ curve, s.curve = some curve →
      ∃ k : ℕ, k < 1000 ∧
        (∀ j : ℕ, j < 1000 →
          Vector3.distanceToSquared s.position
              (curve.getPointAt (PathAnimator.sampleTimes.getD k 0)) ≤
            Vector3.distanceToSquared s.position
              (curve.getPointAt (PathAnimator.sampleTimes.getD j 0))) ∧
        (∀ j : ℕ, j < k →
          Vector3.distanceToSquared s.position
              (curve.getPointAt (PathAnimator.sampleTimes.getD k 0)) <
            Vector3.distanceToSquared s.position
              (curve.getPointAt (PathAnimator.sampleTimes.getD j 0))) ∧
        PathAnimator.play fuel s =
          some { s with
            currentDistance := PathAnimator.sampleTimes.getD k 0 * s.totalLength
            isPlaying := true
            position := curve.getPointAt (PathAnimator.sampleTimes.getD k 0) }) := by
  constructor
  · intro hc
    unfold PathAnimator.play
    rw [hc]
  · intro curve hc
    obtain ⟨d, rfl⟩ : ∃ d, fuel = 1001 + d := ⟨fuel - 1001, by omega⟩
    obtain ⟨e1, e2⟩ := PathAnimator.exitsWithin_more 1001 0 d PathAnimator.exits_1001
    have hloop := PathAnimator.sampleLoop_eq curve s.position (1001 + d) 0 ⟨none, 0, none⟩ e1
    rw [e2] at hloop
    have hbest := PathAnimator.foldl_best curve s.position PathAnimator.sampleTimes []
      ⟨none, 0, none⟩ (Or.inl ⟨rfl, rfl⟩)
    rw [List.nil_append] at hbest
    have hplay : PathAnimator.play (1001 + d) s =
        some (PathAnimator.snapTo s
          (PathAnimator.sampleTimes.foldl (PathAnimator.sampleStep curve s.position)
            ⟨none, 0, none⟩)) := by
      unfold PathAnimator.play
      rw [hc]
      dsimp only
      rw [Vector3.clone_eq, hloop]
      rfl
    rcases hbest with ⟨h0, _⟩ | ⟨k, hk, hacc, hmin, hfirst⟩
    · have := PathAnimator.sampleTimes_length
      rw [h0] at this
      simp at this
    · rw [PathAnimator.sampleTimes_length] at hk hmin
      refine ⟨k, hk, hmin, hfirst, ?_⟩
      rw [hplay, hacc]
      rfl

theorem PathAnimator.tValue_lt_one (t : ℕ) : PathAnimator.tValue t < 1 ↔ t < 2 ^ 62 := by
  unfold PathAnimator.tValue
  rw [div_lt_one (by positivity)]
  exact_mod_cast Iff.rfl

theorem PathAnimator.tValue_lt (a b : ℕ) (h : a < b) :
    PathAnimator.tValue a < PathAnimator.tValue b := by
  unfold PathAnimator.tValue
  apply div_lt_div_of_pos_right _ (by positivity)
  exact_mod_cast h

/-- On `axisCurve`, for the marker of `endAnimator`, a sample further along
the curve and below the end is strictly closer, and takes the running
minimum. -/
theorem entryAt_step (a b : ℕ) (hab : a < b) (hb : b < 2 ^ 62) :
    PathAnimator.sampleStep axisCurve ⟨1, 3 / 10, 0⟩ (entryAt a) (PathAnimator.tValue b) =
      entryAt b := by
  have h1 := PathAnimator.tValue_lt a b hab
  have h2 := (PathAnimator.tValue_lt_one b).mpr hb
  have hlt : Vector3.distanceToSquared ⟨1, 3 / 10, 0⟩
        (axisCurve.getPointAt (PathAnimator.tValue b)) <
      Vector3.distanceToSquared ⟨1, 3 / 10, 0⟩
        (axisCurve.getPointAt (PathAnimator.tValue a)) := by
    simp only [axisCurve, Vector3.distanceToSquared]
    nlinarith
  simp only [PathAnimator.sampleStep, entryAt, if_pos hlt, Vector3.clone_eq]

theorem foldl_entryAt (ts : List ℕ) :
    ∀ a : ℕ, PathAnimator.increasing (a :: ts) = true →
      (∀ t ∈ ts, t < 2 ^ 62) →
      (ts.map PathAnimator.tValue).foldl (PathAnimator.sampleStep axisCurve ⟨1, 3 / 10, 0⟩)
          (entryAt a) = entryAt (ts.getLast?.getD a) := by
  induction ts with
  | nil => intro a _ _; rfl
  | cons b rest ih =>
    intro a hinc hall
    simp only [PathAnimator.increasing, Bool.and_eq_true, decide_eq_true_eq] at hinc
    rw [List.map_cons, List.foldl_cons,
      entryAt_step a b hinc.1 (hall b (List.mem_cons_self _ _)),
      ih b hinc.2 (fun t ht => hall t (List.mem_cons_of_mem _ ht)), List.getLast?_cons]
    rfl

theorem PathAnimator.ticks_cons :
    PathAnimator.ticksFrom 1001 0 =
      0 :: PathAnimator.ticksFrom 1000 (PathAnimator.nextT 0) := by
  rw [show (1001 : ℕ) = 1000 + 1 from rfl, PathAnimator.ticksFrom, if_pos (Nat.zero_le _)]

/-! ## The sampling loop of `play`: properties -/

/-- C19 fails at the end of a curve: the loop variable of `play` is a double
to which `0.001` is added, the loop runs its body 1000 times, every sampled
parameter is below 1 and the last one is `0.9990000000000008`.  On the curve
along the x axis with the marker at `(1, 0.3, 0)`, `play` selects that last
parameter and snaps the marker to it, although the point at `t = 1` is
strictly closer to the marker. -/
theorem play_misses_end :
    PathAnimator.sampleTimes.length = 1000 ∧
      (∀ t ∈ PathAnimator.sampleTimes, t < 1) ∧
      PathAnimator.sampleTimes.getLast? = some (PathAnimator.tValue lastTick) ∧
      (999 / 1000 < PathAnimator.tValue lastTick ∧
        PathAnimator.tValue lastTick < 999 / 1000 + 1 / 10 ^ 15) ∧
      (∀ fuel : ℕ, 1001 ≤ fuel →
        PathAnimator.play fuel endAnimator =
          some { endAnimator with
            currentDistance := PathAnimator.tValue lastTick * endAnimator.totalLength
            isPlaying := true
            position := axisCurve.getPointAt (PathAnimator.tValue lastTick) }) ∧
      Vector3.distanceToSquared endAnimator.position (axisCurve.getPointAt 1) <
        Vector3.distanceToSquared endAnimator.position
          (axisCurve.getPointAt (PathAnimator.tValue lastTick)) := by
  have hall : ∀ t ∈ PathAnimator.ticksFrom 1001 0, t < 2 ^ 62 := by
    have h := PathAnimator.ticks_below_one
    rw [List.all_eq_true] at h
    intro t ht
    simpa using h t ht
  have hlast : (PathAnimator.ticksFrom 1000 (PathAnimator.nextT 0)).getLast?.getD 0 =
      lastTick := by
    have h := PathAnimator.ticks_last
    rw [PathAnimator.ticks_cons, List.getLast?_cons] at h
    exact Option.some.inj h
  refine ⟨PathAnimator.sampleTimes_length, ?_, ?_, ?_, ?_, ?_⟩
  · intro t ht
    simp only [PathAnimator.sampleTimes, List.mem_map] at ht
    obtain ⟨n, hn, rfl⟩ := ht
    exact (PathAnimator.tValue_lt_one n).mpr (hall n hn)
  · rw [PathAnimator.sampleTimes, List.getLast?_map, PathAnimator.ticks_last]
    rfl
  · constructor <;> norm_num [PathAnimator.tValue, lastTick]
  · intro fuel hf
    obtain ⟨d, rfl⟩ : ∃ d, fuel = 1001 + d := ⟨fuel - 1001, by omega⟩
    obtain ⟨e1, e2⟩ := PathAnimator.exitsWithin_more 1001 0 d PathAnimator.exits_1001
    have hloop := PathAnimator.sampleLoop_eq axisCurve ⟨1, 3 / 10, 0⟩ (1001 + d) 0
      ⟨none, 0, none⟩ e1
    have hinc := PathAnimator.ticks_increasing
    rw [PathAnimator.ticks_cons] at hinc hall
    have hfirst : PathAnimator.sampleStep axisCurve ⟨1, 3 / 10, 0⟩ ⟨none, 0, none⟩
        (PathAnimator.tValue 0) = entryAt 0 := by
      simp only [PathAnimator.sampleStep, entryAt, Vector3.clone_eq]
    rw [e2, PathAnimator.ticks_cons, List.map_cons, List.foldl_cons, hfirst,
      foldl_entryAt _ 0 hinc (fun t ht => hall t (List.mem_cons_of_mem _ ht)), hlast] at hloop
    have hplay : PathAnimator.play (1001 + d) endAnimator =
        (PathAnimator.sampleLoop axisCurve ⟨1, 3 / 10, 0⟩ (1001 + d) 0 ⟨none, 0, none⟩).map
          (PathAnimator.snapTo endAnimator) := rfl
    rw [hplay, hloop]
    rfl
  · have h2 : PathAnimator.tValue lastTick < 1 :=
      (PathAnimator.tValue_lt_one lastTick).mpr (by decide)
    simp only [endAnimator, axisCurve, Vector3.distanceToSquared]
    generalize PathAnimator.tValue lastTick = x at h2
    clear hall hlast
    nlinarith

/-! ## The line intersection: lemmas -/

theorem getLineIntersection_eq (x1 y1 x2 y2 x3 y3 x4 y4 : ℚ) :
    getLineIntersection x1 y1 x2 y2 x3 y3 x4 y4 =
      if |crossDenom x1 y1 x2 y2 x3 y3 x4 y4| < 1 / 10000 then none
      else if 0 ≤ paramT x1 y1 x2 y2 x3 y3 x4 y4 ∧ paramT x1 y1 x2 y2 x3 y3 x4 y4 ≤ 1 ∧
          0 ≤ paramU x1 y1 x2 y2 x3 y3 x4 y4 ∧ paramU x1 y1 x2 y2 x3 y3 x4 y4 ≤ 1 then
        some ⟨x1 + paramT x1 y1 x2 y2 x3 y3 x4 y4 * (x2 - x1),
          y1 + paramT x1 y1 x2 y2 x3 y3 x4 y4 * (y2 - y1)⟩
      else none := rfl

theorem crossDenom_swap (x1 y1 x2 y2 x3 y3 x4 y4 : ℚ) :
    crossDenom x3 y3 x4 y4 x1 y1 x2 y2 = - crossDenom x1 y1 x2 y2 x3 y3 x4 y4 := by
  unfold crossDenom
  ring

theorem paramT_swap (x1 y1 x2 y2 x3 y3 x4 y4 : ℚ) :
    paramT x3 y3 x4 y4 x1 y1 x2 y2 = paramU x1 y1 x2 y2 x3 y3 x4 y4 := by
  unfold paramT paramU
  rw [crossDenom_swap, div_neg, ← neg_div]
  congr 1
  ring

theorem paramU_swap (x1 y1 x2 y2 x3 y3 x4 y4 : ℚ) :
    paramU x3 y3 x4 y4 x1 y1 x2 y2 = paramT x1 y1 x2 y2 x3 y3 x4 y4 := by
  unfold paramT paramU
  rw [crossDenom_swap, div_neg, ← neg_div]
  congr 1
  ring

/-- Whether `getLineIntersection` returns a point does not depend on the
order of the two segments. -/
theorem getLineIntersection_swap_ne_none (x1 y1 x2 y2 x3 y3 x4 y4 : ℚ) :
    getLineIntersection x3 y3 x4 y4 x1 y1 x2 y2 ≠ none ↔
      getLineIntersection x1 y1 x2 y2 x3 y3 x4 y4 ≠ none := by
  have h1 := getLineIntersection_eq x3 y3 x4 y4 x1 y1 x2 y2
  rw [crossDenom_swap x1 y1 x2 y2 x3 y3 x4 y4, abs_neg, paramT_swap x1 y1 x2 y2 x3 y3 x4 y4,
    paramU_swap x1 y1 x2 y2 x3 y3 x4 y4] at h1
  rw [h1, getLineIntersection_eq x1 y1 x2 y2 x3 y3 x4 y4]
  split_ifs with hd h3 h4 h4 <;> tauto

theorem Qualifies.swapped {pts : List Vector3} {i j : ℕ} (h : Qualifies pts i j) :
    Qualifies pts j i := by
  obtain ⟨hseg, hy⟩ := h
  refine ⟨?_, ?_⟩
  · unfold segmentIntersection at hseg ⊢
    exact (getLineIntersection_swap_ne_none _ _ _ _ _ _ _ _).mpr hseg
  · rw [abs_sub_comm]; exact hy

theorem Visited.flipped {pts : List Vector3} {i j : ℕ} (h : Visited pts i j) :
    Visited pts j i := by
  obtain ⟨hi, hj, hadj⟩ := h
  refine ⟨hj, hi, ?_⟩
  rw [abs_sub_comm]; exact hadj

/-- The absolute value of the denominator is below the parallel threshold
when the squares of both projected lengths are below it. -/
theorem crossDenom_small (x1 y1 x2 y2 x3 y3 x4 y4 : ℚ)
    (h1 : (x2 - x1) * (x2 - x1) + (y2 - y1) * (y2 - y1) < 1 / 10000)
    (h2 : (x4 - x3) * (x4 - x3) + (y4 - y3) * (y4 - y3) < 1 / 10000) :
    |crossDenom x1 y1 x2 y2 x3 y3 x4 y4| < 1 / 10000 := by
  have hlag : crossDenom x1 y1 x2 y2 x3 y3 x4 y4 * crossDenom x1 y1 x2 y2 x3 y3 x4 y4 ≤
      ((x2 - x1) * (x2 - x1) + (y2 - y1) * (y2 - y1)) *
        ((x4 - x3) * (x4 - x3) + (y4 - y3) * (y4 - y3)) := by
    unfold crossDenom
    nlinarith [mul_self_nonneg ((x2 - x1) * (x4 - x3) + (y2 - y1) * (y4 - y3))]
  have ha : 0 ≤ (x2 - x1) * (x2 - x1) + (y2 - y1) * (y2 - y1) :=
    add_nonneg (mul_self_nonneg _) (mul_self_nonneg _)
  have hb : 0 ≤ (x4 - x3) * (x4 - x3) + (y4 - y3) * (y4 - y3) :=
    add_nonneg (mul_self_nonneg _) (mul_self_nonneg _)
  have hprod : ((x2 - x1) * (x2 - x1) + (y2 - y1) * (y2 - y1)) *
      ((x4 - x3) * (x4 - x3) + (y4 - y3) * (y4 - y3)) < 1 / 10000 * (1 / 10000) := by
    nlinarith
  have hsq : crossDenom x1 y1 x2 y2 x3 y3 x4 y4 * crossDenom x1 y1 x2 y2 x3 y3 x4 y4
      < 1 / 10000 * (1 / 10000) := lt_of_le_of_lt hlag hprod
  rw [abs_lt]
  constructor <;> nlinarith
/-! ## The line intersection: properties -/

/-- C27: `getLineIntersection` returns null whenever the absolute value of
the denominator is below 0.0001; otherwise it returns a point if and only if
the parameters `t` and `u` both lie in `[0, 1]`, and the returned point
`(x1 + t dx1, y1 + t dy1)` lies on both segments: it is also
`(x3 + u dx2, y3 + u dy2)`. -/
theorem getLineIntersection_spec (x1 y1 x2 y2 x3 y3 x4 y4 : ℚ) :
    (|crossDenom x1 y1 x2 y2 x3 y3 x4 y4| < 1 / 10000 →
      getLineIntersection x1 y1 x2 y2 x3 y3 x4 y4 = none) ∧
    (¬ |crossDenom x1 y1 x2 y2 x3 y3 x4 y4| < 1 / 10000 →
      (getLineIntersection x1 y1 x2 y2 x3 y3 x4 y4 ≠ none ↔
        (0 ≤ paramT x1 y1 x2 y2 x3 y3 x4 y4 ∧ paramT x1 y1 x2 y2 x3 y3 x4 y4 ≤ 1 ∧
          0 ≤ paramU x1 y1 x2 y2 x3 y3 x4 y4 ∧ paramU x1 y1 x2 y2 x3 y3 x4 y4 ≤ 1)) ∧
      ∀ p, getLineIntersection x1 y1 x2 y2 x3 y3 x4 y4 = some p →
        p.x = x1 + paramT x1 y1 x2 y2 x3 y3 x4 y4 * (x2 - x1) ∧
        p.z = y1 + paramT x1 y1 x2 y2 x3 y3 x4 y4 * (y2 - y1) ∧
        p.x = x3 + paramU x1 y1 x2 y2 x3 y3 x4 y4 * (x4 - x3) ∧
        p.z = y3 + paramU x1 y1 x2 y2 x3 y3 x4 y4 * (y4 - y3)) := by
  rw [getLineIntersection_eq]
  constructor
  · intro hd
    rw [if_pos hd]
  · intro hd
    rw [if_neg hd]
    have hne : crossDenom x1 y1 x2 y2 x3 y3 x4 y4 ≠ 0 := by
      intro h0
      apply hd
      rw [h0]
      norm_num
    constructor
    · split_ifs with h <;> simp [h]
    · intro p hp
      split_ifs at hp with h
      have hp' : p = ⟨x1 + paramT x1 y1 x2 y2 x3 y3 x4 y4 * (x2 - x1),
          y1 + paramT x1 y1 x2 y2 x3 y3 x4 y4 * (y2 - y1)⟩ := by
        simpa using hp.symm
      subst hp'
      refine ⟨rfl, rfl, ?_, ?_⟩
      · show x1 + paramT x1 y1 x2 y2 x3 y3 x4 y4 * (x2 - x1) =
          x3 + paramU x1 y1 x2 y2 x3 y3 x4 y4 * (x4 - x3)
        unfold paramT paramU
        unfold crossDenom at hne ⊢
        field_simp
        ring
      · show y1 + paramT x1 y1 x2 y2 x3 y3 x4 y4 * (y2 - y1) =
          y3 + paramU x1 y1 x2 y2 x3 y3 x4 y4 * (y4 - y3)
        unfold paramT paramU
        unfold crossDenom at hne ⊢
        field_simp
        ring

/-- C27, at the two diagonals of the unit square, which cross at their
midpoints, and at two parallel segments. -/
theorem getLineIntersection_spec_witness :
    getLineIntersection 0 0 1 1 0 1 1 0 = some ⟨1 / 2, 1 / 2⟩ ∧
      paramT 0 0 1 1 0 1 1 0 = 1 / 2 ∧ paramU 0 0 1 1 0 1 1 0 = 1 / 2 ∧
      getLineIntersection 0 0 1 0 0 1 1 1 = none := by
  have ht : paramT 0 0 1 1 0 1 1 0 = 1 / 2 := by norm_num [paramT, crossDenom]
  have hu : paramU 0 0 1 1 0 1 1 0 = 1 / 2 := by norm_num [paramU, crossDenom]
  have hd : ¬ |crossDenom 0 0 1 1 0 1 1 0| < 1 / 10000 := by
    norm_num [crossDenom, abs_lt]
  have h := (getLineIntersection_spec 0 0 1 1 0 1 1 0).2 hd
  have hsome : getLineIntersection 0 0 1 1 0 1 1 0 ≠ none :=
    h.1.mpr (by rw [ht, hu]; norm_num)
  refine ⟨?_, ht, hu, (getLineIntersection_spec 0 0 1 0 0 1 1 1).1
    (by norm_num [crossDenom])⟩
  cases hres : getLineIntersection 0 0 1 1 0 1 1 0 with
  | none => exact absurd hres hsome
  | some p =>
    obtain ⟨hx, hz, _, _⟩ := h.2 p hres
    rw [ht] at hx hz
    obtain ⟨px, pz⟩ := p
    simp only at hx hz
    rw [hx, hz]
    norm_num

/-- C28: whenever the nested loops of `checkSelfIntersection` return a
result for a polyline of `n` points, the pair `(i, j)` that produced it has
`i < j` (the tests are symmetric in the two segments, so `(j, i)` would have
been found first), the returned index is `i + 1`, and `1 ≤ index ≤ n - 3`;
that result is the result of `checkSelfIntersection`. -/
theorem crossing_index (pts : List Vector3) (r : Intersection)
    (h : segmentScan pts = some r) :
    checkSelfIntersection pts = some r ∧
    ∃ i j p, Visited pts i j ∧ i < j ∧ segmentIntersection pts i j = some p ∧
      pairCheck pts i j = some r ∧
      (∀ i' j', Visited pts i' j' → Before i' j' i j → ¬ Qualifies pts i' j') ∧
      r = crossingResult pts i j p ∧ r.index = i + 1 ∧
      1 ≤ r.index ∧ r.index + 3 ≤ pts.length := by
  obtain ⟨i, j, p, hv, hseg, hy, hfirst, hr⟩ := segmentScan_some_first pts r h
  have hq : Qualifies pts i j := ⟨by rw [hseg]; simp, hy⟩
  have hlen : 4 ≤ pts.length := hv.length_ge
  have hij : i < j := by
    by_contra hnot
    have hne : i ≠ j := by
      rintro rfl
      have := hv.2.2
      simp at this
    have hji : j < i := by omega
    exact hfirst j i hv.flipped (Or.inl hji) hq.swapped
  have hpair : pairCheck pts i j = some r :=
    (pairCheck_eq_some_iff pts i j r).mpr ⟨hv.2.2, p, hseg, hy, hr⟩
  have hidx : r.index = i + 1 := by
    rw [hr]
    simp [crossingResult, Nat.min_eq_left hij.le]
  refine ⟨?_, i, j, p, hv, hij, hseg, hpair, hfirst, hr, hidx, by omega, ?_⟩
  · unfold checkSelfIntersection
    rw [if_neg (by omega), h]
  · obtain ⟨_, hj, hadj⟩ := hv
    have : (i : ℤ) + 2 ≤ j := by
      rcases abs_cases ((i : ℤ) - (j : ℤ)) with ⟨h1, _⟩ | ⟨h1, _⟩ <;> omega
    omega

/-- C28, at the X-shape: the crossing comes from the pair `(0, 2)` and has
index 1. -/
theorem crossing_index_witness :
    checkSelfIntersection xShape = some ⟨⟨1 / 2, 0, 1 / 2⟩, 1⟩ ∧
    ∃ i j p, Visited xShape i j ∧ i < j ∧ segmentIntersection xShape i j = some p ∧
      pairCheck xShape i j = some ⟨⟨1 / 2, 0, 1 / 2⟩, 1⟩ ∧
      (∀ i' j', Visited xShape i' j' → Before i' j' i j → ¬ Qualifies xShape i' j') ∧
      (⟨⟨1 / 2, 0, 1 / 2⟩, 1⟩ : Intersection) = crossingResult xShape i j p ∧
      (⟨⟨1 / 2, 0, 1 / 2⟩, 1⟩ : Intersection).index = i + 1 ∧
      1 ≤ (⟨⟨1 / 2, 0, 1 / 2⟩, 1⟩ : Intersection).index ∧
      (⟨⟨1 / 2, 0, 1 / 2⟩, 1⟩ : Intersection).index + 3 ≤ xShape.length :=
  crossing_index xShape ⟨⟨1 / 2, 0, 1 / 2⟩, 1⟩ (by
    simp [xShape, segmentScan, innerLoop, List.range_succ, List.findSome?, pairCheck,
      segmentIntersection, getLineIntersection, pointAt, avgY]
    norm_num [abs_lt])

/-- C29: on a polyline all of whose segments have a projected length below
0.01 (the square of the length is below 0.0001), `getLineIntersection`
returns null for every pair of segments, the nested loops return nothing, and
`checkSelfIntersection` is null or the start/end result: the first point with
index 0, for more than 10 points with the first and the last less than 0.15
apart. -/
theorem short_segments_no_crossing (pts : List Vector3)
    (hshort : ∀ i, i + 1 < pts.length → projLengthSq pts i < 1 / 10000) :
    (∀ i j, i + 1 < pts.length → j + 1 < pts.length → segmentIntersection pts i j = none) ∧
    segmentScan pts = none ∧
    (∀ r, checkSelfIntersection pts = some r →
      r = ⟨pointAt pts 0, 0⟩ ∧ 10 < pts.length ∧
        Vector3.distanceLt (pointAt pts 0) (pointAt pts (pts.length - 1)) (15 / 100)) := by
  have hnone : ∀ i j, i + 1 < pts.length → j + 1 < pts.length →
      segmentIntersection pts i j = none := by
    intro i j hi hj
    unfold segmentIntersection
    rw [getLineIntersection_eq, if_pos]
    exact crossDenom_small _ _ _ _ _ _ _ _ (hshort i hi) (hshort j hj)
  have hscan : segmentScan pts = none :=
    segmentScan_eq_none_of_no_pair pts (fun i j hv hq => hq.1 (hnone i j hv.1 hv.2.1))
  refine ⟨hnone, hscan, ?_⟩
  intro r hr
  unfold checkSelfIntersection closureCheck at hr
  rw [hscan] at hr
  by_cases h4 : pts.length < 4
  · rw [if_pos h4] at hr; cases hr
  · by_cases h10 : 10 < pts.length
    · by_cases hd : Vector3.distanceLt (pointAt pts 0) (pointAt pts (pts.length - 1)) (15 / 100)
      · simp only [h4, h10, hd, if_true, if_false, Option.some.injEq, Vector3.clone_eq] at hr
        exact ⟨hr.symm, h10, hd⟩
      · simp [h4, h10, hd] at hr
    · simp [h4, h10] at hr

/-- C29, at the X-shape of size 0.005: its segments 0 and 2 cross at their
midpoints at the same height, and the detector returns null. -/
theorem short_segments_no_crossing_witness :
    paramT 0 0 (1 / 200) (1 / 200) 0 (1 / 200) (1 / 200) 0 = 1 / 2 ∧
      paramU 0 0 (1 / 200) (1 / 200) 0 (1 / 200) (1 / 200) 0 = 1 / 2 ∧
      segmentIntersection tinyXShape 0 2 = none ∧
      checkSelfIntersection tinyXShape = none := by
  have hshort : ∀ i, i + 1 < tinyXShape.length → projLengthSq tinyXShape i < 1 / 10000 := by
    intro i hi
    simp only [tinyXShape, List.length_cons, List.length_nil] at hi
    have hi' : i < 3 := by omega
    interval_cases i <;> norm_num [projLengthSq, pointAt, tinyXShape]
  have h := short_segments_no_crossing tinyXShape hshort
  refine ⟨by norm_num [paramT, crossDenom], by norm_num [paramU, crossDenom],
    h.1 0 2 (by simp [tinyXShape]) (by simp [tinyXShape]), ?_⟩
  cases hres : checkSelfIntersection tinyXShape with
  | none => rfl
  | some r =>
    have := (h.2.2 r hres).2.1
    simp [tinyXShape] at this

/-! ## Grabbing a marker: lemmas -/

theorem Vector3.add_sub_cancel_pinch (p x : Vector3) :
    Vector3.add p (Vector3.sub x p) = x := by
  cases p; cases x
  simp [Vector3.add, Vector3.sub]

theorem XrTarget.onPinchMoved_grabbed (t : XrTarget) (evt : PinchDetail) :
    (XrTarget.onPinchMoved t evt).grabbed = t.grabbed ∧
      (XrTarget.onPinchMoved t evt).grabbingHand = t.grabbingHand ∧
      (XrTarget.onPinchMoved t evt).grabOffset = t.grabOffset := by
  unfold XrTarget.onPinchMoved
  split_ifs
  · exact ⟨rfl, rfl, rfl⟩
  · exact ⟨rfl, rfl, rfl⟩
  · cases evt.position <;> exact ⟨rfl, rfl, rfl⟩

theorem XrTarget.moves_grabbed (evts : List PinchDetail) (t : XrTarget) :
    (XrTarget.moves t evts).grabbed = t.grabbed ∧
      (XrTarget.moves t evts).grabbingHand = t.grabbingHand ∧
      (XrTarget.moves t evts).grabOffset = t.grabOffset := by
  induction evts generalizing t with
  | nil => exact ⟨rfl, rfl, rfl⟩
  | cons e es ih =>
    obtain ⟨h1, h2, h3⟩ := ih (XrTarget.onPinchMoved t e)
    obtain ⟨g1, g2, g3⟩ := XrTarget.onPinchMoved_grabbed t e
    exact ⟨h1.trans g1, h2.trans g2, h3.trans g3⟩

theorem XrTarget.moves_append (t : XrTarget) (es : List PinchDetail) (e : PinchDetail) :
    XrTarget.moves t (es ++ [e]) = XrTarget.onPinchMoved (XrTarget.moves t es) e := by
  simp [XrTarget.moves, List.foldl_append]

theorem XrTarget.onPinchMoved_same_hand (t : XrTarget) (h : Hand) (p : Vector3)
    (g : Option ℕ) (hg : t.grabbed = true) (hh : t.grabbingHand = some h) :
    (XrTarget.onPinchMoved t ⟨h, some p, g⟩).position = Vector3.add p t.grabOffset := by
  simp [XrTarget.onPinchMoved, hg, hh]

/-- What `onPinchStarted` leaves behind when it turns an ungrabbed entity
into a grabbed one. -/
theorem XrTarget.onPinchStarted_grab (scene : List XrTarget) (evt : PinchDetail)
    (self : XrTarget) (p0 : Vector3) (h0 : self.grabbed = false)
    (hp : evt.position = some p0)
    (hg : (XrTarget.onPinchStarted scene evt self).1.grabbed = true) :
    (XrTarget.onPinchStarted scene evt self).1.position = self.position ∧
      (XrTarget.onPinchStarted scene evt self).1.grabOffset = Vector3.sub self.position p0 ∧
      (XrTarget.onPinchStarted scene evt self).1.grabbingHand = some evt.hand ∧
      (XrTarget.onPinchStarted scene evt self).1.el = self.el := by
  unfold XrTarget.onPinchStarted at hg ⊢
  rw [if_neg (by simp [h0])] at hg ⊢
  by_cases h1 : evt.grabbedEntity.isSome = true
  · rw [if_pos h1] at hg
    simp [h0] at hg
  · rw [if_neg h1] at hg ⊢
    rw [hp] at hg ⊢
    dsimp only at hg ⊢
    by_cases h2 : Vector3.distanceLt self.position p0
        (if self.isMoving = true then self.data.movingGrabDistance else self.data.grabDistance)
    · rw [if_pos h2] at hg ⊢
      by_cases h3 : XrTarget.closestEntity scene p0 = some self.el
      · rw [if_pos h3]
        cases ha : self.animator <;> simp
      · rw [if_neg h3] at hg
        simp [h0] at hg
    · rw [if_neg h2] at hg
      simp [h0] at hg

/-! ## Grabbing a marker: properties -/

/-- C23: if a `pinchable-xr` target located at `x0` is grabbed by a
pinch-start at `p0`, it does not move at the grab, its offset is `x0 - p0`,
and after any pinch-move events followed by a pinch-move of the grabbing hand
at `p` its position is exactly `p + (x0 - p0)`; a move back to `p0` returns
it to `x0`. -/
theorem grabbed_follows_pinch (scene : List XrTarget) (evt : PinchDetail) (self : XrTarget)
    (p0 p : Vector3) (evts : List PinchDetail) (g : Option ℕ)
    (h0 : self.grabbed = false) (hp : evt.position = some p0)
    (hg : (XrTarget.onPinchStarted scene evt self).1.grabbed = true) :
    (XrTarget.onPinchStarted scene evt self).1.position = self.position ∧
      (XrTarget.onPinchStarted scene evt self).1.grabOffset = Vector3.sub self.position p0 ∧
      (XrTarget.moves (XrTarget.onPinchStarted scene evt self).1
          (evts ++ [⟨evt.hand, some p, g⟩])).position =
        Vector3.add p (Vector3.sub self.position p0) ∧
      (XrTarget.moves (XrTarget.onPinchStarted scene evt self).1
          (evts ++ [⟨evt.hand, some p0, g⟩])).position = self.position := by
  obtain ⟨h1, h2, h3, -⟩ := XrTarget.onPinchStarted_grab scene evt self p0 h0 hp hg
  obtain ⟨m1, m2, m3⟩ := XrTarget.moves_grabbed evts (XrTarget.onPinchStarted scene evt self).1
  have key : ∀ q : Vector3,
      (XrTarget.moves (XrTarget.onPinchStarted scene evt self).1
          (evts ++ [⟨evt.hand, some q, g⟩])).position =
        Vector3.add q (Vector3.sub self.position p0) := by
    intro q
    rw [XrTarget.moves_append,
      XrTarget.onPinchMoved_same_hand _ evt.hand q g (m1.trans hg) (m2.trans h3), m3, h2]
  refine ⟨h1, h2, key p, ?_⟩
  rw [key p0, Vector3.add_sub_cancel_pinch]

/-- C23, at a resting marker at `(0.05, 0, 0)` grabbed by the right hand at
the origin: after a move of the left hand and a move of the right hand to
`(1, 2, 3)` it is at `(1.05, 2, 3)`, and back at `(0.05, 0, 0)` after a move
back to the origin. -/
theorem grabbed_follows_pinch_witness :
    (XrTarget.moves
        (XrTarget.onPinchStarted [restingTarget 1 ⟨1 / 20, 0, 0⟩] pinchAtOrigin
          (restingTarget 1 ⟨1 / 20, 0, 0⟩)).1
        ([⟨Hand.left, some ⟨5, 5, 5⟩, none⟩] ++ [⟨Hand.right, some ⟨1, 2, 3⟩, none⟩])).position =
      Vector3.add ⟨1, 2, 3⟩ (Vector3.sub ⟨1 / 20, 0, 0⟩ ⟨0, 0, 0⟩) ∧
    (XrTarget.moves
        (XrTarget.onPinchStarted [restingTarget 1 ⟨1 / 20, 0, 0⟩] pinchAtOrigin
          (restingTarget 1 ⟨1 / 20, 0, 0⟩)).1
        ([⟨Hand.left, some ⟨5, 5, 5⟩, none⟩] ++ [⟨Hand.right, some ⟨0, 0, 0⟩, none⟩])).position =
      ⟨1 / 20, 0, 0⟩ := by
  have h := grabbed_follows_pinch [restingTarget 1 ⟨1 / 20, 0, 0⟩] pinchAtOrigin
    (restingTarget 1 ⟨1 / 20, 0, 0⟩) ⟨0, 0, 0⟩ ⟨1, 2, 3⟩ [⟨Hand.left, some ⟨5, 5, 5⟩, none⟩] none
    rfl rfl
    (by
      simp [XrTarget.onPinchStarted, restingTarget, pinchAtOrigin, XrTarget.isMoving,
        XrTarget.closestEntity, XrTarget.closestStep, xrDefaults, Vector3.distanceLt,
        Vector3.distanceToSquared]
      norm_num)
  exact ⟨h.2.2.1, h.2.2.2⟩

/-- C24: once a `pinchable-xr` target is grabbed by hand `h`, a pinch-start,
pinch-move or pinch-end event of a different hand leaves the whole target
unchanged, in particular its grabbed flag, grabbing hand, grab offset and
position, and emits no release event. -/
theorem other_hand_ignored (scene : List XrTarget) (self : XrTarget) (h : Hand)
    (evt : PinchDetail) (hg : self.grabbed = true) (hh : self.grabbingHand = some h)
    (hne : evt.hand ≠ h) :
    XrTarget.onPinchStarted scene evt self = (self, evt) ∧
      XrTarget.onPinchMoved self evt = self ∧
      XrTarget.onPinchEnded self evt = (self, []) := by
  refine ⟨?_, ?_, ?_⟩
  · simp [XrTarget.onPinchStarted, hg]
  · simp [XrTarget.onPinchMoved, hg, hh, hne]
  · simp [XrTarget.onPinchEnded, hg, hh, hne]

/-- C24, at a marker grabbed by the right hand and events of the left hand. -/
theorem other_hand_ignored_witness :
    XrTarget.onPinchStarted []
        ⟨Hand.left, some ⟨0, 0, 0⟩, none⟩
        { restingTarget 1 ⟨0, 0, 0⟩ with grabbed := true, grabbingHand := some Hand.right } =
      ({ restingTarget 1 ⟨0, 0, 0⟩ with grabbed := true, grabbingHand := some Hand.right },
        ⟨Hand.left, some ⟨0, 0, 0⟩, none⟩) ∧
    XrTarget.onPinchMoved
        { restingTarget 1 ⟨0, 0, 0⟩ with grabbed := true, grabbingHand := some Hand.right }
        ⟨Hand.left, some ⟨0, 0, 0⟩, none⟩ =
      { restingTarget 1 ⟨0, 0, 0⟩ with grabbed := true, grabbingHand := some Hand.right } ∧
    XrTarget.onPinchEnded
        { restingTarget 1 ⟨0, 0, 0⟩ with grabbed := true, grabbingHand := some Hand.right }
        ⟨Hand.left, some ⟨0, 0, 0⟩, none⟩ =
      ({ restingTarget 1 ⟨0, 0, 0⟩ with grabbed := true, grabbingHand := some Hand.right }, []) :=
  other_hand_ignored [] _ Hand.right ⟨Hand.left, some ⟨0, 0, 0⟩, none⟩ rfl rfl (by decide)
/-- A single ungrabbed marker is grabbed by a pinch-start exactly when the
pinch is within its own range, the larger one when it is moving, and also
within its plain `grabDistance`, the range of the scan for the closest
entity. -/
theorem XrTarget.single_grabbed_iff (t : XrTarget) (evt : PinchDetail) (p : Vector3)
    (h0 : t.grabbed = false) (hp : evt.position = some p) (he : evt.grabbedEntity = none) :
    (XrTarget.onPinchStarted [t] evt t).1.grabbed = true ↔
      Vector3.distanceLt t.position p
          (if t.isMoving = true then t.data.movingGrabDistance else t.data.grabDistance) ∧
        Vector3.distanceLt t.position p t.data.grabDistance := by
  unfold XrTarget.onPinchStarted
  rw [if_neg (by simp [h0]), if_neg (by simp [he]), hp]
  dsimp only
  by_cases h2 : Vector3.distanceLt t.position p
      (if t.isMoving = true then t.data.movingGrabDistance else t.data.grabDistance)
  · rw [if_pos h2]
    by_cases h3 : Vector3.distanceLt t.position p t.data.grabDistance
    · have hc : XrTarget.closestEntity [t] p = some t.el := by
        simp [XrTarget.closestEntity, XrTarget.closestStep, h3]
      rw [if_pos hc]
      cases ha : t.animator <;> simp [h2, h3]
    · have hc : XrTarget.closestEntity [t] p ≠ some t.el := by
        simp [XrTarget.closestEntity, XrTarget.closestStep, h3]
      rw [if_neg hc]
      simp [h0, h3]
  · rw [if_neg h2]
    simp [h0, h2]

/-- A single ungrabbed marker that is not moving is grabbed by a pinch-start
exactly when the pinch is within its `grabDistance`. -/
theorem XrTarget.single_resting_grabbed_iff (t : XrTarget) (evt : PinchDetail) (p : Vector3)
    (h0 : t.grabbed = false) (hm : t.isMoving = false) (hp : evt.position = some p)
    (he : evt.grabbedEntity = none) :
    (XrTarget.onPinchStarted [t] evt t).1.grabbed = true ↔
      Vector3.distanceLt t.position p t.data.grabDistance := by
  rw [XrTarget.single_grabbed_iff t evt p h0 hp he, hm]
  simp

/-- C22 fails on a moving marker alone in the scene, with the default
schema, at 0.12 from the pinch: the pinch is within `movingGrabDistance`
(0.15) and not within `grabDistance` (0.1), and the pinch-start leaves the
marker ungrabbed and the event unmarked. -/
theorem moving_marker_not_grabbed :
    (movingTarget 1 ⟨12 / 100, 0, 0⟩).isMoving = true ∧
      Vector3.distanceLt (movingTarget 1 ⟨12 / 100, 0, 0⟩).position ⟨0, 0, 0⟩
        (movingTarget 1 ⟨12 / 100, 0, 0⟩).data.movingGrabDistance ∧
      ¬ Vector3.distanceLt (movingTarget 1 ⟨12 / 100, 0, 0⟩).position ⟨0, 0, 0⟩
        (movingTarget 1 ⟨12 / 100, 0, 0⟩).data.grabDistance ∧
      XrTarget.dispatchPinchStarted [movingTarget 1 ⟨12 / 100, 0, 0⟩] pinchAtOrigin =
        ([movingTarget 1 ⟨12 / 100, 0, 0⟩], pinchAtOrigin) := by
  refine ⟨rfl, ?_, ?_, ?_⟩
  · simp [movingTarget, restingTarget, xrDefaults, Vector3.distanceLt,
      Vector3.distanceToSquared]
    norm_num
  · simp [movingTarget, restingTarget, xrDefaults, Vector3.distanceLt,
      Vector3.distanceToSquared]
    norm_num
  · simp [XrTarget.dispatchPinchStarted, XrTarget.dispatchFrom, XrTarget.onPinchStarted,
      movingTarget, restingTarget, pinchAtOrigin, XrTarget.isMoving, XrTarget.closestEntity,
      XrTarget.closestStep, xrDefaults, Vector3.distanceLt, Vector3.distanceToSquared]
    norm_num
    simp

/-- C21 fails on the scene `twoMarkers`: both markers are within their grab
range of the pinch at the origin and the moving marker 1 is strictly closer,
but the scan of `pinchable-xr` for the closest entity passes over marker 1
and names marker 2, so the pinch-start grabs marker 2 and leaves marker 1
ungrabbed; the scan of `pinchable-ar` names marker 1 on the same scene. -/
theorem closer_moving_marker_not_grabbed :
    Vector3.distanceLt (movingTarget 1 ⟨12 / 100, 0, 0⟩).position ⟨0, 0, 0⟩ (15 / 100) ∧
      Vector3.distanceLt (wideTarget 2 ⟨0, 15 / 100, 0⟩).position ⟨0, 0, 0⟩ (4 / 10) ∧
      Vector3.distanceToSquared (movingTarget 1 ⟨12 / 100, 0, 0⟩).position ⟨0, 0, 0⟩ <
        Vector3.distanceToSquared (wideTarget 2 ⟨0, 15 / 100, 0⟩).position ⟨0, 0, 0⟩ ∧
      XrTarget.closestEntity twoMarkers ⟨0, 0, 0⟩ = some 2 ∧
      ArTarget.closestEntity twoMarkersAr ⟨0, 0, 0⟩ = some 1 ∧
      (XrTarget.dispatchPinchStarted twoMarkers pinchAtOrigin).1.map
          (fun t => (t.el, t.grabbed)) = [(1, false), (2, true)] ∧
      (XrTarget.dispatchPinchStarted twoMarkers pinchAtOrigin).2.grabbedEntity = some 2 := by
  refine ⟨?_, ?_, ?_, ?_, ?_, ?_, ?_⟩
  · simp [movingTarget, restingTarget, Vector3.distanceLt, Vector3.distanceToSquared]
    norm_num
  · simp [wideTarget, restingTarget, Vector3.distanceLt, Vector3.distanceToSquared]
    norm_num
  · simp [movingTarget, wideTarget, restingTarget, Vector3.distanceToSquared]
    norm_num
  · simp [twoMarkers, XrTarget.closestEntity, XrTarget.closestStep, movingTarget, wideTarget,
      restingTarget, xrDefaults, Vector3.distanceLt, Vector3.distanceToSquared]
    norm_num
  · simp [twoMarkersAr, ArTarget.closestEntity, ArTarget.closestStep, restingAr, xrDefaults,
      ArTarget.isMoving, Vector3.distanceLt, Vector3.distanceToSquared]
    norm_num
  · simp [twoMarkers, XrTarget.dispatchPinchStarted, XrTarget.dispatchFrom,
      XrTarget.onPinchStarted, movingTarget, wideTarget, restingTarget, pinchAtOrigin,
      XrTarget.isMoving, XrTarget.closestEntity, XrTarget.closestStep, xrDefaults,
      Vector3.distanceLt, Vector3.distanceToSquared]
    norm_num
  · simp [twoMarkers, XrTarget.dispatchPinchStarted, XrTarget.dispatchFrom,
      XrTarget.onPinchStarted, movingTarget, wideTarget, restingTarget, pinchAtOrigin,
      XrTarget.isMoving, XrTarget.closestEntity, XrTarget.closestStep, xrDefaults,
      Vector3.distanceLt, Vector3.distanceToSquared]
    norm_num
/-- On the scene `twoMarkersAr`, when the tick of marker 1 runs before the
tick of marker 2, one pinch of hand 0 at the origin grabs both markers of
`pinchable-ar`: the grab pauses marker 1, which then counts with its plain
grab distance in the scan of marker 2. -/
theorem ar_pinch_grabs_both :
    (ArTarget.onPinchStarted twoMarkersAr none ⟨0, 0, 0⟩ 0
        (twoMarkersAr.getD 0 heldAr)).grabbed = true ∧
      (ArTarget.onPinchStarted
        [ArTarget.onPinchStarted twoMarkersAr none ⟨0, 0, 0⟩ 0 (twoMarkersAr.getD 0 heldAr),
          twoMarkersAr.getD 1 heldAr]
        none ⟨0, 0, 0⟩ 0 (twoMarkersAr.getD 1 heldAr)).grabbed = true := by
  constructor
  · simp [twoMarkersAr, ArTarget.onPinchStarted, ArTarget.closestEntity, ArTarget.closestStep,
      restingAr, xrDefaults, ArTarget.isMoving, Vector3.distanceLt, Vector3.distanceToSquared]
    norm_num
  · simp [twoMarkersAr, ArTarget.onPinchStarted, ArTarget.closestEntity, ArTarget.closestStep,
      restingAr, xrDefaults, ArTarget.isMoving, Vector3.distanceLt, Vector3.distanceToSquared]
    norm_num

/-! ## A grabbing hand that disappears: lemmas -/

/-- While a marker is grabbed, the loop body of `tick` of `pinchable-ar`
does nothing for a hand that is not visible, and nothing for a hand other
than the grabbing one. -/
theorem ArTarget.handStep_grabbed (frame : ArFrame) (before after : List ArTarget)
    (self : ArTarget) (evs : List SphereReleased) (i k : ℕ) (hand : ArHand)
    (hg : self.grabbed = true) (hi : self.grabbingHandIndex = some i)
    (hk : k ≠ i ∨ hand.visible = false) :
    ArTarget.handStep frame before after (self, evs) k hand = (self, evs) := by
  unfold ArTarget.handStep
  dsimp only
  by_cases hv : hand.visible = false
  · rw [if_pos hv]
  · rw [if_neg hv]
    have hki : k ≠ i := by
      rcases hk with h | h
      · exact h
      · exact absurd h hv
    have hik : ¬ (some i : Option ℕ) = some k := by
      intro h
      exact hki (Option.some.inj h).symm
    by_cases hl : hand.landmarks = false
    · rw [if_pos hl]
    · rw [if_neg hl]
      cases ht : hand.tips with
      | none => rfl
      | some tp =>
        obtain ⟨thumbPos, indexPos⟩ := tp
        simp [hg, hi, hik, ArTarget.onPinchStarted]

/-- While a marker is grabbed by hand `i`, the loop of `tick` of
`pinchable-ar` over hand entities among which hand `i` is missing or not
visible does nothing. -/
theorem ArTarget.handLoop_grabbed (frame : ArFrame) (before after : List ArTarget)
    (self : ArTarget) (i : ℕ) (hg : self.grabbed = true) (hi : self.grabbingHandIndex = some i)
    (hands : List ArHand) :
    ∀ (k : ℕ) (evs : List SphereReleased),
      (∀ (j : ℕ) (hand : ArHand), hands.get? j = some hand → k + j ≠ i ∨ hand.visible = false) →
      ArTarget.handLoop frame before after k hands (self, evs) = (self, evs) := by
  induction hands with
  | nil => intro k evs _; rfl
  | cons hand rest ih =>
    intro k evs h
    unfold ArTarget.handLoop
    rw [ArTarget.handStep_grabbed frame before after self evs i k hand hg hi (h 0 hand rfl)]
    apply ih
    intro j hd hj
    have := h (j + 1) hd (by simpa using hj)
    rcases this with h1 | h1
    · left
      omega
    · right
      exact h1

/-- While a marker is grabbed by hand `i`, a tick of `pinchable-ar` in which
hand `i` is missing or not visible, and sphere mode is off, changes nothing
and emits nothing. -/
theorem ArTarget.tick_grabbing_hand_hidden (frame : ArFrame) (before after : List ArTarget)
    (self : ArTarget) (i : ℕ) (hands : List ArHand) (hg : self.grabbed = true)
    (hi : self.grabbingHandIndex = some i) (hh : frame.handEntities = some hands)
    (hs : frame.sphereModeEnabled = false)
    (hgone : ∀ hand : ArHand, hands.get? i = some hand → hand.visible = false) :
    ArTarget.tick frame before after self = (self, []) := by
  unfold ArTarget.tick
  rw [hh]
  dsimp only
  rw [if_neg (by simp [hs])]
  rw [ArTarget.handLoop_grabbed frame before after self i hg hi hands 0 []
    (by
      intro j hand hj
      by_cases hji : j = i
      · right
        exact hgone hand (hji ▸ hj)
      · left
        omega)]
  simp [hg]

/-- While a line is grabbed by hand `i`, a tick of `pinchable-line-ar` in
which hand `i` is missing or not visible runs `release`: the line is no
longer grabbed and the grabbing hand is cleared. -/
theorem LineAr.tick_releases_hidden_hand (frame : ArFrame) (toWorld : Vector3 → Vector3)
    (spheres : List ArTarget) (self : LineAr) (i : ℕ) (hands : List ArHand)
    (hr : self.isReady = true) (hg : self.grabbed = true)
    (hi : self.grabbingHandIndex = some i) (hh : frame.handEntities = some hands)
    (hgone : LineAr.handGone hands i = true) :
    LineAr.tick frame toWorld spheres self =
      ({ self with grabbed := false, grabbingHandIndex := none }, [LineArEvent.released]) := by
  unfold LineAr.tick
  rw [if_neg (by simp [hr]), hh]
  dsimp only
  by_cases ha : LineAr.isInteractionAllowed frame = false
  · rw [if_pos ha, if_pos hg]
    rfl
  · rw [if_neg ha, if_pos ⟨hg, by simp [LineAr.grabbingHandGone, hi, hgone]⟩]
    rfl

/-! ## A grabbing hand that disappears: properties -/

/-- C25 fails for markers: on `heldAr`, a `pinchable-ar` marker grabbed by
hand 0, a tick in which no hand entity is visible leaves the marker grabbed
by hand 0 and emits no `sphere-released` event; on `heldLineAr`, a
`pinchable-line-ar` line grabbed by hand 0, the same tick runs `release`. -/
theorem hidden_hand_keeps_marker_grabbed :
    ArTarget.tick hiddenHandsFrame [] [] heldAr = (heldAr, []) ∧
      heldAr.grabbed = true ∧ heldAr.grabbingHandIndex = some 0 ∧
      LineAr.tick hiddenHandsFrame (fun p => p) [] heldLineAr =
        ({ heldLineAr with grabbed := false, grabbingHandIndex := none },
          [LineArEvent.released]) := by
  refine ⟨?_, rfl, rfl, ?_⟩
  · exact ArTarget.tick_grabbing_hand_hidden hiddenHandsFrame [] [] heldAr 0
      [hiddenHand, hiddenHand] rfl rfl rfl rfl (by intro hand h; cases h; rfl)
  · exact LineAr.tick_releases_hidden_hand hiddenHandsFrame (fun p => p) [] heldLineAr 0
      [hiddenHand, hiddenHand] rfl rfl rfl rfl rfl
/-! ## Dragging a line: lemmas -/

theorem Vector3.ext_iff_coords (a b : Vector3) : a = b ↔ a.x = b.x ∧ a.y = b.y ∧ a.z = b.z := by
  cases a; cases b
  simp

/-- What `onPinchStarted` of a line leaves behind when it grabs the line. -/
theorem LineTarget.grab_state (env : LineEnv) (evt : PinchDetail) (self : LineTarget)
    (p0 : Vector3) (h0 : self.grabbed = false) (hp : evt.position = some p0)
    (hg : (LineTarget.onPinchStarted env evt self).grabbed = true) :
    LineTarget.onPinchStarted env evt self =
      { self with
        grabbed := true
        grabbingHand := some evt.hand
        grabOffset := Vector3.sub (env.toWorld self.position) p0
        originalPosition := env.toWorld self.position } := by
  unfold LineTarget.onPinchStarted at hg ⊢
  rw [if_neg (by simp [h0])] at hg ⊢
  by_cases h1 : env.interactionAllowed = false
  · rw [if_pos h1] at hg
    simp [h0] at hg
  · rw [if_neg h1, hp] at hg ⊢
    dsimp only at hg ⊢
    by_cases h2 : env.mesh = false
    · rw [if_pos h2] at hg
      simp [h0] at hg
    · rw [if_neg h2] at hg ⊢
      split_ifs at hg ⊢ with h3
      · rfl
      · simp [h0] at hg

/-- The drag of a grabbed line whose `originalPosition` is `q + grabOffset`:
after moves of the grabbing hand at `ps` the line has moved by the last pinch
point minus `q`, which is also the sum of the movements emitted. -/
theorem LineTarget.moves_drag (h : Hand) (ps : List Vector3) :
    ∀ (t : LineTarget) (q : Vector3), t.grabbed = true → t.grabbingHand = some h →
      t.originalPosition = Vector3.add q t.grabOffset →
      (LineTarget.moves t (movesOf h ps)).1.position =
          Vector3.add t.position (Vector3.sub (ps.getLastD q) q) ∧
        totalMovement (LineTarget.moves t (movesOf h ps)).2 = Vector3.sub (ps.getLastD q) q := by
  induction ps with
  | nil =>
    intro t q _ _ _
    simp [movesOf, LineTarget.moves, totalMovement, Vector3.add, Vector3.sub]
  | cons p ps ih =>
    intro t q hg hh ho
    have hstep : LineTarget.onPinchMoved t ⟨h, some p, none⟩ =
        ({ t with
           position := Vector3.add t.position
             (Vector3.sub (Vector3.add p t.grabOffset) t.originalPosition)
           originalPosition := Vector3.add p t.grabOffset },
          [{ path := t.pathData,
             movement := Vector3.sub (Vector3.add p t.grabOffset) t.originalPosition }]) := by
      simp [LineTarget.onPinchMoved, hg, hh]
    have hm : LineTarget.moves t (movesOf h (p :: ps)) =
        ((LineTarget.moves (LineTarget.onPinchMoved t ⟨h, some p, none⟩).1 (movesOf h ps)).1,
          (LineTarget.onPinchMoved t ⟨h, some p, none⟩).2 ++
            (LineTarget.moves (LineTarget.onPinchMoved t ⟨h, some p, none⟩).1
              (movesOf h ps)).2) := rfl
    rw [hm, hstep]
    dsimp only
    obtain ⟨i1, i2⟩ := ih
      { t with
        position := Vector3.add t.position
          (Vector3.sub (Vector3.add p t.grabOffset) t.originalPosition)
        originalPosition := Vector3.add p t.grabOffset } p hg hh rfl
    rw [i1, List.singleton_append, totalMovement, i2, List.getLastD_cons, ho]
    dsimp only
    constructor
    · rw [Vector3.ext_iff_coords]
      simp only [Vector3.add, Vector3.sub]
      refine ⟨by ring, by ring, by ring⟩
    · rw [Vector3.ext_iff_coords]
      simp only [Vector3.add, Vector3.sub]
      refine ⟨by ring, by ring, by ring⟩

/-! ## Dragging a line: properties -/

/-- C30: if a `pinchable-line` line is grabbed at the pinch point `p0`, then
after pinch-move events of the grabbing hand at `p1, ..., pn` the position of
the line entity is its position at the grab plus `pn - p0` (plus zero when
there was no move), whatever the intermediate points; the movements of the
`path-moved` events emitted add up to the same displacement. -/
theorem drag_telescopes (env : LineEnv) (evt : PinchDetail) (self : LineTarget)
    (p0 : Vector3) (ps : List Vector3) (h0 : self.grabbed = false)
    (hp : evt.position = some p0)
    (hg : (LineTarget.onPinchStarted env evt self).grabbed = true) :
    (LineTarget.moves (LineTarget.onPinchStarted env evt self)
        (movesOf evt.hand ps)).1.position =
        Vector3.add self.position (Vector3.sub (ps.getLastD p0) p0) ∧
      totalMovement (LineTarget.moves (LineTarget.onPinchStarted env evt self)
        (movesOf evt.hand ps)).2 = Vector3.sub (ps.getLastD p0) p0 := by
  rw [LineTarget.grab_state env evt self p0 h0 hp hg]
  exact LineTarget.moves_drag evt.hand ps _ p0 rfl rfl
    (by
      rw [Vector3.ext_iff_coords]
      simp only [Vector3.add, Vector3.sub]
      refine ⟨by ring, by ring, by ring⟩)

/-- C30, at `axisLine` grabbed by the right hand at `(10.5, 1, 0)` and
dragged through `(3, 3, 3)` and `(-1, 0, 7)` to `(11.5, 2, 1)`: the line
ends at `(1, 2, 1)`, its position `(0, 1, 0)` plus `(1, 1, 1)`. -/
theorem drag_telescopes_witness :
    (LineTarget.moves
        (LineTarget.onPinchStarted axisLineEnv ⟨Hand.right, some ⟨21 / 2, 1, 0⟩, none⟩ axisLine)
        (movesOf Hand.right [⟨3, 3, 3⟩, ⟨-1, 0, 7⟩, ⟨23 / 2, 2, 1⟩])).1.position = ⟨1, 2, 1⟩ := by
  have h := (drag_telescopes axisLineEnv ⟨Hand.right, some ⟨21 / 2, 1, 0⟩, none⟩ axisLine
    ⟨21 / 2, 1, 0⟩ [⟨3, 3, 3⟩, ⟨-1, 0, 7⟩, ⟨23 / 2, 2, 1⟩] rfl rfl
    (by
      simp [LineTarget.onPinchStarted, axisLineEnv, axisLine, minDistance, minStep,
        segmentDistanceSq, distanceToLineSegment, withinDistance, LineTarget.sphereNearby,
        pointAt, Vector3.add, Vector3.sub, Vector3.dot, Vector3.clone,
        Vector3.multiplyScalar, Vector3.distanceToSquared, List.range_succ]
      norm_num)).1
  rw [h]
  simp [axisLine, Vector3.add, Vector3.sub]
  norm_num

/-! ## The distance to a segment and square roots -/

/-- The tests of `distanceToLineSegment` on the `projection`, which is `dot`
divided by the length of the line, are the tests on `dot` and the square of
the length used by the embedding, and the projected point is the same. -/
theorem projection_tests (dot lengthSq x : ℝ) (hpos : 0 < lengthSq) :
    (dot / Real.sqrt lengthSq ≤ 0 ↔ dot ≤ 0) ∧
      (Real.sqrt lengthSq ≤ dot / Real.sqrt lengthSq ↔ lengthSq ≤ dot) ∧
      x / Real.sqrt lengthSq * (dot / Real.sqrt lengthSq) = x * (dot / lengthSq) := by
  have hL : 0 < Real.sqrt lengthSq := Real.sqrt_pos.mpr hpos
  have hLL : Real.sqrt lengthSq * Real.sqrt lengthSq = lengthSq :=
    Real.mul_self_sqrt hpos.le
  refine ⟨?_, ?_, ?_⟩
  · rw [div_le_iff₀ hL, zero_mul]
  · rw [le_div_iff₀ hL, hLL]
  · rw [div_mul_div_comm, hLL, mul_div_assoc]

/-- Comparing the squares of two distances is comparing the distances. -/
theorem segmentDistance_lt_iff (point worldPos : Vector3) (path : List Vector3) (i j : ℕ) :
    Real.sqrt (segmentDistanceSq point worldPos path i : ℚ) <
        Real.sqrt (segmentDistanceSq point worldPos path j : ℚ) ↔
      segmentDistanceSq point worldPos path i < segmentDistanceSq point worldPos path j := by
  have hi : (0 : ℝ) ≤ (segmentDistanceSq point worldPos path i : ℚ) := by
    exact_mod_cast Vector3.distanceToSquared_nonneg _ _
  rw [Real.sqrt_lt_sqrt_iff hi]
  exact_mod_cast Iff.rfl
/-! ## The spawner: lemmas -/

theorem Spawner.animateSphereOnPath_fst (scene : Scene) (sp : Spawner) (sphere : ℕ)
    (l : LoopData) :
    (Spawner.animateSphereOnPath scene sp sphere l).1.loops = sp.loops ∧
      (Spawner.animateSphereOnPath scene sp sphere l).1.timers = sp.timers :=
  ⟨rfl, rfl⟩

theorem Spawner.animateSphereOnPath_snd (scene : Scene) (sp : Spawner) (sphere : ℕ)
    (l : LoopData) (a : SpawnerAction)
    (ha : a ∈ (Spawner.animateSphereOnPath scene sp sphere l).2) :
    ∃ c, a = SpawnerAction.animate sphere l c := by
  simp only [Spawner.animateSphereOnPath, List.mem_singleton] at ha
  exact ⟨_, ha⟩

theorem Spawner.loopCreatedStep_spec (scene : Scene) (l : LoopData)
    (acc : Spawner × List SpawnerAction) (sphere : ℕ) :
    (Spawner.loopCreatedStep scene l acc sphere).1.loops = acc.1.loops ∧
      (Spawner.loopCreatedStep scene l acc sphere).1.timers = acc.1.timers ∧
      ∀ a ∈ (Spawner.loopCreatedStep scene l acc sphere).2,
        a ∈ acc.2 ∨ ∃ s c, a = SpawnerAction.animate s l c := by
  unfold Spawner.loopCreatedStep
  split_ifs with h1 h2
  · exact ⟨rfl, rfl, fun a ha => Or.inl ha⟩
  · refine ⟨rfl, rfl, ?_⟩
    intro a ha
    rcases List.mem_append.mp ha with h | h
    · exact Or.inl h
    · obtain ⟨c, hc⟩ := Spawner.animateSphereOnPath_snd scene acc.1 sphere l a h
      exact Or.inr ⟨sphere, c, hc⟩
  · exact ⟨rfl, rfl, fun a ha => Or.inl ha⟩

theorem Spawner.loopCreatedFold_spec (scene : Scene) (l : LoopData) (spheres : List ℕ) :
    ∀ acc : Spawner × List SpawnerAction,
      (spheres.foldl (Spawner.loopCreatedStep scene l) acc).1.loops = acc.1.loops ∧
        (spheres.foldl (Spawner.loopCreatedStep scene l) acc).1.timers = acc.1.timers ∧
        ∀ a ∈ (spheres.foldl (Spawner.loopCreatedStep scene l) acc).2,
          a ∈ acc.2 ∨ ∃ s c, a = SpawnerAction.animate s l c := by
  induction spheres with
  | nil => intro acc; exact ⟨rfl, rfl, fun a ha => Or.inl ha⟩
  | cons s rest ih =>
    intro acc
    obtain ⟨h1, h2, h3⟩ := ih (Spawner.loopCreatedStep scene l acc s)
    obtain ⟨g1, g2, g3⟩ := Spawner.loopCreatedStep_spec scene l acc s
    refine ⟨h1.trans g1, h2.trans g2, ?_⟩
    intro a ha
    rcases h3 a ha with h | h
    · exact g3 a h
    · exact Or.inr h

theorem Spawner.sound_same (sp : Spawner) (hinv : Spawner.Inv sp) :
    Spawner.Sound sp (sp, []) :=
  ⟨hinv, fun _ h => h, fun _ _ _ h => absurd h (List.not_mem_nil _)⟩

theorem Spawner.onLoopCreated_sound (scene : Scene) (path : List Vector3)
    (intersection : Option Intersection) (lineEntity : Option ℕ) (sp : Spawner)
    (hinv : Spawner.Inv sp) :
    Spawner.Sound sp (Spawner.onLoopCreated scene path intersection lineEntity sp) := by
  obtain ⟨ht, hl⟩ := hinv
  have key : ∀ sp2 : Spawner, sp2.loops = sp.loops ++ [⟨path, intersection,
      intersection.isSome, lineEntity⟩] → sp2.timers = sp.timers →
      ∀ r : Spawner × List SpawnerAction,
        r = (if intersection.isSome = true then
            scene.wobblySpheres.foldl (Spawner.loopCreatedStep scene
              ⟨path, intersection, intersection.isSome, lineEntity⟩) (sp2, [])
          else (sp2, [])) →
        Spawner.Sound sp r := by
    intro sp2 h2l h2t r hr
    have hloops : r.1.loops = sp.loops ++ [⟨path, intersection, intersection.isSome,
        lineEntity⟩] ∧ r.1.timers = sp.timers ∧
        ∀ a ∈ r.2, intersection.isSome = true ∧
          ∃ s c, a = SpawnerAction.animate s
            ⟨path, intersection, intersection.isSome, lineEntity⟩ c := by
      by_cases hi : intersection.isSome = true
      · rw [if_pos hi] at hr
        obtain ⟨f1, f2, f3⟩ := Spawner.loopCreatedFold_spec scene
          ⟨path, intersection, intersection.isSome, lineEntity⟩ scene.wobblySpheres (sp2, [])
        rw [← hr] at f1 f2 f3
        refine ⟨f1.trans h2l, f2.trans h2t, ?_⟩
        intro a ha
        rcases f3 a ha with h | h
        · exact absurd h (List.not_mem_nil a)
        · exact ⟨hi, h⟩
      · rw [if_neg hi] at hr
        subst hr
        exact ⟨h2l, h2t, fun a ha => absurd ha (List.not_mem_nil a)⟩
    obtain ⟨e1, e2, e3⟩ := hloops
    refine ⟨⟨?_, ?_⟩, ?_, ?_⟩
    · intro e he
      rw [e2] at he
      rw [e1]
      exact ⟨List.mem_append_left _ (ht e he).1, (ht e he).2⟩
    · intro l hmem
      rw [e1] at hmem
      rcases List.mem_append.mp hmem with h | h
      · exact hl l h
      · rw [List.mem_singleton] at h
        subst h
        rfl
    · intro l hmem
      rw [e1]
      exact List.mem_append_left _ hmem
    · intro s l c hmem
      obtain ⟨hi, s2, c2, heq⟩ := e3 _ hmem
      injection heq with _ hl2 _
      subst hl2
      rw [e1]
      exact ⟨List.mem_append_right _ (List.mem_singleton.mpr rfl), hi⟩
  cases lineEntity with
  | none =>
    exact key { sp with loops := sp.loops ++ [⟨path, intersection, intersection.isSome, none⟩] }
      rfl rfl _ rfl
  | some le =>
    exact key
      { sp with
        loops := sp.loops ++ [⟨path, intersection, intersection.isSome, some le⟩]
        lineEntities := sp.lineEntities ++ [le] }
      rfl rfl _ rfl

theorem Spawner.onSphereCreated_sound (scene : Scene) (sphere : ℕ) (position : Vector3)
    (sp : Spawner) (hinv : Spawner.Inv sp) :
    Spawner.Sound sp (Spawner.onSphereCreated scene sphere position sp) := by
  unfold Spawner.onSphereCreated
  split_ifs with h0
  · exact Spawner.sound_same sp hinv
  · split
    · rename_i l0 hfind
      have hmem := List.mem_of_find?_eq_some hfind
      have hp := List.find?_some hfind
      simp only [Bool.and_eq_true] at hp
      refine ⟨⟨?_, hinv.2⟩, fun l h => h, fun s l c h => absurd h (List.not_mem_nil _)⟩
      intro e he
      rcases List.mem_append.mp he with h | h
      · exact hinv.1 e h
      · rw [List.mem_singleton] at h
        subst h
        exact ⟨hmem, hp.2⟩
    · exact Spawner.sound_same sp hinv

theorem Spawner.onSphereReleased_sound (scene : Scene) (detail : SphereReleased)
    (sp : Spawner) (hinv : Spawner.Inv sp) :
    Spawner.Sound sp (Spawner.onSphereReleased scene detail sp) := by
  unfold Spawner.onSphereReleased
  split
  · rename_i l0 hfind
    have hmem := List.mem_of_find?_eq_some hfind
    have hp := List.find?_some hfind
    simp only [Bool.and_eq_true] at hp
    split_ifs with ha
    · refine ⟨⟨?_, hinv.2⟩, fun l h => h, ?_⟩
      · intro e he
        rcases List.mem_append.mp he with h | h
        · exact hinv.1 e h
        · rw [List.mem_singleton] at h
          subst h
          exact ⟨hmem, hp.2⟩
      · intro s l c h
        simp at h
    · refine ⟨hinv, fun l h => h, ?_⟩
      intro s l c h
      obtain ⟨c2, hc⟩ := Spawner.animateSphereOnPath_snd scene sp detail.sphere l0 _ h
      injection hc with _ hl2 _
      subst hl2
      exact ⟨hmem, hp.2⟩
  · refine ⟨hinv, fun l h => h, ?_⟩
    intro s l c h
    split_ifs at h <;> simp at h

theorem Spawner.onTimer_sound (scene : Scene) (k : ℕ) (sp : Spawner)
    (hinv : Spawner.Inv sp) : Spawner.Sound sp (Spawner.onTimer scene k sp) := by
  unfold Spawner.onTimer
  split
  · rename_i sphere l0 hget
    have hmem := hinv.1 _ (List.get?_mem hget)
    refine ⟨⟨?_, hinv.2⟩, fun l h => h, ?_⟩
    · intro e he
      exact hinv.1 e (List.mem_of_mem_eraseIdx he)
    · intro s l c h
      obtain ⟨c2, hc⟩ := Spawner.animateSphereOnPath_snd scene _ sphere l0 _ h
      injection hc with _ hl2 _
      subst hl2
      exact hmem
  · exact Spawner.sound_same sp hinv

/-- One event keeps the invariant of the spawner and the stored loops, and
every `animateSphereOnPath` it runs is for a stored loop with `hasLoop`. -/
theorem Spawner.handle_inv (sp : Spawner) (e : SpawnerInput) (hinv : Spawner.Inv sp) :
    Spawner.Sound sp (Spawner.handle sp e) := by
  cases e with
  | loopCreated scene path intersection lineEntity =>
    exact Spawner.onLoopCreated_sound scene path intersection lineEntity sp hinv
  | sphereCreated scene sphere position =>
    exact Spawner.onSphereCreated_sound scene sphere position sp hinv
  | sphereReleased scene detail => exact Spawner.onSphereReleased_sound scene detail sp hinv
  | timer scene k => exact Spawner.onTimer_sound scene k sp hinv

/-- A sequence of events keeps the invariant of the spawner and the stored
loops, and every `animateSphereOnPath` it runs is for a loop stored at the
end, with `hasLoop`. -/
theorem Spawner.run_inv (inputs : List SpawnerInput) :
    ∀ sp : Spawner, Spawner.Inv sp →
      Spawner.Inv (Spawner.run sp inputs).1 ∧
        (∀ l ∈ sp.loops, l ∈ (Spawner.run sp inputs).1.loops) ∧
        ∀ s l c, SpawnerAction.animate s l c ∈ (Spawner.run sp inputs).2 →
          l ∈ (Spawner.run sp inputs).1.loops ∧ l.hasLoop = true := by
  induction inputs with
  | nil =>
    intro sp hinv
    exact ⟨hinv, fun l h => h, fun s l c h => absurd h (List.not_mem_nil _)⟩
  | cons e es ih =>
    intro sp hinv
    obtain ⟨h1, h2, h3⟩ := Spawner.handle_inv sp e hinv
    obtain ⟨i1, i2, i3⟩ := ih (Spawner.handle sp e).1 h1
    have hrun : Spawner.run sp (e :: es) =
        ((Spawner.run (Spawner.handle sp e).1 es).1,
          (Spawner.handle sp e).2 ++ (Spawner.run (Spawner.handle sp e).1 es).2) := rfl
    rw [hrun]
    refine ⟨i1, fun l h => i2 l (h2 l h), ?_⟩
    intro s l c h
    rcases List.mem_append.mp h with h | h
    · exact ⟨i2 l (h3 s l c h).1, (h3 s l c h).2⟩
    · exact i3 s l c h

/-! ## The spawner: properties -/

/-- C20: for every sequence of loop-created, sphere-created and
sphere-released events, and timers firing, handled by the spawner from its
initial state, every call of `animateSphereOnPath` is for a stored loop whose
`hasLoop` is true and whose intersection is set, and `hasLoop` of every
stored loop is true exactly when its intersection is set; so a path stored
without intersection is never attached to a marker, however close. -/
theorem attach_only_loops (animationSpeed : ℚ) (inputs : List SpawnerInput) :
    (∀ s l c, SpawnerAction.animate s l c ∈
        (Spawner.run (Spawner.init animationSpeed) inputs).2 →
        l ∈ (Spawner.run (Spawner.init animationSpeed) inputs).1.loops ∧ l.hasLoop = true ∧
          l.intersection ≠ none) ∧
      ∀ l ∈ (Spawner.run (Spawner.init animationSpeed) inputs).1.loops,
        (l.hasLoop = true ↔ l.intersection ≠ none) := by
  have hinit : Spawner.Inv (Spawner.init animationSpeed) :=
    ⟨fun e he => absurd he (List.not_mem_nil e), fun l hl => absurd hl (List.not_mem_nil l)⟩
  obtain ⟨⟨-, h1⟩, -, h3⟩ := Spawner.run_inv inputs (Spawner.init animationSpeed) hinit
  have hiff : ∀ l ∈ (Spawner.run (Spawner.init animationSpeed) inputs).1.loops,
      (l.hasLoop = true ↔ l.intersection ≠ none) := by
    intro l hl
    rw [h1 l hl]
    cases l.intersection <;> simp
  refine ⟨?_, hiff⟩
  intro s l c h
  obtain ⟨g1, g2⟩ := h3 s l c h
  exact ⟨g1, g2, (hiff l g1).mp g2⟩
/-- The straight path is never attached: a marker created and released on
it, with the timers fired, is left without animator. -/
theorem straight_path_not_attached :
    (Spawner.run (Spawner.init (1 / 5))
      [SpawnerInput.loopCreated (oneMarkerScene ⟨1 / 2, 0, 0⟩) straightPath none none,
        SpawnerInput.sphereCreated (oneMarkerScene ⟨1 / 2, 0, 0⟩) 7 ⟨1 / 2, 0, 0⟩,
        SpawnerInput.timer (oneMarkerScene ⟨1 / 2, 0, 0⟩) 0,
        SpawnerInput.sphereReleased (oneMarkerScene ⟨1 / 2, 0, 0⟩)
          ⟨7, ⟨1 / 2, 0, 0⟩, none, false⟩]).2 = [] := by
  simp [Spawner.run, Spawner.handle, Spawner.init, Spawner.onLoopCreated,
    Spawner.onSphereCreated, Spawner.onTimer, Spawner.onSphereReleased, oneMarkerScene]

/-- The X-shape with its crossing is attached to a marker that lies on it
when the loop is created. -/
theorem cross_path_attached :
    (Spawner.run (Spawner.init (1 / 5))
      [SpawnerInput.loopCreated (oneMarkerScene ⟨0, 0, 0⟩) xShape
        (some ⟨⟨1 / 2, 0, 1 / 2⟩, 1⟩) (some 3)]).2 =
      [SpawnerAction.animate 7 crossLoop ⟨xShape, 1 / 5, true, true, some 3⟩] := by
  simp [Spawner.run, Spawner.handle, Spawner.init, Spawner.onLoopCreated,
    Spawner.loopCreatedStep, Spawner.animateSphereOnPath, Spawner.lineWorldPos,
    oneMarkerScene, crossLoop, xShape, nearPath, segmentDistanceSq, distanceToLineSegment,
    pointAt, Vector3.add, Vector3.sub, Vector3.dot, Vector3.clone, Vector3.multiplyScalar,
    Vector3.distanceToSquared, List.range_succ]

/-! ## Releasing a marker: lemmas -/

theorem withinDistance_minStep (point worldPos : Vector3) (path : List Vector3) (r : ℚ)
    (acc : Option ℚ) (i : ℕ) :
    withinDistance (minStep point worldPos path acc i) r = true ↔
      withinDistance acc r = true ∨
        (0 < r ∧ segmentDistanceSq point worldPos path i < r * r) := by
  cases acc with
  | none => simp [minStep, withinDistance]
  | some m =>
    unfold minStep
    dsimp only
    split_ifs with h
    · simp only [withinDistance, decide_eq_true_eq]
      constructor
      · intro hh
        exact Or.inr hh
      · rintro (⟨h1, h2⟩ | hh)
        · exact ⟨h1, lt_trans h h2⟩
        · exact hh
    · simp only [withinDistance, decide_eq_true_eq]
      constructor
      · intro hh
        exact Or.inl hh
      · rintro (hh | ⟨h1, h2⟩)
        · exact hh
        · exact ⟨h1, lt_of_le_of_lt (not_lt.mp h) h2⟩

theorem withinDistance_foldl (point worldPos : Vector3) (path : List Vector3) (r : ℚ)
    (is : List ℕ) :
    ∀ acc : Option ℚ,
      withinDistance (is.foldl (minStep point worldPos path) acc) r = true ↔
        withinDistance acc r = true ∨
          (0 < r ∧ ∃ i ∈ is, segmentDistanceSq point worldPos path i < r * r) := by
  induction is with
  | nil => intro acc; simp
  | cons i rest ih =>
    intro acc
    rw [List.foldl_cons, ih, withinDistance_minStep]
    constructor
    · rintro ((h | ⟨h1, h2⟩) | ⟨h1, j, hj, h2⟩)
      · exact Or.inl h
      · exact Or.inr ⟨h1, i, List.mem_cons_self _ _, h2⟩
      · exact Or.inr ⟨h1, j, List.mem_cons_of_mem _ hj, h2⟩
    · rintro (h | ⟨h1, j, hj, h2⟩)
      · exact Or.inl (Or.inl h)
      · rcases List.mem_cons.mp hj with rfl | hj
        · exact Or.inl (Or.inr ⟨h1, h2⟩)
        · exact Or.inr ⟨h1, j, hj, h2⟩

/-- The test `minDistance < 0.15` of `onSphereReleased` holds exactly when
some segment of the path is at a distance below 0.15. -/
theorem withinDistance_minDistance (point worldPos : Vector3) (path : List Vector3) :
    withinDistance (minDistance point worldPos path) (15 / 100) = true ↔
      ∃ i : ℕ, i + 1 < path.length ∧
        segmentDistanceSq point worldPos path i < (15 / 100) * (15 / 100) := by
  unfold minDistance
  rw [withinDistance_foldl]
  constructor
  · rintro (h | ⟨-, i, hi, h⟩)
    · simp [withinDistance] at h
    · rw [List.mem_range] at hi
      exact ⟨i, by omega, h⟩
  · rintro ⟨i, hi, h⟩
    exact Or.inr ⟨by norm_num, i, List.mem_range.mpr (by omega), h⟩

/-- The test of `onSphereReleased` on a stored loop is `OnLoop`. -/
theorem onLoop_iff (scene : Scene) (position : Vector3) (l : LoopData) :
    (withinDistance (minDistance position (Spawner.lineWorldPos scene l) l.path) (15 / 100) &&
        l.hasLoop) = true ↔ OnLoop scene position l := by
  rw [Bool.and_eq_true, withinDistance_minDistance]
  exact And.comm

theorem find?_first {α : Type} (p : α → Bool) (pre post : List α) (a : α)
    (hpre : ∀ x ∈ pre, ¬ p x = true) (ha : p a = true) :
    (pre ++ a :: post).find? p = some a := by
  induction pre with
  | nil => simp [ha]
  | cons x xs ih =>
    have hx : p x = false := by
      have := hpre x (List.mem_cons_self _ _)
      simpa using this
    rw [List.cons_append, List.find?_cons, hx]
    exact ih (fun y hy => hpre y (List.mem_cons_of_mem _ hy))

/-! ## Releasing a marker: properties -/

/-- C26: when the grabbing hand ends its pinch on a grabbed `pinchable-xr`
marker, one `sphere-released` event with the position of the marker is
emitted; `onSphereReleased` then attaches the marker to the first stored loop,
in list order, that has `hasLoop` and a segment within 0.15 of that position:
at once when the marker has no animator, and otherwise by removing the
animator and setting a timer whose firing attaches it; when no stored loop
is such, it removes the animator, if any, and drops the marker from the
tracked list. -/
theorem release_reattaches (t : XrTarget) (evt : PinchDetail) (scene : Scene) (sp : Spawner)
    (hg : t.grabbed = true) (hh : t.grabbingHand = some evt.hand) :
    (XrTarget.onPinchEnded t evt).2 = [⟨t.el, t.position, t.animationData, t.wasAnimating⟩] ∧
      (XrTarget.onPinchEnded t evt).1.grabbed = false ∧
      (∀ (pre post : List LoopData) (l0 : LoopData), sp.loops = pre ++ l0 :: post →
        (∀ l ∈ pre, ¬ OnLoop scene t.position l) → OnLoop scene t.position l0 →
        Spawner.onSphereReleased scene ⟨t.el, t.position, t.animationData, t.wasAnimating⟩ sp =
          if scene.hasAnimator t.el = true then
            ({ sp with timers := sp.timers ++ [(t.el, l0)] },
              [SpawnerAction.removeAnimator t.el])
          else
            ({ sp with spheres := Spawner.track sp.spheres t.el },
              [SpawnerAction.animate t.el l0
                ⟨l0.path.map (fun p => Vector3.add p (Spawner.lineWorldPos scene l0)),
                  sp.animationSpeed, true, true, l0.lineEntity⟩])) ∧
      (∀ (scene2 : Scene) (l0 : LoopData),
        (Spawner.onTimer scene2 sp.timers.length
            { sp with timers := sp.timers ++ [(t.el, l0)] }).2 =
          [SpawnerAction.animate t.el l0
            ⟨l0.path.map (fun p => Vector3.add p (Spawner.lineWorldPos scene2 l0)),
              sp.animationSpeed, true, true, l0.lineEntity⟩]) ∧
      ((∀ l ∈ sp.loops, ¬ OnLoop scene t.position l) →
        Spawner.onSphereReleased scene ⟨t.el, t.position, t.animationData, t.wasAnimating⟩ sp =
          ({ sp with spheres := sp.spheres.erase t.el },
            if scene.hasAnimator t.el = true then [SpawnerAction.removeAnimator t.el]
            else [])) := by
  have hclone : ∀ l0 : LoopData, ∀ w : Vector3,
      l0.path.map (fun p => Vector3.add p.clone w) = l0.path.map (fun p => Vector3.add p w) := by
    intro l0 w
    apply List.map_congr_left
    intro p _
    rw [Vector3.clone_eq]
  refine ⟨?_, ?_, ?_, ?_, ?_⟩
  · simp [XrTarget.onPinchEnded, hg, hh, Vector3.clone_eq]
  · simp [XrTarget.onPinchEnded, hg, hh]
  · intro pre post l0 hloops hpre h0
    have hf : sp.loops.find?
        (fun loopData =>
          withinDistance
              (minDistance t.position (Spawner.lineWorldPos scene loopData) loopData.path)
              (15 / 100) &&
            loopData.hasLoop) = some l0 := by
      rw [hloops]
      exact find?_first _ pre post l0 (fun l hl => by rw [onLoop_iff]; exact hpre l hl)
        ((onLoop_iff scene t.position l0).mpr h0)
    unfold Spawner.onSphereReleased
    dsimp only
    rw [hf]
    dsimp only
    split_ifs with ha
    · rfl
    · simp only [Spawner.animateSphereOnPath, hclone]
  · intro scene2 l0
    unfold Spawner.onTimer
    have hget : (sp.timers ++ [(t.el, l0)]).get? sp.timers.length = some (t.el, l0) := by
      simp
    dsimp only
    rw [hget]
    simp only [Spawner.animateSphereOnPath, hclone]
  · intro hnone
    unfold Spawner.onSphereReleased
    dsimp only
    have hf : sp.loops.find?
        (fun loopData =>
          withinDistance
              (minDistance t.position (Spawner.lineWorldPos scene loopData) loopData.path)
              (15 / 100) &&
            loopData.hasLoop) = none := by
      rw [List.find?_eq_none]
      intro l hl
      rw [onLoop_iff]
      exact hnone l hl
    rw [hf]

/-- C26, at marker 7 released by the right hand at the origin, which lies on
the straight path and on the X-shape: the event carries the origin, and the
spawner, which knows the straight path first, attaches the marker to the
X-shape. -/
theorem release_reattaches_witness :
    (XrTarget.onPinchEnded heldMarker ⟨Hand.right, none, none⟩).2 =
        [⟨7, ⟨0, 0, 0⟩, none, false⟩] ∧
      Spawner.onSphereReleased (oneMarkerScene ⟨0, 0, 0⟩) ⟨7, ⟨0, 0, 0⟩, none, false⟩
          twoLoopSpawner =
        ({ twoLoopSpawner with spheres := Spawner.track twoLoopSpawner.spheres 7 },
          [SpawnerAction.animate 7 crossLoop
            ⟨crossLoop.path.map
                (fun p => Vector3.add p (Spawner.lineWorldPos (oneMarkerScene ⟨0, 0, 0⟩) crossLoop)),
              1 / 5, true, true, some 3⟩]) := by
  have h := release_reattaches heldMarker ⟨Hand.right, none, none⟩ (oneMarkerScene ⟨0, 0, 0⟩)
    twoLoopSpawner rfl rfl
  refine ⟨h.1, ?_⟩
  have h3 := h.2.2.1 [straightLoop] [] crossLoop rfl
    (by
      intro l hl
      rw [List.mem_singleton] at hl
      subst hl
      rintro ⟨hf, -⟩
      simp [straightLoop] at hf)
    ⟨rfl, 0, by simp [crossLoop, xShape], by
      simp [crossLoop, xShape, heldMarker, restingTarget, Spawner.lineWorldPos, oneMarkerScene,
        segmentDistanceSq, distanceToLineSegment, pointAt, Vector3.add, Vector3.sub,
        Vector3.dot, Vector3.clone, Vector3.multiplyScalar, Vector3.distanceToSquared]⟩
  exact h3.trans (if_neg (by simp [oneMarkerScene]))

end HandXr
